import Mathlib

/-!
# Memory Game engine (script.js)

Shallow embedding of the game engine of `script.js`: the card grid, the move
stack, the computer opponent's memory, the pick / resolve / undo operations and
the callbacks the engine hands to `setTimeout`.

Conventions of the embedding.

* The three mutable globals of the script (`gameState`, `ai`, `moveStack`) and the
  browser's queue of pending `setTimeout` callbacks are the fields of one record,
  `GameState`. The fields `moveHistory` and `aiMemory` of the JavaScript object are
  never read or written by the script and are left out.
* Everything that only touches the DOM (class lists, text content, overlays) is
  left out; the state changes of every function are kept, in source order.
* An operation returns `Option`: `none` stands for an uncaught `TypeError`
  (reading a property of `undefined`, for instance `grid[row][col]` outside the
  grid).
* `Math.random()` is a value of type `Draw`, a fraction in `[0, 1)`.
* Scores and `matchedPairs` are integers (`++` and `--` on JavaScript numbers).
-/

namespace MemoryGame

/-! ## Data model -/

/-- Card face: an entry of the `symbols` array, or `none` for JavaScript `undefined`
(an index past the end of the array). -/
abbrev Symbol := Option String

/-- Position object `{row, col}`. -/
structure Pos where
  row : Nat
  col : Nat
deriving DecidableEq, Repr

/-- Class `Card`. -/
structure Card where
  symbol : Symbol
  row : Nat
  col : Nat
  isRevealed : Bool
  isMatched : Bool
deriving DecidableEq, Repr

/-- Method `Card.reveal`. -/
def Card.reveal (c : Card) : Card := { c with isRevealed := true }

/-- Method `Card.hide`. -/
def Card.hide (c : Card) : Card := { c with isRevealed := false }

/-- Method `Card.setMatched`. -/
def Card.setMatched (c : Card) : Card := { c with isMatched := true }

/-- Assignment `card.isMatched = false` of `undoMove`. -/
def Card.clearMatched (c : Card) : Card := { c with isMatched := false }

/-- The 2D array `gameState.grid`. -/
abbrev Grid := List (List Card)

/-- Record pushed on `moveStack` by `checkMatch`: `{card1, card2, isPlayer1}`. -/
structure Move where
  card1 : Pos
  card2 : Pos
  isPlayer1 : Bool
deriving DecidableEq, Repr

/-- The `Map` held by `AIPlayer.memory`: symbol to array of positions, in insertion
order. -/
abbrev Memory := List (Symbol × List Pos)

/-- Value of `gameState.gameMode` (`'ai'` or `'multiplayer'`). -/
inductive GameMode where
  | ai
  | multiplayer
deriving DecidableEq, Repr

/-- One result of `Math.random()`: the fraction `num / den`, which lies in `[0, 1)`. -/
structure Draw where
  num : Nat
  den : Nat
  lt : num < den

/-- Expression `Math.floor(Math.random() * n)`. -/
def Draw.index (u : Draw) (n : Nat) : Nat := u.num * n / u.den

/-- Callbacks the engine passes to `setTimeout`. -/
inductive Callback where
  /-- The call `setTimeout(checkMatch, 1000)` of `handleCardClick`. -/
  | checkMatch
  /-- The 500 ms callback that unflips the two cards of a mismatch (`checkMatch` and
  `aiTurn`). -/
  | hide (card1 card2 : Pos)
  /-- The `aiDelay` callback of `switchTurn`. -/
  | aiThink
  /-- Outer 1000 ms callback of `aiTurn`: the second pick. -/
  | aiSecondPick (card1 : Pos)
  /-- Inner 1000 ms callback of `aiTurn`: the resolution. -/
  | aiResolve (card1 card2 : Pos)
  /-- The call `setTimeout(showGameOver, 500)`. -/
  | showGameOver
deriving DecidableEq, Repr

/-- The globals `gameState`, `ai.memory`, `moveStack.items` and the pending timers.
`totalPairs2` is twice `gameState.totalPairs`: the script computes
`totalPairs = rows * cols / 2` in floating point, a multiple of one half. -/
structure GameState where
  rows : Nat
  cols : Nat
  grid : Grid
  flippedCards : List Pos
  matchedPairs : Int
  totalPairs2 : Nat
  player1Score : Int
  player2Score : Int
  isPlayer1Turn : Bool
  isProcessing : Bool
  difficulty : String
  aiDelay : Nat
  gameMode : GameMode
  isAIGame : Bool
  isActive : Bool
  memory : Memory
  moveStack : List Move
  timers : List Callback
deriving DecidableEq, Repr

/-- Class `DifficultyNode` without its two links. -/
structure DifficultyNode where
  levelName : String
  rows : Nat
  cols : Nat
  timeLimit : Nat
  aiDelay : Nat
deriving DecidableEq, Repr

/-- Root of `createDifficultyTree`. -/
def difficultyTree : DifficultyNode := ⟨"Medium", 4, 4, 120, 1000⟩

/-- Node `difficultyTree.easier`. -/
def difficultyTreeEasier : DifficultyNode := ⟨"Easy", 3, 4, 180, 1500⟩

/-- Node `difficultyTree.harder`. -/
def difficultyTreeHarder : DifficultyNode := ⟨"Hard", 4, 6, 90, 800⟩

/-- The array `symbols`. -/
def symbols : List String :=
  ["🍎", "🍌", "🍇", "🍊", "🍓", "🍒", "🍑", "🍍", "🥝", "🍉", "🍋", "🥥", "🍆", "🥕", "🌽", "🥑"]

/-- The object literal `gameState` at page load, with empty `ai`, `moveStack` and
timer queue. -/
def initialGameState : GameState where
  rows := 0
  cols := 0
  grid := []
  flippedCards := []
  matchedPairs := 0
  totalPairs2 := 0
  player1Score := 0
  player2Score := 0
  isPlayer1Turn := true
  isProcessing := false
  difficulty := ""
  aiDelay := 1000
  gameMode := GameMode.ai
  isAIGame := true
  isActive := false
  memory := []
  moveStack := []
  timers := []

/-! ## Grid access -/

/-- Expression `grid[row][col]`; `none` when the row or the card is `undefined`. -/
def cardAt (grid : Grid) (row col : Nat) : Option Card :=
  match grid[row]? with
  | none => none
  | some cards => cards[col]?

/-- Replace the element at index `n` of a list by its image under `f`. -/
def modifyAt {α : Type} (f : α → α) : List α → Nat → List α
  | [], _ => []
  | x :: xs, 0 => f x :: xs
  | x :: xs, n + 1 => x :: modifyAt f xs n

/-- In-place mutation of the card object `grid[row][col]`. -/
def updateCard (grid : Grid) (row col : Nat) (f : Card → Card) : Grid :=
  modifyAt (fun cards => modifyAt f cards col) grid row

/-- Function `flipCard`: reveals `grid[row][col]`; throws when there is no such card. -/
def flipCard (grid : Grid) (row col : Nat) : Option Grid :=
  match cardAt grid row col with
  | none => none
  | some _ => some (updateCard grid row col Card.reveal)

/-- Function `unflipCard`: hides `grid[row][col]`; throws when there is no such card. -/
def unflipCard (grid : Grid) (row col : Nat) : Option Grid :=
  match cardAt grid row col with
  | none => none
  | some _ => some (updateCard grid row col Card.hide)

/-! ## Stack -/

/-- Method `Stack.push`. -/
def Stack.push {α : Type} (items : List α) (element : α) : List α := items ++ [element]

/-- Method `Stack.pop`: the returned element (`none` for `null`) and the remaining items. -/
def Stack.pop {α : Type} (items : List α) : Option α × List α :=
  if items.isEmpty then (none, items) else (items.getLast?, items.dropLast)

/-- Method `Stack.top`. -/
def Stack.top {α : Type} (items : List α) : Option α :=
  if items.isEmpty then none else items.getLast?

/-- Method `Stack.size`. -/
def Stack.size {α : Type} (items : List α) : Nat := items.length

/-! ## AIPlayer -/

/-- Method `Map.get`; `none` when the key is absent (`Map.has` is false). -/
def memGet : Memory → Symbol → Option (List Pos)
  | [], _ => none
  | (k, v) :: m, s => if k = s then some v else memGet m s

/-- Method `Map.set`: an existing key keeps its place, a new key goes last. -/
def memSet : Memory → Symbol → List Pos → Memory
  | [], s, v => [(s, v)]
  | (k, w) :: m, s, v => if k = s then (k, v) :: m else (k, w) :: memSet m s v

/-- Method `Map.delete`. -/
def memDelete : Memory → Symbol → Memory
  | [], _ => []
  | (k, w) :: m, s => if k = s then m else (k, w) :: memDelete m s

/-- Method `AIPlayer.rememberCard`. -/
def rememberCard (memory : Memory) (symbol : Symbol) (row col : Nat) : Memory :=
  let memory1 := if (memGet memory symbol).isSome then memory else memSet memory symbol []
  let positions := (memGet memory1 symbol).getD []
  let found := positions.any (fun p => p.row == row && p.col == col)
  if !found then memSet memory1 symbol (positions ++ [⟨row, col⟩]) else memory1

/-- Method `AIPlayer.forgetCard`. -/
def forgetCard (memory : Memory) (symbol : Symbol) (row col : Nat) : Memory :=
  match memGet memory symbol with
  | none => memory
  | some positions =>
    let filtered := positions.filter (fun p => p.row != row || p.col != col)
    if filtered.length = 0 then memDelete memory symbol else memSet memory symbol filtered

/-- The loop `for (const pos of positions)` of `AIPlayer.makeMove`: `some (some pos)` when
it returns `pos`, `some none` when it runs to its end, `none` when it throws. -/
def findInMemory (grid : Grid) (firstCard : Pos) : List Pos → Option (Option Pos)
  | [] => some none
  | pos :: rest =>
    match grid[pos.row]? with
    | none => none
    | some cards =>
      if pos.row ≠ firstCard.row ∨ pos.col ≠ firstCard.col then
        match cards[pos.col]? with
        | none => none
        | some card =>
          if !card.isMatched && !card.isRevealed then some (some pos)
          else findInMemory grid firstCard rest
      else findInMemory grid firstCard rest

/-- Index pairs visited by the two nested loops of `AIPlayer.makeMove`:
`i < grid.length`, `j < grid[0].length`. -/
def scanCells (grid : Grid) : List Pos :=
  (List.range grid.length).flatMap
    (fun i => (List.range ((grid[0]?).getD []).length).map (fun j => (⟨i, j⟩ : Pos)))

/-- Body of the two nested loops of `AIPlayer.makeMove`, building `available`. -/
def scanAvailable (grid : Grid) : List Pos → Option (List Pos)
  | [] => some []
  | p :: ps =>
    match cardAt grid p.row p.col with
    | none => none
    | some card =>
      match scanAvailable grid ps with
      | none => none
      | some rest => some (if !card.isMatched && !card.isRevealed then p :: rest else rest)

/-- The random pick at the end of `AIPlayer.makeMove`. -/
def randomMove (grid : Grid) (u : Draw) : Option (Option Pos) :=
  match scanAvailable grid (scanCells grid) with
  | none => none
  | some available =>
    if available.length = 0 then some none
    else some (available[u.index available.length]?)

/-- Method `AIPlayer.makeMove`: outer `none` is a thrown error, inner `none` is `null`. -/
def makeMove (memory : Memory) (grid : Grid) (firstCard : Option Pos) (u : Draw) :
    Option (Option Pos) :=
  match firstCard with
  | none => randomMove grid u
  | some fc =>
    match cardAt grid fc.row fc.col with
    | none => none
    | some anchor =>
      match memGet memory anchor.symbol with
      | none => randomMove grid u
      | some positions =>
        match findInMemory grid fc positions with
        | none => none
        | some (some pos) => some (some pos)
        | some none => randomMove grid u

/-! ## Game setup -/

/-- Function `selectMode`. -/
def selectMode (mode : GameMode) (s : GameState) : GameState :=
  { s with gameMode := mode, isAIGame := decide (mode = GameMode.ai) }

/-- Function `resetScores`. -/
def resetScores (s : GameState) : GameState :=
  { s with
    player1Score := 0
    player2Score := 0
    matchedPairs := 0
    isPlayer1Turn := true
    moveStack := []
    memory := [] }

/-- The destructuring swap of `shuffleArray`, for two indices inside the array. -/
def swap {α : Type} (array : List α) (i j : Nat) : List α :=
  match array[i]?, array[j]? with
  | some x, some y => (array.set i y).set j x
  | _, _ => array

/-- Loop of `shuffleArray` from index `i` down to 1; `draws k` is the `k`-th call of
`Math.random()`. -/
def shuffleLoop {α : Type} (draws : Nat → Draw) : Nat → Nat → List α → List α
  | 0, _, array => array
  | i + 1, k, array => shuffleLoop draws i (k + 1) (swap array (i + 1) ((draws k).index (i + 2)))

/-- Function `shuffleArray`. -/
def shuffleArray {α : Type} (draws : Nat → Draw) (array : List α) : List α :=
  shuffleLoop draws (array.length - 1) 0 array

/-- Function `initializeGame`. The loop `for (i = 0; i < totalPairs; i++)` runs for the
`i` with `2 * i < rows * cols`. -/
def initializeGame (draws : Nat → Draw) (s : GameState) : GameState :=
  let totalCards := s.rows * s.cols
  let cards : List Symbol :=
    (List.range ((totalCards + 1) / 2)).flatMap (fun i => [symbols[i]?, symbols[i]?])
  let shuffled := shuffleArray draws cards
  let grid : Grid :=
    (List.range s.rows).map (fun i =>
      (List.range s.cols).map (fun j =>
        (⟨(shuffled[i * s.cols + j]?).getD none, i, j, false, false⟩ : Card)))
  resetScores { s with totalPairs2 := totalCards, grid := grid }

/-- Function `startGame`. -/
def startGame (difficulty : String) (draws : Nat → Draw) (s : GameState) : GameState :=
  let level :=
    if difficulty = "easy" then difficultyTreeEasier
    else if difficulty = "medium" then difficultyTree
    else if difficulty = "hard" then difficultyTreeHarder
    else difficultyTree
  let s1 := { s with
    rows := level.rows, cols := level.cols, aiDelay := level.aiDelay, difficulty := difficulty }
  { initializeGame draws s1 with isActive := true }

/-- Function `exitGame`, once the confirmation dialog is accepted. -/
def exitGame (s : GameState) : GameState :=
  resetScores { s with isActive := false, isProcessing := false, memory := [], moveStack := [] }

/-- Function `resetGame`: `startGame(gameState.difficulty)`. -/
def resetGame (draws : Nat → Draw) (s : GameState) : GameState :=
  startGame s.difficulty draws s

/-! ## Turn engine -/

/-- Function `checkGameOver`: `matchedPairs >= totalPairs`. -/
def checkGameOver (s : GameState) : Bool :=
  decide ((s.totalPairs2 : Int) ≤ 2 * s.matchedPairs)

/-- Function `switchTurn`. -/
def switchTurn (s : GameState) : GameState :=
  let s1 := { s with isPlayer1Turn := !s.isPlayer1Turn }
  if s1.isPlayer1Turn then s1
  else if s1.gameMode = GameMode.multiplayer then s1
  else { s1 with timers := s1.timers ++ [Callback.aiThink] }

/-- Function `handleCardClick`. -/
def handleCardClick (row col : Nat) (s : GameState) : Option GameState :=
  if !s.isActive then some s
  else if s.isProcessing then some s
  else if s.isAIGame && !s.isPlayer1Turn then some s
  else
    match cardAt s.grid row col with
    | none => none
    | some card =>
      if card.isRevealed || card.isMatched then some s
      else
        let s1 := { s with
          grid := updateCard s.grid row col Card.reveal
          flippedCards := s.flippedCards ++ [⟨row, col⟩] }
        if s1.flippedCards.length = 2 then
          some { s1 with isProcessing := true, timers := s1.timers ++ [Callback.checkMatch] }
        else some s1

/-- Branch `symbol1 === symbol2` of `checkMatch`. -/
def matchFound (s : GameState) (card1 card2 : Pos) (symbol1 symbol2 : Symbol) : GameState :=
  let s2 := { s with
    grid := updateCard (updateCard s.grid card1.row card1.col Card.setMatched)
      card2.row card2.col Card.setMatched
    player1Score := if s.isPlayer1Turn then s.player1Score + 1 else s.player1Score
    player2Score := if s.isPlayer1Turn then s.player2Score else s.player2Score + 1
    matchedPairs := s.matchedPairs + 1
    memory :=
      if s.isAIGame then
        forgetCard (forgetCard s.memory symbol1 card1.row card1.col) symbol2 card2.row card2.col
      else s.memory
    moveStack := Stack.push s.moveStack ⟨card1, card2, s.isPlayer1Turn⟩ }
  if checkGameOver s2 then { s2 with timers := s2.timers ++ [Callback.showGameOver] } else s2

/-- The `else` branch of `checkMatch`: the two symbols differ. -/
def noMatch (s : GameState) (card1 card2 : Pos) (symbol1 symbol2 : Symbol) : GameState :=
  { s with
    memory :=
      if s.isAIGame then
        rememberCard (rememberCard s.memory symbol1 card1.row card1.col)
          symbol2 card2.row card2.col
      else s.memory
    timers := s.timers ++ [Callback.hide card1 card2] }

/-- End of `checkMatch`, after the two branches. -/
def finishCheckMatch (s : GameState) : GameState :=
  let s3 := { s with flippedCards := [], isProcessing := false }
  if !checkGameOver s3 then switchTurn s3 else s3

/-- Function `checkMatch`. -/
def checkMatch (s : GameState) : Option GameState :=
  match s.flippedCards with
  | card1 :: card2 :: _ =>
    match cardAt s.grid card1.row card1.col, cardAt s.grid card2.row card2.col with
    | some c1, some c2 =>
      let symbol1 := c1.symbol
      let symbol2 := c2.symbol
      some (finishCheckMatch
        (if symbol1 = symbol2 then matchFound s card1 card2 symbol1 symbol2
         else noMatch s card1 card2 symbol1 symbol2))
    | _, _ => none
  | _ => none

/-- Function `aiTurn` up to its first `setTimeout`: the guards and the first pick. -/
def aiTurn (u : Draw) (s : GameState) : Option GameState :=
  if !s.isActive then some { s with isProcessing := false }
  else if s.isProcessing then some s
  else
    let s1 := { s with isProcessing := true }
    match makeMove s1.memory s1.grid none u with
    | none => none
    | some none => some (switchTurn { s1 with isProcessing := false })
    | some (some card1) =>
      match flipCard s1.grid card1.row card1.col with
      | none => none
      | some grid =>
        some { s1 with grid := grid, timers := s1.timers ++ [Callback.aiSecondPick card1] }

/-- Outer callback of `aiTurn`: the second pick, anchored on `card1`. -/
def aiSecondPick (card1 : Pos) (u : Draw) (s : GameState) : Option GameState :=
  match makeMove s.memory s.grid (some card1) u with
  | none => none
  | some none =>
    match unflipCard s.grid card1.row card1.col with
    | none => none
    | some grid => some (switchTurn { s with grid := grid, isProcessing := false })
  | some (some card2) =>
    match flipCard s.grid card2.row card2.col with
    | none => none
    | some grid =>
      some { s with grid := grid, timers := s.timers ++ [Callback.aiResolve card1 card2] }

/-- Branch `symbol1 === symbol2` of the inner callback of `aiTurn`. -/
def aiMatchFound (s : GameState) (card1 card2 : Pos) (symbol1 symbol2 : Symbol) : GameState :=
  let s2 := { s with
    grid := updateCard (updateCard s.grid card1.row card1.col Card.setMatched)
      card2.row card2.col Card.setMatched
    player2Score := s.player2Score + 1
    matchedPairs := s.matchedPairs + 1
    memory :=
      forgetCard (forgetCard s.memory symbol1 card1.row card1.col) symbol2 card2.row card2.col }
  if checkGameOver s2 then { s2 with timers := s2.timers ++ [Callback.showGameOver] } else s2

/-- The `else` branch of the inner callback of `aiTurn`. -/
def aiNoMatch (s : GameState) (card1 card2 : Pos) (symbol1 symbol2 : Symbol) : GameState :=
  { s with
    memory :=
      rememberCard (rememberCard s.memory symbol1 card1.row card1.col)
        symbol2 card2.row card2.col
    timers := s.timers ++ [Callback.hide card1 card2] }

/-- End of the inner callback of `aiTurn`, after the two branches. -/
def finishAiTurn (s : GameState) : GameState :=
  let s3 := { s with isProcessing := false }
  if !checkGameOver s3 then switchTurn s3 else s3

/-- Inner callback of `aiTurn`: the resolution of the computer's pair. -/
def aiResolve (card1 card2 : Pos) (s : GameState) : Option GameState :=
  match cardAt s.grid card1.row card1.col, cardAt s.grid card2.row card2.col with
  | some c1, some c2 =>
    let symbol1 := c1.symbol
    let symbol2 := c2.symbol
    some (finishAiTurn
      (if symbol1 = symbol2 then aiMatchFound s card1 card2 symbol1 symbol2
       else aiNoMatch s card1 card2 symbol1 symbol2))
  | _, _ => none

/-- The 500 ms callback after a mismatch: `unflipCard` on both cards. -/
def hidePair (card1 card2 : Pos) (s : GameState) : Option GameState :=
  match unflipCard s.grid card1.row card1.col with
  | none => none
  | some grid1 =>
    match unflipCard grid1 card2.row card2.col with
    | none => none
    | some grid2 => some { s with grid := grid2 }

/-- Function `undoMove`. -/
def undoMove (s : GameState) : Option GameState :=
  if s.moveStack.isEmpty || s.isProcessing then some s
  else if !s.isPlayer1Turn then some s
  else
    match Stack.pop s.moveStack with
    | (none, _) => none
    | (some lastMove, items) =>
      let s1 := { s with moveStack := items }
      if lastMove.isPlayer1 then
        match cardAt s1.grid lastMove.card1.row lastMove.card1.col with
        | none => none
        | some _ =>
          let grid1 := updateCard s1.grid lastMove.card1.row lastMove.card1.col Card.clearMatched
          match cardAt grid1 lastMove.card2.row lastMove.card2.col with
          | none => none
          | some _ =>
            let grid2 := updateCard grid1 lastMove.card2.row lastMove.card2.col Card.clearMatched
            let s2 := { s1 with
              grid := grid2
              player1Score := s1.player1Score - 1
              matchedPairs := s1.matchedPairs - 1 }
            match unflipCard s2.grid lastMove.card1.row lastMove.card1.col with
            | none => none
            | some grid3 =>
              match unflipCard grid3 lastMove.card2.row lastMove.card2.col with
              | none => none
              | some grid4 => some { s2 with grid := grid4 }
      else some s1

/-! ## Deferred callbacks and sessions -/

/-- Body of a `setTimeout` callback; `u` is the result of `Math.random()` should the
callback call it. -/
def runCallback (cb : Callback) (u : Draw) (s : GameState) : Option GameState :=
  match cb with
  | Callback.checkMatch => checkMatch s
  | Callback.hide card1 card2 => hidePair card1 card2 s
  | Callback.aiThink => if !s.isActive then some s else aiTurn u s
  | Callback.aiSecondPick card1 => aiSecondPick card1 u s
  | Callback.aiResolve card1 card2 => aiResolve card1 card2 s
  | Callback.showGameOver => some s

/-- One event of a running session: a click on a card, a click on the undo button, or a
pending callback that fires. The delays of `setTimeout` are abstracted away: any pending
callback may be the next to fire. -/
inductive Step : GameState → GameState → Prop where
  | click (s t : GameState) (row col : Nat) :
      handleCardClick row col s = some t → Step s t
  | undo (s t : GameState) :
      undoMove s = some t → Step s t
  | fire (s t : GameState) (before after : List Callback) (cb : Callback) (u : Draw) :
      s.timers = before ++ cb :: after →
      runCallback cb u { s with timers := before ++ after } = some t → Step s t

/-- States of one session: `startGame`, after a mode selection, on a state with no pending
pick, no resolution in progress and no pending callback (the page-load state
`initialGameState` is one), then any number of events. -/
inductive Reachable : GameState → Prop where
  | start (mode : GameMode) (difficulty : String) (draws : Nat → Draw) (prior : GameState) :
      prior.flippedCards = [] → prior.isProcessing = false → prior.timers = [] →
      Reachable (startGame difficulty draws (selectMode mode prior))
  | step (s t : GameState) : Reachable s → Step s t → Reachable t

/-! ## Scripted sessions -/

/-- An event of a running session, as data: a click on a card, a click on the undo
button, or the firing of the pending callback at position `index` of the timer queue. -/
inductive Event where
  | click (row col : Nat)
  | undo
  | fire (index : Nat) (u : Draw)

/-- Effect of one event. -/
def applyEvent (e : Event) (s : GameState) : Option GameState :=
  match e with
  | Event.click row col => handleCardClick row col s
  | Event.undo => undoMove s
  | Event.fire index u =>
    match s.timers[index]? with
    | none => none
    | some cb => runCallback cb u { s with timers := s.timers.eraseIdx index }

/-- Effect of a list of events, in order. -/
def play : List Event → GameState → Option GameState
  | [], s => some s
  | e :: es, s =>
    match applyEvent e s with
    | none => none
    | some t => play es t

/-- A draw equal to 0. -/
def zeroDraw : Draw := ⟨0, 1, Nat.zero_lt_one⟩

/-- An easy game against the computer in which every `Math.random()` returned 0. The
grid is `🍎 🍌 🍌 🍇 / 🍇 🍊 🍊 🍓 / 🍓 🍒 🍒 🍎`. -/
def easyStart : GameState :=
  startGame "easy" (fun _ => zeroDraw) (selectMode GameMode.ai initialGameState)

/-- The same game for two human players. -/
def easyStartMulti : GameState :=
  startGame "easy" (fun _ => zeroDraw) (selectMode GameMode.multiplayer initialGameState)

/-- Events of `easyStart` up to Player 1's first resolution: Player 1 picks the two `🍌`
cards, at (0, 1) and (0, 2). -/
def matchReadyEvents : List Event := [Event.click 0 1, Event.click 0 2]

/-- State of `easyStart` after `matchReadyEvents`: `checkMatch` is pending. -/
def matchReady : GameState := (play matchReadyEvents easyStart).getD initialGameState

/-- State in which `checkMatch` runs once its timer has fired in `matchReady`. -/
def matchPicked : GameState := { matchReady with timers := [] }

/-- Events of `easyStart` up to Player 1's first resolution: Player 1 picks `🍎` at (0, 0)
and `🍌` at (0, 1). -/
def mismatchReadyEvents : List Event := [Event.click 0 0, Event.click 0 1]

/-- State of `easyStart` after `mismatchReadyEvents`: `checkMatch` is pending. -/
def mismatchReady : GameState :=
  (play mismatchReadyEvents easyStart).getD initialGameState

/-- Events of `easyStart` up to the computer's first resolution: Player 1 picks `🍎` at
(0, 0) and `🍇` at (0, 3), which differ and are hidden again; the computer draws 1/12 and
picks the `🍌` at (0, 1), then, with no memory of `🍌`, draws 1/11 and picks the `🍌` at
(0, 2). -/
def aiMatchReadyEvents : List Event :=
  [Event.click 0 0, Event.click 0 3, Event.fire 0 zeroDraw, Event.fire 0 zeroDraw,
   Event.fire 0 ⟨1, 12, by decide⟩, Event.fire 0 ⟨1, 11, by decide⟩]

/-- State of `easyStart` after `aiMatchReadyEvents`: the resolution callback of `aiTurn` is
pending. -/
def aiMatchReady : GameState := (play aiMatchReadyEvents easyStart).getD initialGameState

/-- State in which the resolution callback of `aiTurn` runs once its timer has fired in
`aiMatchReady`. -/
def aiMatchPicked : GameState := { aiMatchReady with timers := [] }

/-- Events of `easyStart` up to Player 1's second turn: Player 1 picks the two `🍌` cards
and `checkMatch` records the match; the computer picks `🍎` at (0, 0) and `🍇` at (0, 3),
which differ, and the two cards are hidden again. -/
def undoReadyEvents : List Event :=
  [Event.click 0 1, Event.click 0 2, Event.fire 0 zeroDraw, Event.fire 0 zeroDraw,
   Event.fire 0 zeroDraw, Event.fire 0 zeroDraw, Event.fire 0 zeroDraw]

/-- State of `easyStart` after `undoReadyEvents`. -/
def undoReady : GameState := (play undoReadyEvents easyStart).getD initialGameState

/-- Events of `easyStartMulti` up to Player 1's second turn: Player 1 picks `🍎` at (0, 0)
and `🍌` at (0, 1), which differ and are hidden again; Player 2 picks the two `🍌` cards
and `checkMatch` records the match. -/
def player2RecordedEvents : List Event :=
  [Event.click 0 0, Event.click 0 1, Event.fire 0 zeroDraw, Event.fire 0 zeroDraw,
   Event.click 0 1, Event.click 0 2, Event.fire 0 zeroDraw]

/-- State of `easyStartMulti` after `player2RecordedEvents`. -/
def player2Recorded : GameState :=
  (play player2RecordedEvents easyStartMulti).getD initialGameState

/-- Events of a whole game of `easyStartMulti`: the players pick, pair after pair, the two
`🍌`, `🍎`, `🍇`, `🍊`, `🍓` and `🍒` cards, and `checkMatch` runs after each pair. -/
def wholeGameEvents : List Event :=
  [Event.click 0 1, Event.click 0 2, Event.fire 0 zeroDraw,
   Event.click 0 0, Event.click 2 3, Event.fire 0 zeroDraw,
   Event.click 0 3, Event.click 1 0, Event.fire 0 zeroDraw,
   Event.click 1 1, Event.click 1 2, Event.fire 0 zeroDraw,
   Event.click 1 3, Event.click 2 0, Event.fire 0 zeroDraw,
   Event.click 2 1, Event.click 2 2, Event.fire 0 zeroDraw]

/-- State of `easyStartMulti` after `wholeGameEvents`: every card is matched. -/
def wholeGame : GameState := (play wholeGameEvents easyStartMulti).getD initialGameState

/-- A state whose grid size, 6 x 6, asks for 18 pairs, two more than the pool has
symbols. -/
def oversized : GameState := { initialGameState with rows := 6, cols := 6 }

/-- State of `easyStart` after Player 1 picked the `🍎` at (0, 0) and nothing else. -/
def onePicked : GameState := (play [Event.click 0 0] easyStart).getD initialGameState

/-- State of `easyStart` after Player 1 picked `🍎` at (0, 0) and `🍇` at (0, 3) and
`checkMatch` ran: the callback that hides the two cards and the think-delay callback of
`switchTurn` are pending. -/
def hidePending : GameState := (play (aiMatchReadyEvents.take 3) easyStart).getD initialGameState

/-- State of `easyStart` after the computer picked its first card, the `🍌` at (0, 1): the
second-pick callback of `aiTurn` is pending. -/
def secondPickPending : GameState :=
  (play (aiMatchReadyEvents.take 5) easyStart).getD initialGameState

/-- Fields of the state that a stale callback must leave alone; `cards` are the flags
`(isRevealed, isMatched)` of the cards at the four positions `(0, 0)` to `(0, 3)`. -/
structure Observed where
  isActive : Bool
  player1Score : Int
  player2Score : Int
  matchedPairs : Int
  isPlayer1Turn : Bool
  moveStack : List Move
  memory : Memory
  cards : List (Option (Bool × Bool))
deriving DecidableEq, Repr

/-- The observed fields of a state. -/
def observed (s : GameState) : Observed :=
  ⟨s.isActive, s.player1Score, s.player2Score, s.matchedPairs, s.isPlayer1Turn, s.moveStack,
    s.memory,
    (List.range 4).map (fun col =>
      (cardAt s.grid 0 col).map (fun c => (c.isRevealed, c.isMatched)))⟩

/-- State of `easyStart` in which `aiTurn` runs for the first time: Player 1 picked `🍎` at
(0, 0) and `🍇` at (0, 3), the two cards were hidden again and the think-delay callback has
just fired. -/
def thinkFired : GameState :=
  { (play (aiMatchReadyEvents.take 4) easyStart).getD initialGameState with timers := [] }

/-- State in which the second-pick callback of `aiTurn` runs once its timer has fired in
`secondPickPending`. -/
def secondPickFired : GameState := { secondPickPending with timers := [] }

/-- A game against the computer on a 2 x 2 board with two pairs, built by `initializeGame`
with every `Math.random()` equal to 0 and activated as `startGame` does. The grid is
`🍎 🍌 / 🍌 🍎`. -/
def smallBoard : GameState :=
  { initializeGame (fun _ => zeroDraw)
      { selectMode GameMode.ai initialGameState with rows := 2, cols := 2 } with
    isActive := true }

/-- A state whose grid size, 3 x 11, asks for 16.5 pairs: the loop of `initializeGame` builds
17 pairs, one more than the pool has symbols, and the grid takes 33 of the 34 entries. -/
def oddOversized : GameState := { initialGameState with rows := 3, cols := 11 }

/-- A two-player easy game in which Player 1 picked the card at (0, 0) and then pressed
Reset (`resetGame`, with every `Math.random()` equal to 0 again): the grid is rebuilt and
the pick is still pending. -/
def resetAfterPick : GameState :=
  resetGame (fun _ => zeroDraw) ((play [Event.click 0 0] easyStartMulti).getD initialGameState)

/-- Events of `resetAfterPick` in which Player 1 clicks (0, 0) again and `checkMatch` runs
on the pair `(0, 0), (0, 0)`. -/
def selfPairEvents : List Event := [Event.click 0 0, Event.fire 0 zeroDraw]

/-- Events of `resetAfterPick` up to the end of the game: after `selfPairEvents` the players
pick the pairs `🍌`, `🍇`, `🍊`, `🍓` and `🍒`, and `checkMatch` runs after each pair. -/
def selfPairGameEvents : List Event :=
  selfPairEvents ++
  [Event.click 0 1, Event.click 0 2, Event.fire 0 zeroDraw,
   Event.click 0 3, Event.click 1 0, Event.fire 0 zeroDraw,
   Event.click 1 1, Event.click 1 2, Event.fire 0 zeroDraw,
   Event.click 1 3, Event.click 2 0, Event.fire 0 zeroDraw,
   Event.click 2 1, Event.click 2 2, Event.fire 0 zeroDraw]

/-- An easy game against the computer started (`exitGame`, `selectMode('ai')`,
`startGame('easy')`, every `Math.random()` equal to 0) while the resolution callback of the
previous game, on the two `🍌` cards of `aiMatchReady`, is still pending. -/
def restartedAi : GameState :=
  startGame "easy" (fun _ => zeroDraw) (selectMode GameMode.ai (exitGame aiMatchReady))

/-- Events of `restartedAi`: Player 1 clicks `🍌` at (0, 1) and `🍎` at (0, 0), the resolution
callback of the previous game fires, then the delayed `checkMatch` fires. -/
def staleMatchEvents : List Event :=
  [Event.click 0 1, Event.click 0 0, Event.fire 0 zeroDraw, Event.fire 0 zeroDraw]

/-- A two-player easy game started (`exitGame`, `selectMode('multiplayer')`,
`startGame('easy')`, every `Math.random()` equal to 0) while the resolution callback of the
previous game, on the two `🍌` cards of `aiMatchReady`, is still pending. -/
def restartedMulti : GameState :=
  startGame "easy" (fun _ => zeroDraw)
    (selectMode GameMode.multiplayer (exitGame aiMatchReady))

/-- Events of `restartedMulti`: Player 1 clicks the two `🍌` cards, the resolution callback
of the previous game fires, then the delayed `checkMatch` fires. -/
def doubleCountEvents : List Event :=
  [Event.click 0 1, Event.click 0 2, Event.fire 0 zeroDraw, Event.fire 0 zeroDraw]

/-- Events of `restartedMulti` up to the last pair: after `doubleCountEvents` the players
pick the pairs `🍇`, `🍊`, `🍓` and `🍒`, the game-over callback fires, and the two `🍎`
cards are picked and resolved. -/
def overCountEvents : List Event :=
  doubleCountEvents ++
  [Event.click 0 3, Event.click 1 0, Event.fire 0 zeroDraw,
   Event.click 1 1, Event.click 1 2, Event.fire 0 zeroDraw,
   Event.click 1 3, Event.click 2 0, Event.fire 0 zeroDraw,
   Event.click 2 1, Event.click 2 2, Event.fire 0 zeroDraw,
   Event.fire 0 zeroDraw,
   Event.click 0 0, Event.click 2 3, Event.fire 0 zeroDraw]

/-! ## Predicates used in the statements -/

/-- The test `!card.isMatched && !card.isRevealed` on the card at position `p`: the card is
there, face down and unmatched. -/
def available (grid : Grid) (p : Pos) : Bool :=
  match cardAt grid p.row p.col with
  | none => false
  | some card => !card.isMatched && !card.isRevealed

/-- The test of the memory loop of `AIPlayer.makeMove` on a stored position `p`: it differs
from the first card and its card is face down and unmatched. -/
def usable (grid : Grid) (firstCard p : Pos) : Bool :=
  decide (p ≠ firstCard) && available grid p

/-- Every row of the grid is as long as its first row. -/
def rectangular (grid : Grid) : Prop :=
  ∀ cards ∈ grid, cards.length = ((grid[0]?).getD []).length

/-! ## Session invariant -/

/-- Cards a pending callback will act on. -/
def Callback.cards : Callback → List Pos
  | Callback.hide card1 card2 => [card1, card2]
  | Callback.aiSecondPick card1 => [card1]
  | Callback.aiResolve card1 card2 => [card1, card2]
  | Callback.checkMatch => []
  | Callback.aiThink => []
  | Callback.showGameOver => []

/-- Callbacks that continue a turn: the resolution of a human pair and the three stages
of a computer turn. -/
def Callback.isControl : Callback → Bool
  | Callback.checkMatch => true
  | Callback.aiThink => true
  | Callback.aiSecondPick _ => true
  | Callback.aiResolve _ _ => true
  | Callback.hide _ _ => false
  | Callback.showGameOver => false

/-- Pending callbacks that continue a turn. -/
def control (timers : List Callback) : List Callback := timers.filter Callback.isControl

/-- Cards that are face up and waiting: the human picks and the cards named by pending
callbacks. -/
def faceUp (s : GameState) : List Pos :=
  s.flippedCards ++ s.timers.flatMap Callback.cards

/-- Cards named by the records of the move stack. -/
def recorded (s : GameState) : List Pos :=
  s.moveStack.flatMap (fun m => [m.card1, m.card2])

/-- Number of cards of the grid whose `isMatched` flag is set. -/
def matchedCount (grid : Grid) : Nat :=
  (grid.map (fun cards => cards.countP (fun c => c.isMatched))).sum

/-- Number of cards of the grid. -/
def cardCount (grid : Grid) : Nat := (grid.map List.length).sum

/-- Keys of the memory map. -/
def memKeys (memory : Memory) : List Symbol := memory.map Prod.fst

/-- Where a session stands, read off the pending turn callback (at most one) and the busy
flag. -/
def Phase (s : GameState) : Prop :=
  (control s.timers = [] ∧ s.isProcessing = false ∧ s.flippedCards.length ≤ 1) ∨
  (control s.timers = [Callback.checkMatch] ∧ s.isProcessing = true ∧
    s.flippedCards.length = 2) ∨
  (control s.timers = [Callback.aiThink] ∧ s.isProcessing = false ∧
    s.isPlayer1Turn = false ∧ s.gameMode = GameMode.ai ∧ s.flippedCards = []) ∨
  (∃ card1, control s.timers = [Callback.aiSecondPick card1] ∧ s.isProcessing = true ∧
    s.flippedCards = [] ∧ s.gameMode = GameMode.ai) ∨
  (∃ card1 card2, control s.timers = [Callback.aiResolve card1 card2] ∧
    s.isProcessing = true ∧ s.flippedCards = [] ∧ s.gameMode = GameMode.ai)

/-- Consistency of a grid with the cards that are face up and waiting (`up`), the cards
named by the move stack (`rec`), the memory map and the pair counters. -/
structure Board (grid : Grid) (up rec : List Pos) (memory : Memory) (matchedPairs : Int)
    (totalPairs2 : Nat) : Prop where
  rect : rectangular grid
  total : totalPairs2 = cardCount grid
  count : 2 * matchedPairs = (matchedCount grid : Int)
  up_nodup : up.Nodup
  up_cards : ∀ p ∈ up, ∃ c, cardAt grid p.row p.col = some c ∧
    (c.isRevealed = true ∧ c.isMatched = false)
  rec_nodup : rec.Nodup
  rec_cards : ∀ p ∈ rec, ∃ c, cardAt grid p.row p.col = some c ∧ c.isMatched = true
  memory_keys : (memKeys memory).Nodup
  memory_cards : ∀ sym ps, memGet memory sym = some ps → ∀ p ∈ ps,
    ∃ c, cardAt grid p.row p.col = some c ∧ (c.symbol = sym ∧ c.isMatched = false)

/-- Facts that hold in every state of a session. -/
structure Invariant (s : GameState) : Prop where
  active : s.isActive = true
  mode : s.isAIGame = decide (s.gameMode = GameMode.ai)
  memory_multi : s.isAIGame = false → s.memory = []
  phase : Phase s
  board : Board s.grid (faceUp s) (recorded s) s.memory s.matchedPairs s.totalPairs2

/-- Relation between the scores, `matchedPairs` and the move stack in every state of a
session: each pair counted is a point of one side, and Player 1 has one point for each
record of the stack with `isPlayer1 = true`. -/
structure Scores (s : GameState) : Prop where
  sum : s.matchedPairs = s.player1Score + s.player2Score
  player1 : s.player1Score = ((s.moveStack.countP (fun m => m.isPlayer1) : Nat) : Int)
  player2 : 0 ≤ s.player2Score

/-! ## Index pairs of the shuffle -/

/-- The pairs `(i, j)` swapped by the loop of `shuffleArray` from index `i` down to 1, in
order; `draws k` is the `k`-th call of `Math.random()`. -/
def shuffleIndices (draws : Nat → Draw) : Nat → Nat → List (Nat × Nat)
  | 0, _ => []
  | i + 1, k => (i + 1, (draws k).index (i + 2)) :: shuffleIndices draws i (k + 1)

/-! ## Memories an AIPlayer can hold -/

/-- Values of `AIPlayer.memory`: the empty map of the constructor and of `clearMemory`,
and what `rememberCard` and `forgetCard` make of such a value. -/
inductive Built : Memory → Prop where
  | empty : Built []
  | remember (m : Memory) (symbol : Symbol) (row col : Nat) :
      Built m → Built (rememberCard m symbol row col)
  | forget (m : Memory) (symbol : Symbol) (row col : Nat) :
      Built m → Built (forgetCard m symbol row col)

/-- A memory that holds `🍎` at (0, 0) and at (2, 3), and `🍌` at (0, 1). -/
def sampleMemory : Memory :=
  rememberCard (rememberCard (rememberCard [] (some "🍎") 0 0) (some "🍌") 0 1) (some "🍎") 2 3

/-! ## Grid lemmas -/

theorem getElem?_modifyAt {α : Type} (f : α → α) (l : List α) (n m : Nat) :
    (modifyAt f l n)[m]? = if m = n then (l[m]?).map f else l[m]? := by
  induction l generalizing n m with
  | nil => cases n <;> simp [modifyAt]
  | cons x xs ih =>
    cases n with
    | zero => cases m <;> simp [modifyAt]
    | succ n => cases m <;> simp [modifyAt, ih]

theorem length_modifyAt {α : Type} (f : α → α) (l : List α) (n : Nat) :
    (modifyAt f l n).length = l.length := by
  induction l generalizing n with
  | nil => simp [modifyAt]
  | cons x xs ih => cases n <;> simp [modifyAt, ih]

theorem cardAt_updateCard (g : Grid) (r c : Nat) (f : Card → Card) (r' c' : Nat) :
    cardAt (updateCard g r c f) r' c' =
      if r' = r ∧ c' = c then (cardAt g r c).map f else cardAt g r' c' := by
  unfold cardAt updateCard
  rw [getElem?_modifyAt]
  by_cases hr : r' = r
  · subst hr
    cases hrow : g[r']? with
    | none => simp
    | some cards =>
      simp only [if_true, Option.map_some', true_and]
      rw [getElem?_modifyAt]
      by_cases hc : c' = c
      · subst hc; simp
      · simp [hc]
  · simp [hr]

theorem cardAt_updateCard_same (g : Grid) (r c : Nat) (f : Card → Card) :
    cardAt (updateCard g r c f) r c = (cardAt g r c).map f := by
  simp [cardAt_updateCard]

theorem cardAt_updateCard_other (g : Grid) (r c : Nat) (f : Card → Card) (r' c' : Nat)
    (h : ¬ (r' = r ∧ c' = c)) :
    cardAt (updateCard g r c f) r' c' = cardAt g r' c' := by
  simp [cardAt_updateCard, h]

theorem pos_ne_iff (p q : Pos) : p ≠ q ↔ ¬ (p.row = q.row ∧ p.col = q.col) := by
  cases p; cases q; simp

/-! ## Sessions as event lists -/

theorem applyEvent_step (e : Event) (s t : GameState) (h : applyEvent e s = some t) :
    Step s t := by
  cases e with
  | click row col => exact Step.click s t row col h
  | undo => exact Step.undo s t h
  | fire index u =>
    simp only [applyEvent] at h
    cases hcb : s.timers[index]? with
    | none => simp [hcb] at h
    | some cb =>
      simp only [hcb] at h
      have hlt : index < s.timers.length := by
        by_contra hge
        have : s.timers[index]? = none := List.getElem?_eq_none (Nat.le_of_not_lt hge)
        simp [this] at hcb
      have hget : s.timers[index] = cb := by
        rw [List.getElem?_eq_getElem hlt] at hcb
        exact Option.some.inj hcb
      refine Step.fire s t (s.timers.take index) (s.timers.drop (index + 1)) cb u ?_ ?_
      · rw [← hget]
        exact (List.take_append_drop index s.timers).symm.trans
          (by rw [List.drop_eq_getElem_cons hlt])
      · rw [← List.eraseIdx_eq_take_drop_succ]
        exact h

theorem play_reachable (es : List Event) (s t : GameState) (hs : Reachable s)
    (h : play es s = some t) : Reachable t := by
  induction es generalizing s with
  | nil =>
    simp only [play, Option.some.injEq] at h
    exact h ▸ hs
  | cons e es ih =>
    simp only [play] at h
    cases he : applyEvent e s with
    | none => simp [he] at h
    | some m =>
      simp only [he] at h
      exact ih m (Reachable.step s m hs (applyEvent_step e s m he)) h

/-! ## Field-by-field form of the engine functions -/

theorem switchTurn_eq (s : GameState) :
    switchTurn s = { s with
      isPlayer1Turn := !s.isPlayer1Turn
      timers :=
        if s.isPlayer1Turn = false ∨ s.gameMode = GameMode.multiplayer then s.timers
        else s.timers ++ [Callback.aiThink] } := by
  unfold switchTurn
  cases hp : s.isPlayer1Turn <;> cases hm : s.gameMode <;> simp [hp, hm]

theorem checkGameOver_eq (s : GameState) :
    checkGameOver s = decide ((s.totalPairs2 : Int) ≤ 2 * s.matchedPairs) := rfl

theorem matchFound_eq (s : GameState) (card1 card2 : Pos) (symbol1 symbol2 : Symbol) :
    matchFound s card1 card2 symbol1 symbol2 = { s with
      grid := updateCard (updateCard s.grid card1.row card1.col Card.setMatched)
        card2.row card2.col Card.setMatched
      player1Score := if s.isPlayer1Turn then s.player1Score + 1 else s.player1Score
      player2Score := if s.isPlayer1Turn then s.player2Score else s.player2Score + 1
      matchedPairs := s.matchedPairs + 1
      memory :=
        if s.isAIGame then
          forgetCard (forgetCard s.memory symbol1 card1.row card1.col) symbol2 card2.row card2.col
        else s.memory
      moveStack := s.moveStack ++ [⟨card1, card2, s.isPlayer1Turn⟩]
      timers :=
        if (s.totalPairs2 : Int) ≤ 2 * (s.matchedPairs + 1) then
          s.timers ++ [Callback.showGameOver]
        else s.timers } := by
  unfold matchFound
  by_cases h : (s.totalPairs2 : Int) ≤ 2 * (s.matchedPairs + 1) <;>
    simp [checkGameOver, h, Stack.push]

theorem aiMatchFound_eq (s : GameState) (card1 card2 : Pos) (symbol1 symbol2 : Symbol) :
    aiMatchFound s card1 card2 symbol1 symbol2 = { s with
      grid := updateCard (updateCard s.grid card1.row card1.col Card.setMatched)
        card2.row card2.col Card.setMatched
      player2Score := s.player2Score + 1
      matchedPairs := s.matchedPairs + 1
      memory :=
        forgetCard (forgetCard s.memory symbol1 card1.row card1.col) symbol2 card2.row card2.col
      timers :=
        if (s.totalPairs2 : Int) ≤ 2 * (s.matchedPairs + 1) then
          s.timers ++ [Callback.showGameOver]
        else s.timers } := by
  unfold aiMatchFound
  by_cases h : (s.totalPairs2 : Int) ≤ 2 * (s.matchedPairs + 1) <;>
    simp [checkGameOver, h]

theorem finishCheckMatch_eq (s : GameState) :
    finishCheckMatch s = { s with
      flippedCards := []
      isProcessing := false
      isPlayer1Turn := if checkGameOver s then s.isPlayer1Turn else !s.isPlayer1Turn
      timers :=
        if checkGameOver s = true ∨ s.isPlayer1Turn = false ∨ s.gameMode = GameMode.multiplayer
        then s.timers else s.timers ++ [Callback.aiThink] } := by
  unfold finishCheckMatch
  cases h : checkGameOver s
  · have h2 : checkGameOver { s with flippedCards := [], isProcessing := false } = false := h
    simp only [h2, switchTurn_eq]
    simp
  · have h2 : checkGameOver { s with flippedCards := [], isProcessing := false } = true := h
    simp only [h2]
    simp

theorem finishAiTurn_eq (s : GameState) :
    finishAiTurn s = { s with
      isProcessing := false
      isPlayer1Turn := if checkGameOver s then s.isPlayer1Turn else !s.isPlayer1Turn
      timers :=
        if checkGameOver s = true ∨ s.isPlayer1Turn = false ∨ s.gameMode = GameMode.multiplayer
        then s.timers else s.timers ++ [Callback.aiThink] } := by
  unfold finishAiTurn
  cases h : checkGameOver s
  · have h2 : checkGameOver { s with isProcessing := false } = false := h
    simp only [h2, switchTurn_eq]
    simp
  · have h2 : checkGameOver { s with isProcessing := false } = true := h
    simp only [h2]
    simp

theorem checkMatch_eq (s : GameState) (card1 card2 : Pos) (rest : List Pos) (c1 c2 : Card)
    (hf : s.flippedCards = card1 :: card2 :: rest)
    (h1 : cardAt s.grid card1.row card1.col = some c1)
    (h2 : cardAt s.grid card2.row card2.col = some c2) :
    checkMatch s = some (finishCheckMatch
      (if c1.symbol = c2.symbol then matchFound s card1 card2 c1.symbol c2.symbol
       else noMatch s card1 card2 c1.symbol c2.symbol)) := by
  simp only [checkMatch, hf, h1, h2]

theorem aiResolve_eq (s : GameState) (card1 card2 : Pos) (c1 c2 : Card)
    (h1 : cardAt s.grid card1.row card1.col = some c1)
    (h2 : cardAt s.grid card2.row card2.col = some c2) :
    aiResolve card1 card2 s = some (finishAiTurn
      (if c1.symbol = c2.symbol then aiMatchFound s card1 card2 c1.symbol c2.symbol
       else aiNoMatch s card1 card2 c1.symbol c2.symbol)) := by
  simp only [aiResolve, h1, h2]

/-! ## Resolution of a pair -/

/-- C1 (amended): when the two picked cards carry the same symbol and the match does not
complete the board, both `checkMatch` and the resolution callback of `aiTurn` hand the
turn to the other side: `isPlayer1Turn` is negated. -/
theorem match_switches_turn (s : GameState) (card1 card2 : Pos) (rest : List Pos)
    (c1 c2 : Card)
    (h1 : cardAt s.grid card1.row card1.col = some c1)
    (h2 : cardAt s.grid card2.row card2.col = some c2)
    (hsym : c1.symbol = c2.symbol)
    (hopen : ¬ ((s.totalPairs2 : Int) ≤ 2 * (s.matchedPairs + 1))) :
    (s.flippedCards = card1 :: card2 :: rest →
      ∃ t, checkMatch s = some t ∧ t.isPlayer1Turn = !s.isPlayer1Turn) ∧
    (∃ t, aiResolve card1 card2 s = some t ∧ t.isPlayer1Turn = !s.isPlayer1Turn) := by
  constructor
  · intro hf
    refine ⟨_, checkMatch_eq s card1 card2 rest c1 c2 hf h1 h2, ?_⟩
    rw [if_pos hsym, finishCheckMatch_eq, matchFound_eq]
    simp [checkGameOver_eq, hopen]
  · refine ⟨_, aiResolve_eq s card1 card2 c1 c2 h1 h2, ?_⟩
    rw [if_pos hsym, finishAiTurn_eq, aiMatchFound_eq]
    simp [checkGameOver_eq, hopen]

/-- C1 witness: the two `🍌` cards of `easyStart`, one pair out of six. -/
theorem match_switches_turn_witness :
    (matchPicked.flippedCards = [⟨0, 1⟩, ⟨0, 2⟩] →
      ∃ t, checkMatch matchPicked = some t ∧ t.isPlayer1Turn = !matchPicked.isPlayer1Turn) ∧
    (∃ t, aiResolve ⟨0, 1⟩ ⟨0, 2⟩ matchPicked = some t ∧
      t.isPlayer1Turn = !matchPicked.isPlayer1Turn) :=
  match_switches_turn matchPicked ⟨0, 1⟩ ⟨0, 2⟩ []
    ⟨some "🍌", 0, 1, true, false⟩ ⟨some "🍌", 0, 2, true, false⟩
    (by decide) (by decide) rfl (by decide)

/-- C1 counterexample: `matchReady` and `aiMatchReady` are states of a session. In the
first Player 1 holds the two `🍌` cards, five pairs stay on the board, and `checkMatch`
gives the turn to the computer; in the second the computer holds them and its resolution
gives the turn to Player 1. -/
theorem match_keeps_turn_counterexample :
    (Reachable matchReady ∧ matchReady.timers = [Callback.checkMatch] ∧
      matchPicked.flippedCards = [⟨0, 1⟩, ⟨0, 2⟩] ∧
      (cardAt matchPicked.grid 0 1).map Card.symbol = some (some "🍌") ∧
      (cardAt matchPicked.grid 0 2).map Card.symbol = some (some "🍌") ∧
      ¬ ((matchPicked.totalPairs2 : Int) ≤ 2 * (matchPicked.matchedPairs + 1)) ∧
      matchPicked.isPlayer1Turn = true ∧
      (checkMatch matchPicked).map (fun t => t.isPlayer1Turn) = some false) ∧
    (Reachable aiMatchReady ∧
      aiMatchReady.timers = [Callback.aiResolve ⟨0, 1⟩ ⟨0, 2⟩] ∧
      (cardAt aiMatchPicked.grid 0 1).map Card.symbol = some (some "🍌") ∧
      (cardAt aiMatchPicked.grid 0 2).map Card.symbol = some (some "🍌") ∧
      ¬ ((aiMatchPicked.totalPairs2 : Int) ≤ 2 * (aiMatchPicked.matchedPairs + 1)) ∧
      aiMatchPicked.isPlayer1Turn = false ∧
      (aiResolve ⟨0, 1⟩ ⟨0, 2⟩ aiMatchPicked).map (fun t => t.isPlayer1Turn) = some true) :=
  ⟨⟨play_reachable matchReadyEvents easyStart matchReady
      (Reachable.start GameMode.ai "easy" (fun _ => zeroDraw) initialGameState rfl rfl rfl) (by decide),
    by decide, by decide, by decide, by decide, by decide, by decide, by decide⟩,
   ⟨play_reachable aiMatchReadyEvents easyStart aiMatchReady
      (Reachable.start GameMode.ai "easy" (fun _ => zeroDraw) initialGameState rfl rfl rfl) (by decide),
    by decide, by decide, by decide, by decide, by decide, by decide⟩⟩

/-- C2: when the two picked cards are distinct and carry the same symbol (unmatched or
not), `checkMatch` adds 1 to `matchedPairs` and to the score of the side to move, keeps the
other score, sets `isMatched` on the two picked cards (their other fields are kept) and
leaves every other cell of the grid as it was. -/
theorem checkMatch_match_effect (s : GameState) (card1 card2 : Pos) (rest : List Pos)
    (c1 c2 : Card)
    (hf : s.flippedCards = card1 :: card2 :: rest)
    (h1 : cardAt s.grid card1.row card1.col = some c1)
    (h2 : cardAt s.grid card2.row card2.col = some c2)
    (hne : card1 ≠ card2)
    (hsym : c1.symbol = c2.symbol) :
    ∃ t, checkMatch s = some t ∧
      t.matchedPairs = s.matchedPairs + 1 ∧
      (s.isPlayer1Turn = true →
        t.player1Score = s.player1Score + 1 ∧ t.player2Score = s.player2Score) ∧
      (s.isPlayer1Turn = false →
        t.player2Score = s.player2Score + 1 ∧ t.player1Score = s.player1Score) ∧
      cardAt t.grid card1.row card1.col = some { c1 with isMatched := true } ∧
      cardAt t.grid card2.row card2.col = some { c2 with isMatched := true } ∧
      (∀ row col, (⟨row, col⟩ : Pos) ≠ card1 → (⟨row, col⟩ : Pos) ≠ card2 →
        cardAt t.grid row col = cardAt s.grid row col) := by
  refine ⟨_, checkMatch_eq s card1 card2 rest c1 c2 hf h1 h2, ?_⟩
  rw [if_pos hsym, finishCheckMatch_eq, matchFound_eq]
  have hne2 : ¬ (card1.row = card2.row ∧ card1.col = card2.col) := (pos_ne_iff _ _).1 hne
  have hne3 : ¬ (card2.row = card1.row ∧ card2.col = card1.col) := fun h => hne2 ⟨h.1.symm, h.2.symm⟩
  refine ⟨rfl, ?_, ?_, ?_, ?_, ?_⟩
  · intro hp; simp [hp]
  · intro hp; simp [hp]
  · simp only [cardAt_updateCard, hne2, if_false, true_and, and_self, if_true, h1,
      Option.map_some']
    rfl
  · simp only [cardAt_updateCard, hne3, if_false, true_and, and_self, if_true, h2,
      Option.map_some']
    rfl
  · intro row col hp1 hp2
    have e1 : ¬ (row = card1.row ∧ col = card1.col) := (pos_ne_iff ⟨row, col⟩ card1).1 hp1
    have e2 : ¬ (row = card2.row ∧ col = card2.col) := (pos_ne_iff ⟨row, col⟩ card2).1 hp2
    simp only [cardAt_updateCard, e1, e2, if_false]

/-- C2 witness: Player 1 holds the two `🍌` cards of `easyStart`. -/
theorem checkMatch_match_effect_witness :
    ∃ t, checkMatch matchPicked = some t ∧
      t.matchedPairs = matchPicked.matchedPairs + 1 ∧
      (matchPicked.isPlayer1Turn = true →
        t.player1Score = matchPicked.player1Score + 1 ∧
          t.player2Score = matchPicked.player2Score) ∧
      (matchPicked.isPlayer1Turn = false →
        t.player2Score = matchPicked.player2Score + 1 ∧
          t.player1Score = matchPicked.player1Score) ∧
      cardAt t.grid 0 1 = some ⟨some "🍌", 0, 1, true, true⟩ ∧
      cardAt t.grid 0 2 = some ⟨some "🍌", 0, 2, true, true⟩ ∧
      (∀ row col, (⟨row, col⟩ : Pos) ≠ ⟨0, 1⟩ → (⟨row, col⟩ : Pos) ≠ ⟨0, 2⟩ →
        cardAt t.grid row col = cardAt matchPicked.grid row col) :=
  checkMatch_match_effect matchPicked ⟨0, 1⟩ ⟨0, 2⟩ []
    ⟨some "🍌", 0, 1, true, false⟩ ⟨some "🍌", 0, 2, true, false⟩
    rfl (by decide) (by decide) (by decide) rfl

/-! ## Rejected clicks and undo -/

/-- C4: `handleCardClick` returns the state it was given, whole, when the session is not
active, or a resolution is in progress, or it is the computer's turn in AI mode, or the
target card is already revealed or already matched. -/
theorem handleCardClick_rejected (s : GameState) (row col : Nat)
    (h : s.isActive = false ∨ s.isProcessing = true ∨
      (s.isAIGame = true ∧ s.isPlayer1Turn = false) ∨
      (∃ card, cardAt s.grid row col = some card ∧
        (card.isRevealed = true ∨ card.isMatched = true))) :
    handleCardClick row col s = some s := by
  unfold handleCardClick
  by_cases ha : s.isActive = true
  · by_cases hp : s.isProcessing = true
    · simp [ha, hp]
    · by_cases hai : s.isAIGame = true ∧ s.isPlayer1Turn = false
      · simp [ha, hp, hai.1, hai.2]
      · rcases h with h | h | h | ⟨card, hc, hcard⟩
        · simp [h] at ha
        · exact absurd h hp
        · exact absurd h hai
        · have hguard : (s.isAIGame && !s.isPlayer1Turn) = false := by
            cases h1 : s.isAIGame <;> cases h2 : s.isPlayer1Turn <;> simp_all
          simp only [ha, hp, hguard, hc]
          rcases hcard with hcard | hcard <;> simp [hcard]
  · simp [ha]

/-- C4 witness: in an active session, a second click on the card just turned face up. -/
theorem handleCardClick_rejected_witness :
    handleCardClick 0 1 matchPicked = some matchPicked ∧
    handleCardClick 0 1 { matchPicked with isProcessing := false } =
      some { matchPicked with isProcessing := false } :=
  ⟨handleCardClick_rejected matchPicked 0 1 (Or.inr (Or.inl rfl)),
   handleCardClick_rejected { matchPicked with isProcessing := false } 0 1
    (Or.inr (Or.inr (Or.inr ⟨⟨some "🍌", 0, 1, true, false⟩, by decide, Or.inl rfl⟩)))⟩

/-- C6: `undoMove` returns the state it was given, whole, when the move stack is empty, or
a resolution is in progress, or it is not Player 1's turn. -/
theorem undoMove_rejected (s : GameState)
    (h : s.moveStack = [] ∨ s.isProcessing = true ∨ s.isPlayer1Turn = false) :
    undoMove s = some s := by
  unfold undoMove
  rcases h with h | h | h
  · simp [h]
  · simp [h]
  · simp [h]

/-- C6 witness: no move to undo at the start of a game. -/
theorem undoMove_rejected_witness : undoMove easyStart = some easyStart :=
  undoMove_rejected easyStart (Or.inl rfl)

theorem cardAt_updateCard_isSome (g : Grid) (r c : Nat) (f : Card → Card) (r' c' : Nat) :
    (cardAt (updateCard g r c f) r' c').isSome = (cardAt g r' c').isSome := by
  rw [cardAt_updateCard]
  split
  · next h => rw [h.1, h.2]; cases cardAt g r c <;> rfl
  · rfl

theorem stack_pop_concat {α : Type} (items : List α) (x : α) :
    Stack.pop (items ++ [x]) = (some x, items) := by
  simp [Stack.pop]

theorem undoMove_eq (s : GameState) (items : List Move) (m : Move) (c1 c2 : Card)
    (hstack : s.moveStack = items ++ [m])
    (hproc : s.isProcessing = false) (hturn : s.isPlayer1Turn = true)
    (hp1 : m.isPlayer1 = true)
    (h1 : cardAt s.grid m.card1.row m.card1.col = some c1)
    (h2 : cardAt s.grid m.card2.row m.card2.col = some c2) :
    undoMove s = some { s with
      moveStack := items
      grid := updateCard (updateCard (updateCard (updateCard s.grid
        m.card1.row m.card1.col Card.clearMatched)
        m.card2.row m.card2.col Card.clearMatched)
        m.card1.row m.card1.col Card.hide)
        m.card2.row m.card2.col Card.hide
      player1Score := s.player1Score - 1
      matchedPairs := s.matchedPairs - 1 } := by
  have e1 : ∀ (g : Grid), (cardAt g m.card1.row m.card1.col).isSome = true →
      ∃ c, cardAt g m.card1.row m.card1.col = some c := fun g h => Option.isSome_iff_exists.1 h
  have e2 : ∀ (g : Grid), (cardAt g m.card2.row m.card2.col).isSome = true →
      ∃ c, cardAt g m.card2.row m.card2.col = some c := fun g h => Option.isSome_iff_exists.1 h
  obtain ⟨a2, ha2⟩ := e2 (updateCard s.grid m.card1.row m.card1.col Card.clearMatched)
    (by rw [cardAt_updateCard_isSome, h2]; rfl)
  obtain ⟨a3, ha3⟩ := e1 (updateCard (updateCard s.grid m.card1.row m.card1.col
      Card.clearMatched) m.card2.row m.card2.col Card.clearMatched)
    (by rw [cardAt_updateCard_isSome, cardAt_updateCard_isSome, h1]; rfl)
  obtain ⟨a4, ha4⟩ := e2 (updateCard (updateCard (updateCard s.grid m.card1.row m.card1.col
      Card.clearMatched) m.card2.row m.card2.col Card.clearMatched)
      m.card1.row m.card1.col Card.hide)
    (by rw [cardAt_updateCard_isSome, cardAt_updateCard_isSome, cardAt_updateCard_isSome, h2]; rfl)
  unfold undoMove
  have hne : (items ++ [m]).isEmpty = false := by cases items <;> rfl
  simp only [hstack, hne, hproc, hturn, stack_pop_concat, hp1, h1, ha2, unflipCard, ha3, ha4]
  rfl

/-- C5: with a non-empty move stack whose top record belongs to Player 1, no resolution
in progress and Player 1 to move, `undoMove` removes exactly the top record, clears
`isMatched` and `isRevealed` on the two cards the record names (their symbol and
position are kept), subtracts 1 from `player1Score` and from `matchedPairs`, and leaves
`player2Score`, the side to move, every other cell of the grid and the opponent memory
as they were. -/
theorem undoMove_reverts_top (s : GameState) (items : List Move) (m : Move) (c1 c2 : Card)
    (hstack : s.moveStack = items ++ [m])
    (hproc : s.isProcessing = false) (hturn : s.isPlayer1Turn = true)
    (hp1 : m.isPlayer1 = true)
    (h1 : cardAt s.grid m.card1.row m.card1.col = some c1)
    (h2 : cardAt s.grid m.card2.row m.card2.col = some c2) :
    ∃ t, undoMove s = some t ∧
      t.moveStack = items ∧
      cardAt t.grid m.card1.row m.card1.col =
        some { c1 with isMatched := false, isRevealed := false } ∧
      cardAt t.grid m.card2.row m.card2.col =
        some { c2 with isMatched := false, isRevealed := false } ∧
      (∀ row col, (⟨row, col⟩ : Pos) ≠ m.card1 → (⟨row, col⟩ : Pos) ≠ m.card2 →
        cardAt t.grid row col = cardAt s.grid row col) ∧
      t.player1Score = s.player1Score - 1 ∧
      t.matchedPairs = s.matchedPairs - 1 ∧
      t.player2Score = s.player2Score ∧
      t.isPlayer1Turn = s.isPlayer1Turn ∧
      t.memory = s.memory := by
  refine ⟨_, undoMove_eq s items m c1 c2 hstack hproc hturn hp1 h1 h2, rfl, ?_, ?_, ?_,
    rfl, rfl, rfl, rfl, rfl⟩
  · by_cases hsame : m.card1.row = m.card2.row ∧ m.card1.col = m.card2.col
    · have hc : c1 = c2 := by
        rw [hsame.1, hsame.2, h2] at h1
        exact (Option.some.inj h1).symm
      simp only [cardAt_updateCard, hsame, and_self, if_true, h2, Option.map_some', hc]
      rfl
    · have hsame2 : ¬ (m.card2.row = m.card1.row ∧ m.card2.col = m.card1.col) :=
        fun h => hsame ⟨h.1.symm, h.2.symm⟩
      simp only [cardAt_updateCard, hsame, hsame2, and_self, if_true, if_false, h1,
        Option.map_some']
      rfl
  · by_cases hsame : m.card2.row = m.card1.row ∧ m.card2.col = m.card1.col
    · have hc : c1 = c2 := by
        rw [hsame.1, hsame.2, h1] at h2
        exact Option.some.inj h2
      simp only [cardAt_updateCard, hsame, and_self, if_true, h1, Option.map_some', hc]
      rfl
    · simp only [cardAt_updateCard, hsame, and_self, if_true, if_false, h2,
        Option.map_some']
      rfl
  · intro row col hp1 hp2
    have e1 : ¬ (row = m.card1.row ∧ col = m.card1.col) := (pos_ne_iff ⟨row, col⟩ m.card1).1 hp1
    have e2 : ¬ (row = m.card2.row ∧ col = m.card2.col) := (pos_ne_iff ⟨row, col⟩ m.card2).1 hp2
    simp only [cardAt_updateCard, e1, e2, if_false]

/-- C5 witness: in `undoReady` the only record is Player 1's match of the two `🍌` cards. -/
theorem undoMove_reverts_top_witness :
    ∃ t, undoMove undoReady = some t ∧
      t.moveStack = [] ∧
      cardAt t.grid 0 1 = some ⟨some "🍌", 0, 1, false, false⟩ ∧
      cardAt t.grid 0 2 = some ⟨some "🍌", 0, 2, false, false⟩ ∧
      (∀ row col, (⟨row, col⟩ : Pos) ≠ ⟨0, 1⟩ → (⟨row, col⟩ : Pos) ≠ ⟨0, 2⟩ →
        cardAt t.grid row col = cardAt undoReady.grid row col) ∧
      t.player1Score = undoReady.player1Score - 1 ∧
      t.matchedPairs = undoReady.matchedPairs - 1 ∧
      t.player2Score = undoReady.player2Score ∧
      t.isPlayer1Turn = undoReady.isPlayer1Turn ∧
      t.memory = undoReady.memory :=
  undoMove_reverts_top undoReady [] ⟨⟨0, 1⟩, ⟨0, 2⟩, true⟩
    ⟨some "🍌", 0, 1, true, true⟩ ⟨some "🍌", 0, 2, true, true⟩
    (by decide) (by decide) (by decide) rfl (by decide) (by decide)

/-- C7 (the code at the failing input): `player2Recorded` is a state of a two-player
session in which the only record on the move stack is Player 2's match and Player 1 is to
move; `undoMove` pops that record, so the stack goes from one record to none, while the
grid, the scores and `matchedPairs` stay as they were. -/
theorem undoMove_pops_player2_record :
    Reachable player2Recorded ∧
    player2Recorded.moveStack = [⟨⟨0, 1⟩, ⟨0, 2⟩, false⟩] ∧
    player2Recorded.isPlayer1Turn = true ∧
    player2Recorded.isProcessing = false ∧
    undoMove player2Recorded = some { player2Recorded with moveStack := [] } ∧
    (undoMove player2Recorded).map (fun t => Stack.size t.moveStack) = some 0 ∧
    Stack.size player2Recorded.moveStack = 1 :=
  ⟨play_reachable player2RecordedEvents easyStartMulti player2Recorded
      (Reachable.start GameMode.multiplayer "easy" (fun _ => zeroDraw) initialGameState rfl rfl
        rfl) (by decide),
    by decide, by decide, by decide, by decide, by decide, by decide⟩

/-! ## AIPlayer.makeMove -/

theorem cardAt_eq_some_iff (g : Grid) (r c : Nat) (card : Card) :
    cardAt g r c = some card ↔ ∃ cards, g[r]? = some cards ∧ cards[c]? = some card := by
  unfold cardAt
  cases g[r]? with
  | none => simp
  | some cards => simp

theorem findInMemory_eq_find (grid : Grid) (firstCard : Pos) (positions : List Pos)
    (hin : ∀ p ∈ positions, (cardAt grid p.row p.col).isSome = true) :
    findInMemory grid firstCard positions = some (positions.find? (usable grid firstCard)) := by
  induction positions with
  | nil => rfl
  | cons pos rest ih =>
    have hrest : ∀ p ∈ rest, (cardAt grid p.row p.col).isSome = true :=
      fun p hp => hin p (List.mem_cons_of_mem _ hp)
    obtain ⟨card, hcard⟩ := Option.isSome_iff_exists.1 (hin pos (List.mem_cons_self _ _))
    obtain ⟨cards, hrow, hcol⟩ := (cardAt_eq_some_iff grid pos.row pos.col card).1 hcard
    have hne : (pos ≠ firstCard) ↔ (pos.row ≠ firstCard.row ∨ pos.col ≠ firstCard.col) := by
      rw [pos_ne_iff]; exact not_and_or
    simp only [findInMemory, hrow, hcol, List.find?_cons, usable, available, hcard, ih hrest]
    by_cases hd : pos.row ≠ firstCard.row ∨ pos.col ≠ firstCard.col
    · have hd2 : pos ≠ firstCard := hne.2 hd
      simp only [hd, if_true, hd2, ne_eq, not_false_eq_true, decide_True, Bool.true_and]
      cases hb : (!card.isMatched && !card.isRevealed) <;> simp
    · have hd2 : ¬ pos ≠ firstCard := fun h => hd (hne.1 h)
      simp only [hd, if_false, hd2, decide_False, Bool.false_and]

theorem usable_spec (grid : Grid) (firstCard p : Pos) :
    usable grid firstCard p = true ↔
      p ≠ firstCard ∧ ∃ c, cardAt grid p.row p.col = some c ∧
        c.isMatched = false ∧ c.isRevealed = false := by
  unfold usable available
  cases h : cardAt grid p.row p.col with
  | none => simp
  | some c => cases hm : c.isMatched <;> cases hr : c.isRevealed <;> simp [hm, hr]

/-- C9: when the memory list of the anchor card's symbol holds a position that differs
from the anchor and whose card is neither matched nor revealed (all stored positions of
that symbol lying inside the grid), `AIPlayer.makeMove(grid, anchor)` returns the first
such position in stored order, whatever `Math.random()` would return; that position
differs from the anchor and its card is unmatched and face down. -/
theorem makeMove_recalls_first_usable (memory : Memory) (grid : Grid) (anchor : Pos)
    (a : Card) (positions : List Pos)
    (ha : cardAt grid anchor.row anchor.col = some a)
    (hmem : memGet memory a.symbol = some positions)
    (hin : ∀ p ∈ positions, (cardAt grid p.row p.col).isSome = true)
    (hex : ∃ p ∈ positions, usable grid anchor p = true) :
    ∃ pos, (∀ u : Draw, makeMove memory grid (some anchor) u = some (some pos)) ∧
      positions.find? (usable grid anchor) = some pos ∧
      (∃ before after, positions = before ++ pos :: after ∧
        ∀ q ∈ before, usable grid anchor q = false) ∧
      pos ≠ anchor ∧
      ∃ c, cardAt grid pos.row pos.col = some c ∧ c.isMatched = false ∧
        c.isRevealed = false := by
  obtain ⟨p, hp, hpu⟩ := hex
  cases hfind : positions.find? (usable grid anchor) with
  | none =>
    have := List.find?_eq_none.1 hfind p hp
    exact absurd hpu this
  | some pos =>
    have husable : usable grid anchor pos = true := List.find?_some hfind
    obtain ⟨hne, c, hc, hm, hr⟩ := (usable_spec grid anchor pos).1 husable
    refine ⟨pos, ?_, rfl, ?_, hne, c, hc, hm, hr⟩
    · intro u
      simp only [makeMove, ha, hmem, findInMemory_eq_find grid anchor positions hin, hfind]
    · obtain ⟨_, before, after, hsplit, hbefore⟩ := List.find?_eq_some.1 hfind
      exact ⟨before, after, hsplit, fun q hq => by simpa using hbefore q hq⟩

/-- C9 witness: in `undoReady` the computer remembers `🍎` at (0, 0); anchored on the other
`🍎`, at (2, 3), it returns (0, 0). -/
theorem makeMove_recalls_first_usable_witness :
    ∃ pos, (∀ u : Draw,
        makeMove undoReady.memory undoReady.grid (some ⟨2, 3⟩) u = some (some pos)) ∧
      [(⟨0, 0⟩ : Pos)].find? (usable undoReady.grid ⟨2, 3⟩) = some pos ∧
      (∃ before after, [(⟨0, 0⟩ : Pos)] = before ++ pos :: after ∧
        ∀ q ∈ before, usable undoReady.grid ⟨2, 3⟩ q = false) ∧
      pos ≠ ⟨2, 3⟩ ∧
      ∃ c, cardAt undoReady.grid pos.row pos.col = some c ∧ c.isMatched = false ∧
        c.isRevealed = false :=
  makeMove_recalls_first_usable undoReady.memory undoReady.grid ⟨2, 3⟩
    ⟨some "🍎", 2, 3, false, false⟩ [⟨0, 0⟩]
    (by decide) (by decide) (by decide) ⟨⟨0, 0⟩, by decide, by decide⟩

theorem draw_index_lt (u : Draw) (n : Nat) (hn : 0 < n) : u.index n < n := by
  unfold Draw.index
  have hden : 0 < u.den := Nat.lt_of_le_of_lt (Nat.zero_le _) u.lt
  rw [Nat.div_lt_iff_lt_mul hden]
  calc u.num * n < u.den * n := Nat.mul_lt_mul_of_pos_right u.lt hn
    _ = n * u.den := Nat.mul_comm _ _

theorem scanAvailable_eq_filter (grid : Grid) (ps : List Pos)
    (hin : ∀ p ∈ ps, (cardAt grid p.row p.col).isSome = true) :
    scanAvailable grid ps = some (ps.filter (available grid)) := by
  induction ps with
  | nil => rfl
  | cons p rest ih =>
    have hrest : ∀ q ∈ rest, (cardAt grid q.row q.col).isSome = true :=
      fun q hq => hin q (List.mem_cons_of_mem _ hq)
    obtain ⟨card, hcard⟩ := Option.isSome_iff_exists.1 (hin p (List.mem_cons_self _ _))
    simp only [scanAvailable, hcard, ih hrest, List.filter_cons, available]

theorem mem_scanCells (grid : Grid) (p : Pos) :
    p ∈ scanCells grid ↔ p.row < grid.length ∧ p.col < ((grid[0]?).getD []).length := by
  unfold scanCells
  simp only [List.mem_flatMap, List.mem_range, List.mem_map]
  constructor
  · rintro ⟨i, hi, j, hj, rfl⟩
    exact ⟨hi, hj⟩
  · intro h
    exact ⟨p.row, h.1, p.col, h.2, rfl⟩

theorem cardAt_isSome_iff (grid : Grid) (hrect : rectangular grid) (r c : Nat) :
    (cardAt grid r c).isSome = true ↔ r < grid.length ∧ c < ((grid[0]?).getD []).length := by
  unfold cardAt
  by_cases hr : r < grid.length
  · have hrow : grid[r]? = some grid[r] := List.getElem?_eq_getElem hr
    have hlen : grid[r].length = ((grid[0]?).getD []).length :=
      hrect _ (List.getElem_mem _)
    rw [hrow]
    simp only [hr, true_and]
    by_cases hc : c < grid[r].length
    · rw [List.getElem?_eq_getElem hc]; simp [← hlen, hc]
    · rw [List.getElem?_eq_none (Nat.le_of_not_lt hc)]; simp [← hlen, hc]
  · rw [List.getElem?_eq_none (Nat.le_of_not_lt hr)]
    simp [hr]

theorem randomMove_spec (grid : Grid) (hrect : rectangular grid) (u : Draw) :
    ∃ r, randomMove grid u = some r ∧
      (∀ pos, r = some pos → available grid pos = true) ∧
      (r = none ↔ ∀ p : Pos, available grid p = false) := by
  have hin : ∀ p ∈ scanCells grid, (cardAt grid p.row p.col).isSome = true :=
    fun p hp => (cardAt_isSome_iff grid hrect p.row p.col).2 ((mem_scanCells grid p).1 hp)
  have hall : ∀ p : Pos, available grid p = true → p ∈ (scanCells grid).filter (available grid) := by
    intro p hp
    refine List.mem_filter.2 ⟨(mem_scanCells grid p).2 ?_, hp⟩
    apply (cardAt_isSome_iff grid hrect p.row p.col).1
    unfold available at hp
    cases h : cardAt grid p.row p.col with
    | none => simp [h] at hp
    | some c => rfl
  unfold randomMove
  rw [scanAvailable_eq_filter grid _ hin]
  by_cases hlen : ((scanCells grid).filter (available grid)).length = 0
  · refine ⟨none, by simp only [hlen, if_true], fun pos h => by simp at h, ?_⟩
    constructor
    · intro _ p
      by_contra hp
      have hp2 : available grid p = true := by simpa using hp
      have := hall p hp2
      rw [List.length_eq_zero.1 hlen] at this
      simp at this
    · intro _; rfl
  · have hpos : 0 < ((scanCells grid).filter (available grid)).length := Nat.pos_of_ne_zero hlen
    have hidx := draw_index_lt u _ hpos
    refine ⟨some (((scanCells grid).filter (available grid))[u.index _]), ?_, ?_, ?_⟩
    · simp only [hlen, if_false, List.getElem?_eq_getElem hidx]
    · intro pos hpos2
      have hmem : pos ∈ (scanCells grid).filter (available grid) := by
        rw [← Option.some.inj hpos2]; exact List.getElem_mem _
      exact (List.mem_filter.1 hmem).2
    · constructor
      · intro h; simp at h
      · intro h
        have hmem := List.getElem_mem hidx
        have := (List.mem_filter.1 hmem).2
        rw [h] at this
        simp at this

theorem available_spec (grid : Grid) (p : Pos) :
    available grid p = true ↔
      ∃ c, cardAt grid p.row p.col = some c ∧ c.isMatched = false ∧ c.isRevealed = false := by
  unfold available
  cases h : cardAt grid p.row p.col with
  | none => simp
  | some c => cases hm : c.isMatched <;> cases hr : c.isRevealed <;> simp [hm, hr]

theorem makeMove_eq_randomMove (memory : Memory) (grid : Grid) (firstCard : Option Pos)
    (u : Draw)
    (hfall : firstCard = none ∨
      ∃ anchor a, firstCard = some anchor ∧ cardAt grid anchor.row anchor.col = some a ∧
        (memGet memory a.symbol = none ∨
          ∃ positions, memGet memory a.symbol = some positions ∧
            (∀ p ∈ positions, (cardAt grid p.row p.col).isSome = true) ∧
            ∀ p ∈ positions, usable grid anchor p = false)) :
    makeMove memory grid firstCard u = randomMove grid u := by
  rcases hfall with h | ⟨anchor, a, h, ha, hmem⟩
  · simp only [h, makeMove]
  · rcases hmem with hnone | ⟨positions, hsome, hin, hstale⟩
    · simp only [h, makeMove, ha, hnone]
    · have hfind : positions.find? (usable grid anchor) = none :=
        List.find?_eq_none.2 (fun p hp => by simp [hstale p hp])
      simp only [h, makeMove, ha, hsome, findInMemory_eq_find grid anchor positions hin, hfind]

/-- C10: on a rectangular grid, for every result of `Math.random()`, when
`AIPlayer.makeMove` is called without a first card, or the memory has no entry for the
first card's symbol, or every position stored for it is stale (the first card itself, or
a card that is matched or face up), the call returns a position whose card is neither
matched nor revealed, and it returns `null` exactly when the grid has no such card. -/
theorem makeMove_falls_back_to_random (memory : Memory) (grid : Grid)
    (hrect : rectangular grid) (firstCard : Option Pos) (u : Draw)
    (hfall : firstCard = none ∨
      ∃ anchor a, firstCard = some anchor ∧ cardAt grid anchor.row anchor.col = some a ∧
        (memGet memory a.symbol = none ∨
          ∃ positions, memGet memory a.symbol = some positions ∧
            (∀ p ∈ positions, (cardAt grid p.row p.col).isSome = true) ∧
            ∀ p ∈ positions, usable grid anchor p = false)) :
    ∃ r, makeMove memory grid firstCard u = some r ∧
      (∀ pos, r = some pos →
        ∃ c, cardAt grid pos.row pos.col = some c ∧ c.isMatched = false ∧
          c.isRevealed = false) ∧
      (r = none ↔
        ∀ row col c, cardAt grid row col = some c →
          c.isMatched = true ∨ c.isRevealed = true) := by
  obtain ⟨r, hr, hsome, hnone⟩ := randomMove_spec grid hrect u
  refine ⟨r, by rw [makeMove_eq_randomMove memory grid firstCard u hfall, hr], ?_, ?_⟩
  · intro pos hpos
    exact (available_spec grid pos).1 (hsome pos hpos)
  · rw [hnone]
    constructor
    · intro h row col c hc
      have hav := h ⟨row, col⟩
      by_contra hcon
      have hcon2 : c.isMatched = false ∧ c.isRevealed = false := by
        cases hm : c.isMatched <;> cases hr2 : c.isRevealed <;> simp_all
      have : available grid ⟨row, col⟩ = true :=
        (available_spec grid ⟨row, col⟩).2 ⟨c, hc, hcon2.1, hcon2.2⟩
      rw [hav] at this
      exact Bool.noConfusion this
    · intro h p
      by_contra hcon
      have hav : available grid p = true := by simpa using hcon
      obtain ⟨c, hc, hm, hr2⟩ := (available_spec grid p).1 hav
      rcases h p.row p.col c hc with h1 | h1
      · rw [hm] at h1; exact Bool.noConfusion h1
      · rw [hr2] at h1; exact Bool.noConfusion h1

/-- C10 witness: in `undoReady` the computer has no memory of `🍊`; anchored on the `🍊` at
(1, 1) it picks at random among the cards that are face down. -/
theorem makeMove_falls_back_to_random_witness :
    ∃ r, makeMove undoReady.memory undoReady.grid (some ⟨1, 1⟩) zeroDraw = some r ∧
      (∀ pos, r = some pos →
        ∃ c, cardAt undoReady.grid pos.row pos.col = some c ∧ c.isMatched = false ∧
          c.isRevealed = false) ∧
      (r = none ↔
        ∀ row col c, cardAt undoReady.grid row col = some c →
          c.isMatched = true ∨ c.isRevealed = true) :=
  makeMove_falls_back_to_random undoReady.memory undoReady.grid
    (by unfold rectangular; decide) (some ⟨1, 1⟩) zeroDraw
    (Or.inr ⟨⟨1, 1⟩, ⟨some "🍊", 1, 1, false, false⟩, rfl, by decide, Or.inl (by decide)⟩)

/-! ## Counting matched cards -/

theorem countP_modifyAt (p : Card → Bool) (f : Card → Card) (l : List Card) (n : Nat)
    (x : Card) (h : l[n]? = some x) :
    (modifyAt f l n).countP p + (if p x then 1 else 0) =
      l.countP p + (if p (f x) then 1 else 0) := by
  induction l generalizing n with
  | nil => simp at h
  | cons y ys ih =>
    cases n with
    | zero =>
      simp only [List.getElem?_cons_zero, Option.some.injEq] at h
      subst h
      simp only [modifyAt, List.countP_cons]
      omega
    | succ n =>
      simp only [List.getElem?_cons_succ] at h
      have := ih n h
      simp only [modifyAt, List.countP_cons]
      omega

theorem sum_map_modifyAt {α : Type} (F : α → Nat) (upd : α → α) (g : List α) (r : Nat)
    (row : α) (h : g[r]? = some row) :
    ((modifyAt upd g r).map F).sum + F row = (g.map F).sum + F (upd row) := by
  induction g generalizing r with
  | nil => simp at h
  | cons y ys ih =>
    cases r with
    | zero =>
      simp only [List.getElem?_cons_zero, Option.some.injEq] at h
      subst h
      simp only [modifyAt, List.map_cons, List.sum_cons]
      omega
    | succ r =>
      simp only [List.getElem?_cons_succ] at h
      have := ih r h
      simp only [modifyAt, List.map_cons, List.sum_cons]
      omega

theorem matchedCount_updateCard (g : Grid) (r c : Nat) (f : Card → Card) (x : Card)
    (h : cardAt g r c = some x) :
    matchedCount (updateCard g r c f) + (if x.isMatched then 1 else 0) =
      matchedCount g + (if (f x).isMatched then 1 else 0) := by
  obtain ⟨cards, hrow, hcol⟩ := (cardAt_eq_some_iff g r c x).1 h
  have h1 := sum_map_modifyAt (fun cards => cards.countP (fun c => c.isMatched))
    (fun cards => modifyAt f cards c) g r cards hrow
  have h2 := countP_modifyAt (fun c => c.isMatched) f cards c x hcol
  simp only [matchedCount, updateCard]
  simp only at h1 h2
  omega

theorem cardCount_updateCard (g : Grid) (r c : Nat) (f : Card → Card) :
    cardCount (updateCard g r c f) = cardCount g := by
  unfold cardCount updateCard
  induction g generalizing r with
  | nil => rfl
  | cons y ys ih =>
    cases r with
    | zero => simp [modifyAt, length_modifyAt]
    | succ r => simp only [modifyAt, List.map_cons, List.sum_cons, ih r]

theorem matchedCount_le_cardCount (g : Grid) : matchedCount g ≤ cardCount g := by
  unfold matchedCount cardCount
  induction g with
  | nil => simp
  | cons y ys ih =>
    simp only [List.map_cons, List.sum_cons]
    have := List.countP_le_length (fun c : Card => c.isMatched) (l := y)
    omega

theorem matchedCount_add_two_le (g : Grid) (a b : Pos) (x y : Card)
    (ha : cardAt g a.row a.col = some x) (hb : cardAt g b.row b.col = some y)
    (hne : a ≠ b) (hx : x.isMatched = false) (hy : y.isMatched = false) :
    matchedCount g + 2 ≤ cardCount g := by
  have hne2 : ¬ (b.row = a.row ∧ b.col = a.col) :=
    fun h => (pos_ne_iff a b).1 hne ⟨h.1.symm, h.2.symm⟩
  have hb2 : cardAt (updateCard g a.row a.col Card.setMatched) b.row b.col = some y := by
    rw [cardAt_updateCard_other _ _ _ _ _ _ hne2, hb]
  have h1 := matchedCount_updateCard g a.row a.col Card.setMatched x ha
  have h2 := matchedCount_updateCard (updateCard g a.row a.col Card.setMatched)
    b.row b.col Card.setMatched y hb2
  have h3 := matchedCount_le_cardCount
    (updateCard (updateCard g a.row a.col Card.setMatched) b.row b.col Card.setMatched)
  rw [cardCount_updateCard, cardCount_updateCard] at h3
  simp only [hx, hy, Card.setMatched, if_true, Bool.false_eq_true, if_false] at h1 h2
  omega

/-! ## The memory map -/

theorem memGet_memSet (m : Memory) (k : Symbol) (v : List Pos) (k' : Symbol) :
    memGet (memSet m k v) k' = if k = k' then some v else memGet m k' := by
  induction m with
  | nil => simp [memSet, memGet]
  | cons e m ih =>
    obtain ⟨a, w⟩ := e
    by_cases h : a = k
    · subst h
      by_cases h2 : a = k' <;> simp [memSet, memGet, h2]
    · by_cases h2 : a = k'
      · subst h2
        have h3 : ¬ k = a := fun e => h e.symm
        simp [memSet, memGet, h, h3]
      · simp [memSet, memGet, h, h2, ih]

theorem memGet_eq_none_iff (m : Memory) (k : Symbol) :
    memGet m k = none ↔ k ∉ memKeys m := by
  induction m with
  | nil => simp [memGet, memKeys]
  | cons e m ih =>
    obtain ⟨a, w⟩ := e
    by_cases h : a = k
    · subst h; simp [memGet, memKeys]
    · have h' : ¬ k = a := fun e => h e.symm
      simp only [memGet, h, if_false, ih, memKeys, List.map_cons, List.mem_cons, h', false_or]

theorem memKeys_memSet (m : Memory) (k : Symbol) (v : List Pos) :
    memKeys (memSet m k v) = if k ∈ memKeys m then memKeys m else memKeys m ++ [k] := by
  induction m with
  | nil => simp [memSet, memKeys]
  | cons e m ih =>
    obtain ⟨a, w⟩ := e
    by_cases h : a = k
    · subst h; simp [memSet, memKeys]
    · have h' : ¬ k = a := fun e => h e.symm
      have ih' := ih
      simp only [memKeys] at ih'
      simp only [memSet, h, if_false, memKeys, List.map_cons, List.mem_cons, h', false_or, ih']
      split <;> simp

theorem memKeys_memSet_nodup (m : Memory) (k : Symbol) (v : List Pos)
    (h : (memKeys m).Nodup) : (memKeys (memSet m k v)).Nodup := by
  rw [memKeys_memSet]
  split
  · exact h
  · next hk =>
    rw [List.nodup_append]
    refine ⟨h, List.nodup_singleton k, ?_⟩
    intro a ha hb
    rw [List.mem_singleton] at hb
    exact hk (hb ▸ ha)

theorem memKeys_memDelete (m : Memory) (k : Symbol) :
    memKeys (memDelete m k) = (memKeys m).erase k := by
  induction m with
  | nil => simp [memDelete, memKeys]
  | cons e m ih =>
    obtain ⟨a, w⟩ := e
    by_cases h : a = k
    · subst h; simp [memDelete, memKeys]
    · have ih' := ih
      simp only [memKeys] at ih'
      simp only [memDelete, h, if_false, memKeys, List.map_cons, ih']
      rw [List.erase_cons_tail]
      simpa using h

theorem memGet_memDelete (m : Memory) (k k' : Symbol) (hn : (memKeys m).Nodup) :
    memGet (memDelete m k) k' = if k = k' then none else memGet m k' := by
  induction m with
  | nil => simp [memDelete, memGet]
  | cons e m ih =>
    obtain ⟨a, w⟩ := e
    simp only [memKeys, List.map_cons, List.nodup_cons] at hn
    by_cases h : a = k
    · subst h
      by_cases h2 : a = k'
      · subst h2
        simp only [memDelete, if_true, memGet]
        exact (memGet_eq_none_iff m a).2 hn.1
      · simp [memDelete, memGet, h2]
    · by_cases h2 : a = k'
      · subst h2
        have h3 : ¬ k = a := fun e => h e.symm
        simp [memDelete, memGet, h, h3]
      · simp only [memDelete, h, if_false, memGet, h2]
        exact ih hn.2

theorem rememberCard_nodup (m : Memory) (s : Symbol) (r c : Nat) (h : (memKeys m).Nodup) :
    (memKeys (rememberCard m s r c)).Nodup := by
  unfold rememberCard
  simp only
  split <;> split <;>
    first
      | exact h
      | exact memKeys_memSet_nodup _ _ _ h
      | exact memKeys_memSet_nodup _ _ _ (memKeys_memSet_nodup _ _ _ h)

theorem forgetCard_nodup (m : Memory) (s : Symbol) (r c : Nat) (h : (memKeys m).Nodup) :
    (memKeys (forgetCard m s r c)).Nodup := by
  unfold forgetCard
  split
  · exact h
  · simp only
    split
    · rw [memKeys_memDelete]; exact h.erase _
    · exact memKeys_memSet_nodup _ _ _ h

theorem stored_rememberCard (m : Memory) (s : Symbol) (r c : Nat) (sym : Symbol)
    (ps : List Pos) (h : memGet (rememberCard m s r c) sym = some ps) (q : Pos) (hq : q ∈ ps) :
    (∃ ps0, memGet m sym = some ps0 ∧ q ∈ ps0) ∨ (sym = s ∧ q = ⟨r, c⟩) := by
  unfold rememberCard at h
  cases hget : memGet m s with
  | none =>
    simp only [hget, Option.isSome_none, Bool.false_eq_true, if_false, memGet_memSet, if_true,
      Option.getD_some, List.any_nil, Bool.not_false, List.nil_append] at h
    by_cases hs : s = sym
    · simp only [hs, if_true, Option.some.injEq] at h
      subst h
      right
      exact ⟨hs.symm, by simpa using hq⟩
    · simp only [hs, if_false] at h
      exact Or.inl ⟨ps, h, hq⟩
  | some ps0 =>
    simp only [hget, Option.isSome_some, if_true, Option.getD_some] at h
    split at h
    · rw [memGet_memSet] at h
      by_cases hs : s = sym
      · simp only [hs, if_true, Option.some.injEq] at h
        subst h
        rcases List.mem_append.1 hq with h1 | h1
        · exact Or.inl ⟨ps0, hs ▸ hget, h1⟩
        · exact Or.inr ⟨hs.symm, by simpa using h1⟩
      · simp only [hs, if_false] at h
        exact Or.inl ⟨ps, h, hq⟩
    · exact Or.inl ⟨ps, h, hq⟩

theorem stored_forgetCard (m : Memory) (s : Symbol) (r c : Nat) (hn : (memKeys m).Nodup)
    (sym : Symbol) (ps : List Pos) (h : memGet (forgetCard m s r c) sym = some ps)
    (q : Pos) (hq : q ∈ ps) :
    (∃ ps0, memGet m sym = some ps0 ∧ q ∈ ps0) ∧ ¬ (sym = s ∧ q = ⟨r, c⟩) := by
  unfold forgetCard at h
  cases hget : memGet m s with
  | none =>
    simp only [hget] at h
    refine ⟨⟨ps, h, hq⟩, ?_⟩
    rintro ⟨hs, _⟩
    rw [hs, hget] at h
    exact Option.noConfusion h
  | some ps0 =>
    simp only [hget] at h
    split at h
    · rw [memGet_memDelete _ _ _ hn] at h
      by_cases hs : s = sym
      · simp [hs] at h
      · simp only [hs, if_false] at h
        exact ⟨⟨ps, h, hq⟩, fun hh => hs hh.1.symm⟩
    · rw [memGet_memSet] at h
      by_cases hs : s = sym
      · simp only [hs, if_true, Option.some.injEq] at h
        subst h
        have hq2 := List.mem_filter.1 hq
        refine ⟨⟨ps0, hs ▸ hget, hq2.1⟩, ?_⟩
        rintro ⟨_, hqe⟩
        have := hq2.2
        rw [hqe] at this
        simp at this
      · simp only [hs, if_false] at h
        exact ⟨⟨ps, h, hq⟩, fun hh => hs hh.1.symm⟩

theorem memGet_of_mem (m : Memory) (k : Symbol) (v : List Pos) (hn : (memKeys m).Nodup)
    (h : (k, v) ∈ m) : memGet m k = some v := by
  induction m with
  | nil => simp at h
  | cons e m ih =>
    obtain ⟨a, w⟩ := e
    simp only [memKeys, List.map_cons, List.nodup_cons] at hn
    rcases List.mem_cons.1 h with h1 | h1
    · simp only [Prod.mk.injEq] at h1
      simp [memGet, h1.1, h1.2]
    · have hk : k ∈ memKeys m := List.mem_map.2 ⟨(k, v), h1, rfl⟩
      have hne : ¬ a = k := fun e => hn.1 (e ▸ hk)
      simp only [memGet, hne, if_false]
      exact ih hn.2 h1

/-! ## Grid updates and the board -/

theorem exists_card_of_keeps (g : Grid) (r c : Nat) (f : Card → Card) (P : Card → Prop)
    (hf : ∀ x, P x → P (f x)) (p : Pos)
    (h : ∃ x, cardAt g p.row p.col = some x ∧ P x) :
    ∃ x, cardAt (updateCard g r c f) p.row p.col = some x ∧ P x := by
  obtain ⟨x, hx, hp⟩ := h
  rw [cardAt_updateCard]
  split
  · next heq =>
    rw [heq.1, heq.2] at hx
    exact ⟨f x, by rw [hx]; rfl, hf x hp⟩
  · exact ⟨x, hx, hp⟩

theorem exists_card_of_ne (g : Grid) (r c : Nat) (f : Card → Card) (P : Card → Prop)
    (p : Pos) (hne : p ≠ ⟨r, c⟩)
    (h : ∃ x, cardAt g p.row p.col = some x ∧ P x) :
    ∃ x, cardAt (updateCard g r c f) p.row p.col = some x ∧ P x := by
  rw [cardAt_updateCard_other g r c f p.row p.col ((pos_ne_iff p ⟨r, c⟩).1 hne)]
  exact h

theorem countP_modifyAt_of_keeps (p : Card → Bool) (f : Card → Card)
    (hf : ∀ x, p (f x) = p x) (l : List Card) (n : Nat) :
    (modifyAt f l n).countP p = l.countP p := by
  induction l generalizing n with
  | nil => rfl
  | cons y ys ih =>
    cases n with
    | zero => simp only [modifyAt, List.countP_cons, hf]
    | succ n => simp only [modifyAt, List.countP_cons, ih]

theorem sum_map_modifyAt_of_keeps {α : Type} (F : α → Nat) (upd : α → α)
    (hf : ∀ x, F (upd x) = F x) (g : List α) (r : Nat) :
    ((modifyAt upd g r).map F).sum = (g.map F).sum := by
  induction g generalizing r with
  | nil => rfl
  | cons y ys ih =>
    cases r with
    | zero => simp only [modifyAt, List.map_cons, List.sum_cons, hf]
    | succ r => simp only [modifyAt, List.map_cons, List.sum_cons, ih]

theorem matchedCount_of_keeps (g : Grid) (r c : Nat) (f : Card → Card)
    (hf : ∀ x, (f x).isMatched = x.isMatched) :
    matchedCount (updateCard g r c f) = matchedCount g := by
  unfold matchedCount updateCard
  exact sum_map_modifyAt_of_keeps _ _
    (fun cards => countP_modifyAt_of_keeps (fun c => c.isMatched) f hf cards c) g r

theorem map_length_updateCard (g : Grid) (r c : Nat) (f : Card → Card) :
    (updateCard g r c f).map List.length = g.map List.length := by
  unfold updateCard
  induction g generalizing r with
  | nil => rfl
  | cons y ys ih =>
    cases r with
    | zero => simp [modifyAt, length_modifyAt]
    | succ r => simp only [modifyAt, List.map_cons, ih r]

theorem rectangular_iff (g : Grid) :
    rectangular g ↔ ∀ n ∈ g.map List.length, n = ((g.map List.length)[0]?).getD 0 := by
  unfold rectangular
  have e : ((g[0]?).getD []).length = ((g.map List.length)[0]?).getD 0 := by
    cases g <;> simp
  rw [e]
  simp

theorem rectangular_updateCard (g : Grid) (r c : Nat) (f : Card → Card)
    (h : rectangular g) : rectangular (updateCard g r c f) := by
  rw [rectangular_iff, map_length_updateCard]
  exact (rectangular_iff g).1 h

theorem rectangular_build (rows : List Nat) (cols : List Nat) (mk : Nat → Nat → Card) :
    rectangular (rows.map (fun i => cols.map (mk i))) := by
  rw [rectangular_iff]
  intro n hn
  simp only [List.map_map, List.mem_map, Function.comp, List.length_map] at hn
  obtain ⟨i, _, rfl⟩ := hn
  cases rows with
  | nil => simp at *
  | cons j rest => simp

theorem Board.perm_up {g : Grid} {up up' rec : List Pos} {mem : Memory} {mp : Int}
    {tot : Nat} (h : Board g up rec mem mp tot) (hp : up.Perm up') :
    Board g up' rec mem mp tot :=
  { h with
    up_nodup := (List.Perm.nodup_iff hp).1 h.up_nodup
    up_cards := fun p hp' => h.up_cards p ((List.Perm.mem_iff hp).2 hp') }

theorem Board.sublist_rec {g : Grid} {up rec rec' : List Pos} {mem : Memory} {mp : Int}
    {tot : Nat} (h : Board g up rec mem mp tot) (hs : rec'.Sublist rec) :
    Board g up rec' mem mp tot :=
  { h with
    rec_nodup := h.rec_nodup.sublist hs
    rec_cards := fun p hp => h.rec_cards p (hs.subset hp) }

theorem Board.sublist_up {g : Grid} {up up' rec : List Pos} {mem : Memory} {mp : Int}
    {tot : Nat} (h : Board g up rec mem mp tot) (hs : up'.Sublist up) :
    Board g up' rec mem mp tot :=
  { h with
    up_nodup := h.up_nodup.sublist hs
    up_cards := fun p hp => h.up_cards p (hs.subset hp) }

theorem Board.reveal {g : Grid} {up rec : List Pos} {mem : Memory} {mp : Int} {tot : Nat}
    (h : Board g up rec mem mp tot) (p : Pos) (c0 : Card)
    (hc : cardAt g p.row p.col = some c0) (hr : c0.isRevealed = false)
    (hm : c0.isMatched = false) :
    Board (updateCard g p.row p.col Card.reveal) (p :: up) rec mem mp tot where
  rect := rectangular_updateCard _ _ _ _ h.rect
  total := by rw [cardCount_updateCard]; exact h.total
  count := by rw [matchedCount_of_keeps g _ _ Card.reveal (fun _ => rfl)]; exact h.count
  up_nodup := by
    refine List.nodup_cons.2 ⟨?_, h.up_nodup⟩
    intro hp
    obtain ⟨c, hc2, hrev, _⟩ := h.up_cards p hp
    rw [hc] at hc2
    rw [← Option.some.inj hc2, hr] at hrev
    exact Bool.noConfusion hrev
  up_cards := by
    intro q hq
    rcases List.mem_cons.1 hq with hq | hq
    · subst hq
      exact ⟨Card.reveal c0, by rw [cardAt_updateCard_same, hc]; rfl, rfl, hm⟩
    · exact exists_card_of_keeps g _ _ Card.reveal _ (fun x hx => ⟨rfl, hx.2⟩) q (h.up_cards q hq)
  rec_nodup := h.rec_nodup
  rec_cards := fun q hq =>
    exists_card_of_keeps g _ _ Card.reveal _ (fun x hx => hx) q (h.rec_cards q hq)
  memory_keys := h.memory_keys
  memory_cards := fun sym ps hps q hq =>
    exists_card_of_keeps g _ _ Card.reveal _ (fun x hx => hx) q (h.memory_cards sym ps hps q hq)

theorem Board.hide {g : Grid} {up rec : List Pos} {mem : Memory} {mp : Int} {tot : Nat}
    (p : Pos) (h : Board g (p :: up) rec mem mp tot) :
    Board (updateCard g p.row p.col Card.hide) up rec mem mp tot where
  rect := rectangular_updateCard _ _ _ _ h.rect
  total := by rw [cardCount_updateCard]; exact h.total
  count := by rw [matchedCount_of_keeps g _ _ Card.hide (fun _ => rfl)]; exact h.count
  up_nodup := (List.nodup_cons.1 h.up_nodup).2
  up_cards := by
    intro q hq
    have hne : q ≠ p := fun e => (List.nodup_cons.1 h.up_nodup).1 (e ▸ hq)
    exact exists_card_of_ne g _ _ _ _ q hne (h.up_cards q (List.mem_cons_of_mem _ hq))
  rec_nodup := h.rec_nodup
  rec_cards := fun q hq =>
    exists_card_of_keeps g _ _ Card.hide _ (fun x hx => hx) q (h.rec_cards q hq)
  memory_keys := h.memory_keys
  memory_cards := fun sym ps hps q hq =>
    exists_card_of_keeps g _ _ Card.hide _ (fun x hx => hx) q (h.memory_cards sym ps hps q hq)

theorem pos_eta (p : Pos) : (⟨p.row, p.col⟩ : Pos) = p := rfl

theorem ne_of_flags (g : Grid) (p q : Pos) (cp cq : Card)
    (hp : cardAt g p.row p.col = some cp) (hq : cardAt g q.row q.col = some cq)
    (hne : cp.isMatched ≠ cq.isMatched) : q ≠ p := by
  intro e
  subst e
  rw [hp] at hq
  exact hne (congrArg Card.isMatched (Option.some.inj hq))

theorem Board.matchPair {g : Grid} {up rec : List Pos} {mem : Memory} {mp : Int} {tot : Nat}
    (a b : Pos) (h : Board g (a :: b :: up) rec mem mp tot) (mem' : Memory)
    (hk : (memKeys mem').Nodup)
    (hsub : ∀ sym ps, memGet mem' sym = some ps → ∀ q ∈ ps,
      (∃ ps0, memGet mem sym = some ps0 ∧ q ∈ ps0) ∧ q ≠ a ∧ q ≠ b) :
    Board (updateCard (updateCard g a.row a.col Card.setMatched) b.row b.col Card.setMatched)
      up (rec ++ [a, b]) mem' (mp + 1) tot := by
  obtain ⟨ca, hca, _, hma⟩ := h.up_cards a (List.mem_cons_self _ _)
  obtain ⟨cb, hcb, _, hmb⟩ := h.up_cards b (List.mem_cons_of_mem _ (List.mem_cons_self _ _))
  have hnd := List.nodup_cons.1 h.up_nodup
  have hnd2 := List.nodup_cons.1 hnd.2
  have hab : a ≠ b := fun e => hnd.1 (e ▸ List.mem_cons_self _ _)
  have hba : b ≠ a := fun e => hab e.symm
  have hb1 : cardAt (updateCard g a.row a.col Card.setMatched) b.row b.col = some cb := by
    rw [cardAt_updateCard_other _ _ _ _ _ _ ((pos_ne_iff b a).1 hba), hcb]
  have ha1 : cardAt (updateCard g a.row a.col Card.setMatched) a.row a.col =
      some (Card.setMatched ca) := by
    rw [cardAt_updateCard_same, hca]; rfl
  refine ⟨rectangular_updateCard _ _ _ _ (rectangular_updateCard _ _ _ _ h.rect),
    ?_, ?_, hnd2.2, ?_, ?_, ?_, hk, ?_⟩
  · rw [cardCount_updateCard, cardCount_updateCard]; exact h.total
  · have h1 := matchedCount_updateCard g a.row a.col Card.setMatched ca hca
    have h2 := matchedCount_updateCard _ b.row b.col Card.setMatched cb hb1
    have h3 := h.count
    simp only [hma, hmb, Card.setMatched, if_true, Bool.false_eq_true, if_false] at h1 h2
    omega
  · intro q hq
    have hqa : q ≠ a := fun e => hnd.1 (e ▸ List.mem_cons_of_mem _ hq)
    have hqb : q ≠ b := fun e => hnd2.1 (e ▸ hq)
    exact exists_card_of_ne _ _ _ _ _ q hqb
      (exists_card_of_ne _ _ _ _ _ q hqa
        (h.up_cards q (List.mem_cons_of_mem _ (List.mem_cons_of_mem _ hq))))
  · rw [List.nodup_append]
    refine ⟨h.rec_nodup, ?_, ?_⟩
    · simp only [List.nodup_cons, List.mem_singleton, List.not_mem_nil, not_false_eq_true,
        List.nodup_nil, and_true]
      exact hab
    · intro q hq hq2
      obtain ⟨cq, hcq, hmq⟩ := h.rec_cards q hq
      simp only [List.mem_cons, List.mem_singleton, List.not_mem_nil, or_false] at hq2
      rcases hq2 with e | e
      · subst e; rw [hca] at hcq; rw [← Option.some.inj hcq, hma] at hmq
        exact Bool.noConfusion hmq
      · subst e; rw [hcb] at hcq; rw [← Option.some.inj hcq, hmb] at hmq
        exact Bool.noConfusion hmq
  · intro q hq
    rcases List.mem_append.1 hq with hq | hq
    · exact exists_card_of_keeps _ _ _ Card.setMatched (fun c => c.isMatched = true)
        (fun _ _ => rfl) q
        (exists_card_of_keeps _ _ _ Card.setMatched (fun c => c.isMatched = true)
          (fun _ _ => rfl) q (h.rec_cards q hq))
    · simp only [List.mem_cons, List.mem_singleton, List.not_mem_nil, or_false] at hq
      rcases hq with e | e
      · subst e
        exact exists_card_of_ne _ _ _ _ _ q hab ⟨Card.setMatched ca, ha1, rfl⟩
      · subst e
        exact ⟨Card.setMatched cb, by rw [cardAt_updateCard_same, hb1]; rfl, rfl⟩
  · intro sym ps hps q hq
    obtain ⟨⟨ps0, hps0, hq0⟩, hqa, hqb⟩ := hsub sym ps hps q hq
    exact exists_card_of_ne _ _ _ _ _ q hqb
      (exists_card_of_ne _ _ _ _ _ q hqa (h.memory_cards sym ps0 hps0 q hq0))

theorem Board.remember {g : Grid} {up rec : List Pos} {mem : Memory} {mp : Int} {tot : Nat}
    (h : Board g up rec mem mp tot) (a : Pos) (ca : Card)
    (hca : cardAt g a.row a.col = some ca) (hm : ca.isMatched = false) :
    Board g up rec (rememberCard mem ca.symbol a.row a.col) mp tot :=
  { h with
    memory_keys := rememberCard_nodup _ _ _ _ h.memory_keys
    memory_cards := by
      intro sym ps hps q hq
      rcases stored_rememberCard mem ca.symbol a.row a.col sym ps hps q hq with
        ⟨ps0, hps0, hq0⟩ | ⟨hs, he⟩
      · exact h.memory_cards sym ps0 hps0 q hq0
      · rw [he, hs]
        exact ⟨ca, hca, rfl, hm⟩ }

theorem Board.undo {g : Grid} {up rec : List Pos} {mem : Memory} {mp : Int} {tot : Nat}
    (x y : Pos) (h : Board g up (rec ++ [x, y]) mem mp tot) :
    Board (updateCard (updateCard (updateCard (updateCard g
        x.row x.col Card.clearMatched) y.row y.col Card.clearMatched)
        x.row x.col Card.hide) y.row y.col Card.hide)
      up rec mem (mp - 1) tot := by
  have hxm : x ∈ rec ++ [x, y] := List.mem_append_right _ (List.mem_cons_self _ _)
  have hym : y ∈ rec ++ [x, y] :=
    List.mem_append_right _ (List.mem_cons_of_mem _ (List.mem_cons_self _ _))
  obtain ⟨cx, hcx, hmx⟩ := h.rec_cards x hxm
  obtain ⟨cy, hcy, hmy⟩ := h.rec_cards y hym
  obtain ⟨hrec, hxy, hdis⟩ := List.nodup_append.1 h.rec_nodup
  have hxy2 : x ≠ y := by
    intro e
    rw [e] at hxy
    simp at hxy
  have hyx : y ≠ x := fun e => hxy2 e.symm
  have hy1 : cardAt (updateCard g x.row x.col Card.clearMatched) y.row y.col = some cy := by
    rw [cardAt_updateCard_other _ _ _ _ _ _ ((pos_ne_iff y x).1 hyx), hcy]
  have far : ∀ (P : Card → Prop) (q : Pos), q ≠ x → q ≠ y →
      (∃ c, cardAt g q.row q.col = some c ∧ P c) →
      ∃ c, cardAt (updateCard (updateCard (updateCard (updateCard g
        x.row x.col Card.clearMatched) y.row y.col Card.clearMatched)
        x.row x.col Card.hide) y.row y.col Card.hide) q.row q.col = some c ∧ P c := by
    intro P q hqx hqy hq
    exact exists_card_of_ne _ _ _ _ _ q hqy (exists_card_of_ne _ _ _ _ _ q hqx
      (exists_card_of_ne _ _ _ _ _ q hqy (exists_card_of_ne _ _ _ _ _ q hqx hq)))
  have unmatched_far : ∀ (q : Pos) (c : Card), cardAt g q.row q.col = some c →
      c.isMatched = false → q ≠ x ∧ q ≠ y := by
    intro q c hc hm
    exact ⟨ne_of_flags g x q cx c hcx hc (by rw [hmx, hm]; decide),
      ne_of_flags g y q cy c hcy hc (by rw [hmy, hm]; decide)⟩
  refine ⟨rectangular_updateCard _ _ _ _ (rectangular_updateCard _ _ _ _
      (rectangular_updateCard _ _ _ _ (rectangular_updateCard _ _ _ _ h.rect))),
    ?_, ?_, h.up_nodup, ?_, hrec, ?_, h.memory_keys, ?_⟩
  · rw [cardCount_updateCard, cardCount_updateCard, cardCount_updateCard,
      cardCount_updateCard]
    exact h.total
  · rw [matchedCount_of_keeps _ _ _ Card.hide (fun _ => rfl),
      matchedCount_of_keeps _ _ _ Card.hide (fun _ => rfl)]
    have h1 := matchedCount_updateCard g x.row x.col Card.clearMatched cx hcx
    have h2 := matchedCount_updateCard _ y.row y.col Card.clearMatched cy hy1
    have h3 := h.count
    simp only [hmx, hmy, Card.clearMatched, if_true, Bool.false_eq_true, if_false] at h1 h2
    omega
  · intro q hq
    obtain ⟨c, hc, hrev, hm⟩ := h.up_cards q hq
    obtain ⟨hqx, hqy⟩ := unmatched_far q c hc hm
    exact far _ q hqx hqy ⟨c, hc, hrev, hm⟩
  · intro q hq
    have hqx : q ≠ x := fun e => hdis hq (e ▸ List.mem_cons_self _ _)
    have hqy : q ≠ y :=
      fun e => hdis hq (e ▸ List.mem_cons_of_mem _ (List.mem_cons_self _ _))
    exact far _ q hqx hqy (h.rec_cards q (List.mem_append_left _ hq))
  · intro sym ps hps q hq
    obtain ⟨c, hc, hs, hm⟩ := h.memory_cards sym ps hps q hq
    obtain ⟨hqx, hqy⟩ := unmatched_far q c hc hm
    exact far _ q hqx hqy ⟨c, hc, hs, hm⟩

/-! ## The invariant at the start of a session -/

theorem cardCount_build (rows : List Nat) (cols : List Nat) (mk : Nat → Nat → Card) :
    cardCount (rows.map (fun i => cols.map (mk i))) = rows.length * cols.length := by
  unfold cardCount
  induction rows with
  | nil => simp
  | cons i rest ih =>
    simp only [List.map_cons, List.sum_cons, List.length_map, List.length_cons, ih]
    rw [Nat.add_mul, Nat.one_mul, Nat.add_comm]

theorem matchedCount_build (rows : List Nat) (cols : List Nat) (mk : Nat → Nat → Card)
    (hmk : ∀ i j, (mk i j).isMatched = false) :
    matchedCount (rows.map (fun i => cols.map (mk i))) = 0 := by
  unfold matchedCount
  induction rows with
  | nil => simp
  | cons i rest ih =>
    simp only [List.map_cons, List.sum_cons, ih, Nat.add_zero]
    rw [List.countP_eq_zero]
    intro c hc
    obtain ⟨j, _, rfl⟩ := List.mem_map.1 hc
    simp [hmk]

theorem invariant_start (mode : GameMode) (difficulty : String) (draws : Nat → Draw)
    (prior : GameState) (hF : prior.flippedCards = []) (hP : prior.isProcessing = false)
    (hT : prior.timers = []) :
    Invariant (startGame difficulty draws (selectMode mode prior)) := by
  have hup : faceUp (startGame difficulty draws (selectMode mode prior)) = [] := by
    show prior.flippedCards ++ prior.timers.flatMap Callback.cards = []
    rw [hF, hT]; rfl
  refine ⟨rfl, rfl, ?_, ?_, ?_⟩
  · intro _; rfl
  · refine Or.inl ⟨?_, hP, ?_⟩
    · show control prior.timers = []
      rw [hT]; rfl
    · show prior.flippedCards.length ≤ 1
      rw [hF]; exact Nat.zero_le _
  · rw [hup]
    refine ⟨?_, ?_, ?_, List.nodup_nil, ?_, List.nodup_nil, ?_, List.nodup_nil, ?_⟩
    · exact rectangular_build _ _ _
    · show _ * _ = cardCount (List.map _ (List.range _))
      rw [cardCount_build, List.length_range, List.length_range]
    · show (2 : Int) * 0 = ((matchedCount (List.map _ (List.range _)) : Nat) : Int)
      rw [matchedCount_build _ _ _ (fun _ _ => rfl)]
      rfl
    · intro p hp; exact absurd hp (List.not_mem_nil p)
    · intro p hp; exact absurd hp (List.not_mem_nil p)
    · intro sym ps hps; exact Option.noConfusion hps

/-! ## The invariant is kept by every event -/

theorem control_append (l l' : List Callback) : control (l ++ l') = control l ++ control l' := by
  simp [control]

theorem cards_append (l l' : List Callback) :
    (l ++ l').flatMap Callback.cards = l.flatMap Callback.cards ++ l'.flatMap Callback.cards := by
  simp

theorem handleCardClick_cases (row col : Nat) (s t : GameState)
    (h : handleCardClick row col s = some t) :
    t = s ∨ ∃ card, s.isActive = true ∧ s.isProcessing = false ∧
      ¬ (s.isAIGame = true ∧ s.isPlayer1Turn = false) ∧
      cardAt s.grid row col = some card ∧ card.isRevealed = false ∧ card.isMatched = false ∧
      t = { s with
        grid := updateCard s.grid row col Card.reveal
        flippedCards := s.flippedCards ++ [⟨row, col⟩]
        isProcessing := decide (s.flippedCards.length + 1 = 2)
        timers := if s.flippedCards.length + 1 = 2 then s.timers ++ [Callback.checkMatch]
          else s.timers } := by
  unfold handleCardClick at h
  by_cases ha : s.isActive = true
  swap
  · simp only [ha, Bool.not_eq_true] at h
    simp only [h, Bool.not_false, if_true, Option.some.injEq] at *
    exact Or.inl ‹s = t›.symm
  by_cases hp : s.isProcessing = true
  · simp only [ha, hp, Bool.not_true, Bool.false_eq_true, if_false, if_true,
      Option.some.injEq] at h
    exact Or.inl h.symm
  by_cases hai : (s.isAIGame && !s.isPlayer1Turn) = true
  · simp only [ha, hp, hai, Bool.not_true, Bool.false_eq_true, if_false, if_true,
      Option.some.injEq] at h
    exact Or.inl h.symm
  simp only [ha, hp, hai, Bool.not_true, Bool.false_eq_true, if_false] at h
  cases hc : cardAt s.grid row col with
  | none => simp [hc] at h
  | some card =>
    simp only [hc] at h
    by_cases hrm : (card.isRevealed || card.isMatched) = true
    · simp only [hrm, if_true, Option.some.injEq] at h
      exact Or.inl h.symm
    · simp only [hrm, Bool.false_eq_true, if_false, List.length_append, List.length_singleton]
        at h
      have hr : card.isRevealed = false := by
        cases h1 : card.isRevealed <;> simp_all
      have hm : card.isMatched = false := by
        cases h1 : card.isMatched <;> simp_all
      have hp2 : s.isProcessing = false := by simpa using hp
      refine Or.inr ⟨card, ha, hp2, ?_, rfl, hr, hm, ?_⟩
      · intro hh
        apply hai
        simp [hh.1, hh.2]
      · by_cases hl : s.flippedCards.length + 1 = 2
        · simp only [hl, if_true, Option.some.injEq] at h
          rw [← h]
          cases s
          simp_all
        · simp only [hl, if_false, Option.some.injEq] at h
          rw [← h]
          cases s
          simp_all

theorem invariant_click (row col : Nat) (s t : GameState) (hs : Invariant s)
    (h : handleCardClick row col s = some t) : Invariant t := by
  rcases handleCardClick_cases row col s t h with rfl | ⟨card, ha, hp, hai, hc, hr, hm, rfl⟩
  · exact hs
  have hphase : control s.timers = [] ∧ s.flippedCards.length ≤ 1 := by
    rcases hs.phase with ⟨h1, _, h3⟩ | ⟨_, h2, _⟩ | ⟨_, _, h3, h4, _⟩ | ⟨_, _, h2, _⟩ |
      ⟨_, _, _, h2, _⟩
    · exact ⟨h1, h3⟩
    · rw [hp] at h2; exact Bool.noConfusion h2
    · exfalso
      apply hai
      refine ⟨?_, h3⟩
      rw [hs.mode, h4]; rfl
    · rw [hp] at h2; exact Bool.noConfusion h2
    · rw [hp] at h2; exact Bool.noConfusion h2
  have hb := hs.board.reveal ⟨row, col⟩ card hc hr hm
  refine ⟨ha, hs.mode, hs.memory_multi, ?_, ?_⟩
  · by_cases hl : s.flippedCards.length + 1 = 2
    · refine Or.inr (Or.inl ⟨?_, ?_, ?_⟩)
      · show control (if _ then _ else _) = _
        rw [if_pos hl, control_append, hphase.1]; rfl
      · show decide _ = true
        simp [hl]
      · show (s.flippedCards ++ _).length = 2
        simpa using hl
    · refine Or.inl ⟨?_, ?_, ?_⟩
      · show control (if _ then _ else _) = _
        rw [if_neg hl]; exact hphase.1
      · show decide _ = false
        simp [hl]
      · show (s.flippedCards ++ _).length ≤ 1
        have := hphase.2
        simp only [List.length_append, List.length_singleton]
        omega
  · have hperm : (⟨row, col⟩ :: faceUp s).Perm
        ((s.flippedCards ++ [⟨row, col⟩]) ++
          (if s.flippedCards.length + 1 = 2 then s.timers ++ [Callback.checkMatch]
            else s.timers).flatMap Callback.cards) := by
      have e : (if s.flippedCards.length + 1 = 2 then s.timers ++ [Callback.checkMatch]
            else s.timers).flatMap Callback.cards = s.timers.flatMap Callback.cards := by
        split
        · rw [cards_append]; simp [Callback.cards]
        · rfl
      rw [e, List.append_assoc]
      exact (List.perm_middle).symm
    exact hb.perm_up hperm

theorem recorded_concat (s : GameState) (items : List Move) (m : Move)
    (h : s.moveStack = items ++ [m]) :
    recorded s = items.flatMap (fun m => [m.card1, m.card2]) ++ [m.card1, m.card2] := by
  simp [recorded, h]

theorem undoMove_of_guard (s : GameState)
    (h : s.moveStack = [] ∨ s.isProcessing = true ∨ s.isPlayer1Turn = false) :
    undoMove s = some s := by
  unfold undoMove
  rcases h with h | h | h <;> simp [h]

theorem undoMove_eq_pop (s : GameState) (items : List Move) (m : Move)
    (hstack : s.moveStack = items ++ [m])
    (hproc : s.isProcessing = false) (hturn : s.isPlayer1Turn = true)
    (hp2 : m.isPlayer1 = false) :
    undoMove s = some { s with moveStack := items } := by
  have hne : (items ++ [m]).isEmpty = false := by cases items <;> rfl
  unfold undoMove
  simp only [hstack, hne, hproc, hturn, stack_pop_concat, hp2]
  rfl

theorem undoMove_cases (s t : GameState) (h : undoMove s = some t) :
    t = s ∨ ∃ items m, s.moveStack = items ++ [m] ∧ s.isProcessing = false ∧
      s.isPlayer1Turn = true ∧
      ((m.isPlayer1 = false ∧ t = { s with moveStack := items }) ∨
       (m.isPlayer1 = true ∧ t = { s with
          moveStack := items
          grid := updateCard (updateCard (updateCard (updateCard s.grid
            m.card1.row m.card1.col Card.clearMatched)
            m.card2.row m.card2.col Card.clearMatched)
            m.card1.row m.card1.col Card.hide)
            m.card2.row m.card2.col Card.hide
          player1Score := s.player1Score - 1
          matchedPairs := s.matchedPairs - 1 })) := by
  by_cases hrej : s.moveStack = [] ∨ s.isProcessing = true ∨ s.isPlayer1Turn = false
  · rw [undoMove_of_guard s hrej] at h
    exact Or.inl (Option.some.inj h).symm
  · simp only [not_or, Bool.not_eq_true, Bool.not_eq_false] at hrej
    obtain ⟨hne, hp, ht⟩ := hrej
    rcases List.eq_nil_or_concat s.moveStack with h0 | ⟨items, m, hstack⟩
    · exact absurd h0 hne
    rw [List.concat_eq_append] at hstack
    refine Or.inr ⟨items, m, hstack, hp, ht, ?_⟩
    cases hm : m.isPlayer1 with
    | false =>
      left
      refine ⟨rfl, ?_⟩
      rw [undoMove_eq_pop s items m hstack hp ht hm] at h
      exact (Option.some.inj h).symm
    | true =>
      right
      refine ⟨rfl, ?_⟩
      cases h1 : cardAt s.grid m.card1.row m.card1.col with
      | none =>
        have hemp : (items ++ [m]).isEmpty = false := by cases items <;> rfl
        unfold undoMove at h
        simp [hstack, hemp, hp, ht, stack_pop_concat, hm, h1] at h
      | some c1 =>
        cases h2 : cardAt s.grid m.card2.row m.card2.col with
        | none =>
          have hemp : (items ++ [m]).isEmpty = false := by cases items <;> rfl
          have h2' : cardAt (updateCard s.grid m.card1.row m.card1.col Card.clearMatched)
              m.card2.row m.card2.col = none := by
            have := cardAt_updateCard_isSome s.grid m.card1.row m.card1.col Card.clearMatched
              m.card2.row m.card2.col
            rw [h2] at this
            cases hh : cardAt (updateCard s.grid m.card1.row m.card1.col Card.clearMatched)
              m.card2.row m.card2.col with
            | none => rfl
            | some x => rw [hh] at this; exact Bool.noConfusion this
          unfold undoMove at h
          simp [hstack, hemp, hp, ht, stack_pop_concat, hm, h1, h2'] at h
        | some c2 =>
          rw [undoMove_eq s items m c1 c2 hstack hp ht hm h1 h2] at h
          exact (Option.some.inj h).symm

theorem invariant_undo (s t : GameState) (hs : Invariant s) (h : undoMove s = some t) :
    Invariant t := by
  rcases undoMove_cases s t h with rfl | ⟨items, m, hstack, hp, ht, ⟨hm, rfl⟩ | ⟨hm, rfl⟩⟩
  · exact hs
  · refine ⟨hs.active, hs.mode, hs.memory_multi, hs.phase, ?_⟩
    have hb := hs.board
    rw [recorded_concat s items m hstack] at hb
    exact hb.sublist_rec (List.sublist_append_left _ _)
  · refine ⟨hs.active, hs.mode, hs.memory_multi, hs.phase, ?_⟩
    have hb := hs.board
    rw [recorded_concat s items m hstack] at hb
    exact hb.undo m.card1 m.card2

theorem perm_fire (front mid back extra : List Pos) :
    (front ++ (mid ++ (extra ++ back))).Perm (extra ++ (front ++ (mid ++ back))) := by
  rw [List.perm_iff_count]
  intro a
  simp only [List.count_append]
  omega

theorem invariant_switchTurn (s : GameState) (ha : s.isActive = true)
    (hmode : s.isAIGame = decide (s.gameMode = GameMode.ai))
    (hmulti : s.isAIGame = false → s.memory = [])
    (hctrl : control s.timers = []) (hP : s.isProcessing = false)
    (hF : s.flippedCards = [])
    (hb : Board s.grid (faceUp s) (recorded s) s.memory s.matchedPairs s.totalPairs2) :
    Invariant (switchTurn s) := by
  rw [switchTurn_eq]
  refine ⟨ha, hmode, hmulti, ?_, ?_⟩
  · by_cases hc : s.isPlayer1Turn = false ∨ s.gameMode = GameMode.multiplayer
    · refine Or.inl ⟨?_, hP, ?_⟩
      · show control (if _ then _ else _) = []
        rw [if_pos hc]; exact hctrl
      · show s.flippedCards.length ≤ 1
        rw [hF]; exact Nat.zero_le _
    · refine Or.inr (Or.inr (Or.inl ⟨?_, hP, ?_, ?_, hF⟩))
      · show control (if _ then _ else _) = _
        rw [if_neg hc, control_append, hctrl]; rfl
      · show (!s.isPlayer1Turn) = false
        cases hpt : s.isPlayer1Turn
        · exact absurd (Or.inl hpt) hc
        · rfl
      · show s.gameMode = GameMode.ai
        cases hm : s.gameMode
        · rfl
        · exact absurd (Or.inr hm) hc
  · have e : faceUp { s with
        isPlayer1Turn := !s.isPlayer1Turn
        timers := if s.isPlayer1Turn = false ∨ s.gameMode = GameMode.multiplayer then s.timers
          else s.timers ++ [Callback.aiThink] } = faceUp s := by
      simp only [faceUp]
      split
      · rfl
      · rw [cards_append]; simp [Callback.cards]
    show Board s.grid (faceUp _) (recorded s) s.memory s.matchedPairs s.totalPairs2
    rw [e]
    exact hb

theorem finishCheckMatch_eq_switchTurn (s : GameState) :
    finishCheckMatch s =
      if checkGameOver s then { s with flippedCards := [], isProcessing := false }
      else switchTurn { s with flippedCards := [], isProcessing := false } := by
  unfold finishCheckMatch
  cases h : checkGameOver s
  · have h2 : checkGameOver { s with flippedCards := [], isProcessing := false } = false := h
    simp [h2]
  · have h2 : checkGameOver { s with flippedCards := [], isProcessing := false } = true := h
    simp [h2]

theorem finishAiTurn_eq_finishCheckMatch (s : GameState) (hF : s.flippedCards = []) :
    finishAiTurn s = finishCheckMatch s := by
  rw [finishAiTurn_eq, finishCheckMatch_eq]
  cases s
  simp only at hF
  subst hF
  rfl

theorem invariant_finish (s : GameState) (ha : s.isActive = true)
    (hmode : s.isAIGame = decide (s.gameMode = GameMode.ai))
    (hmulti : s.isAIGame = false → s.memory = [])
    (hctrl : control s.timers = [])
    (hb : Board s.grid (s.timers.flatMap Callback.cards) (recorded s) s.memory
      s.matchedPairs s.totalPairs2) :
    Invariant (finishCheckMatch s) := by
  rw [finishCheckMatch_eq_switchTurn]
  split
  · exact ⟨ha, hmode, hmulti, Or.inl ⟨hctrl, rfl, Nat.zero_le _⟩, hb⟩
  · exact invariant_switchTurn _ ha hmode hmulti hctrl rfl rfl hb

theorem checkMatch_cases (s t : GameState) (h : checkMatch s = some t) :
    ∃ card1 card2 rest c1 c2, s.flippedCards = card1 :: card2 :: rest ∧
      cardAt s.grid card1.row card1.col = some c1 ∧
      cardAt s.grid card2.row card2.col = some c2 ∧
      t = finishCheckMatch
        (if c1.symbol = c2.symbol then matchFound s card1 card2 c1.symbol c2.symbol
         else noMatch s card1 card2 c1.symbol c2.symbol) := by
  cases hf : s.flippedCards with
  | nil => simp [checkMatch, hf] at h
  | cons card1 l =>
    cases l with
    | nil => simp [checkMatch, hf] at h
    | cons card2 rest =>
      cases h1 : cardAt s.grid card1.row card1.col with
      | none => simp [checkMatch, hf, h1] at h
      | some c1 =>
        cases h2 : cardAt s.grid card2.row card2.col with
        | none => simp [checkMatch, hf, h1, h2] at h
        | some c2 =>
          rw [checkMatch_eq s card1 card2 rest c1 c2 hf h1 h2] at h
          exact ⟨card1, card2, rest, c1, c2, rfl, h1, h2, (Option.some.inj h).symm⟩

theorem forget_pair_sub (g : Grid) (mem : Memory) (a b : Pos) (ca cb : Card)
    (hk : (memKeys mem).Nodup)
    (hmem : ∀ sym ps, memGet mem sym = some ps → ∀ p ∈ ps,
      ∃ c, cardAt g p.row p.col = some c ∧ (c.symbol = sym ∧ c.isMatched = false))
    (hca : cardAt g a.row a.col = some ca) (hcb : cardAt g b.row b.col = some cb) :
    ∀ sym ps,
      memGet (forgetCard (forgetCard mem ca.symbol a.row a.col) cb.symbol b.row b.col) sym =
        some ps →
      ∀ q ∈ ps, (∃ ps0, memGet mem sym = some ps0 ∧ q ∈ ps0) ∧ q ≠ a ∧ q ≠ b := by
  intro sym ps hps q hq
  obtain ⟨⟨ps1, hps1, hq1⟩, hnb⟩ :=
    stored_forgetCard _ cb.symbol b.row b.col (forgetCard_nodup _ _ _ _ hk) sym ps hps q hq
  obtain ⟨⟨ps0, hps0, hq0⟩, hna⟩ :=
    stored_forgetCard mem ca.symbol a.row a.col hk sym ps1 hps1 q hq1
  obtain ⟨c, hc, hsym, _⟩ := hmem sym ps0 hps0 q hq0
  refine ⟨⟨ps0, hps0, hq0⟩, ?_, ?_⟩
  · intro e
    subst e
    rw [hca] at hc
    exact hna ⟨by rw [← hsym, Option.some.inj hc], rfl⟩
  · intro e
    subst e
    rw [hcb] at hc
    exact hnb ⟨by rw [← hsym, Option.some.inj hc], rfl⟩

theorem invariant_checkMatch (s t : GameState) (ha : s.isActive = true)
    (hmode : s.isAIGame = decide (s.gameMode = GameMode.ai))
    (hmulti : s.isAIGame = false → s.memory = [])
    (hctrl : control s.timers = []) (hF : s.flippedCards.length = 2)
    (hb : Board s.grid (faceUp s) (recorded s) s.memory s.matchedPairs s.totalPairs2)
    (h : checkMatch s = some t) : Invariant t := by
  obtain ⟨a, b, rest, ca, cb, hf, hca, hcb, rfl⟩ := checkMatch_cases s t h
  have hrest : rest = [] := by
    rw [hf] at hF
    simp only [List.length_cons, Nat.add_left_cancel_iff] at hF
    have : rest.length = 0 := by omega
    exact List.length_eq_zero.1 this
  subst hrest
  have hb2 : Board s.grid (a :: b :: s.timers.flatMap Callback.cards) (recorded s) s.memory
      s.matchedPairs s.totalPairs2 := by
    have e : faceUp s = a :: b :: s.timers.flatMap Callback.cards := by
      simp [faceUp, hf]
    rw [e] at hb
    exact hb
  obtain ⟨xa, hxa, _, hma⟩ := hb2.up_cards a (List.mem_cons_self _ _)
  obtain ⟨xb, hxb, _, hmb⟩ :=
    hb2.up_cards b (List.mem_cons_of_mem _ (List.mem_cons_self _ _))
  have hma' : ca.isMatched = false := by
    rw [hca] at hxa; rw [Option.some.inj hxa]; exact hma
  have hmb' : cb.isMatched = false := by
    rw [hcb] at hxb; rw [Option.some.inj hxb]; exact hmb
  by_cases hsym : ca.symbol = cb.symbol
  · rw [if_pos hsym, matchFound_eq]
    refine invariant_finish _ ha hmode ?_ ?_ ?_
    · intro hai
      have hai' : s.isAIGame = false := hai
      show (if s.isAIGame = true then _ else s.memory) = []
      rw [hai']
      exact hmulti hai'
    · show control (if _ then _ else _) = []
      split
      · rw [control_append, hctrl]; rfl
      · exact hctrl
    · have e : (if (s.totalPairs2 : Int) ≤ 2 * (s.matchedPairs + 1) then
          s.timers ++ [Callback.showGameOver] else s.timers).flatMap Callback.cards =
          s.timers.flatMap Callback.cards := by
        split
        · rw [cards_append]; simp [Callback.cards]
        · rfl
      show Board _ (List.flatMap _ Callback.cards) _ _ _ _
      simp only [e]
      have hrec : recorded { s with
          moveStack := s.moveStack ++ [⟨a, b, s.isPlayer1Turn⟩] } = recorded s ++ [a, b] := by
        simp [recorded]
      show Board _ _ (recorded { s with
          moveStack := s.moveStack ++ [⟨a, b, s.isPlayer1Turn⟩] }) _ _ _
      rw [hrec]
      refine Board.matchPair a b hb2 _ ?_ ?_
      · split
        · exact forgetCard_nodup _ _ _ _ (forgetCard_nodup _ _ _ _ hb2.memory_keys)
        · exact hb2.memory_keys
      · cases hai : s.isAIGame
        · intro sym ps hps
          rw [hmulti hai] at hps
          exact Option.noConfusion hps
        · exact forget_pair_sub s.grid s.memory a b ca cb hb2.memory_keys hb2.memory_cards
            hca hcb
  · rw [if_neg hsym]
    refine invariant_finish _ ha hmode ?_ ?_ ?_
    · intro hai
      have hai' : s.isAIGame = false := hai
      show (if s.isAIGame = true then _ else s.memory) = []
      rw [hai']
      exact hmulti hai'
    · show control (s.timers ++ [Callback.hide a b]) = []
      rw [control_append, hctrl]; rfl
    · show Board s.grid (List.flatMap (s.timers ++ [Callback.hide a b]) Callback.cards)
        (recorded s) (if s.isAIGame = true then _ else s.memory) _ _
      have hb3 : Board s.grid (List.flatMap (s.timers ++ [Callback.hide a b]) Callback.cards)
          (recorded s) s.memory s.matchedPairs s.totalPairs2 := by
        refine hb2.perm_up ?_
        rw [cards_append]
        simp only [List.flatMap_cons, List.flatMap_nil, Callback.cards, List.append_nil]
        rw [List.perm_iff_count]
        intro x
        simp only [List.count_append, List.count_cons, List.count_nil]
        omega
      split
      · exact (hb3.remember a ca hca hma').remember b cb hcb hmb'
      · exact hb3

theorem hidePair_cases (a b : Pos) (s t : GameState) (h : hidePair a b s = some t) :
    t = { s with
      grid := updateCard (updateCard s.grid a.row a.col Card.hide) b.row b.col Card.hide } := by
  unfold hidePair unflipCard at h
  cases h1 : cardAt s.grid a.row a.col with
  | none => simp [h1] at h
  | some c1 =>
    simp only [h1] at h
    cases h2 : cardAt (updateCard s.grid a.row a.col Card.hide) b.row b.col with
    | none => simp [h2] at h
    | some c2 =>
      simp only [h2, Option.some.injEq] at h
      exact h.symm

theorem invariant_hide (a b : Pos) (s t : GameState) (ha : s.isActive = true)
    (hmode : s.isAIGame = decide (s.gameMode = GameMode.ai))
    (hmulti : s.isAIGame = false → s.memory = [])
    (hphase : Phase s)
    (hb : Board s.grid (a :: b :: faceUp s) (recorded s) s.memory s.matchedPairs
      s.totalPairs2)
    (h : hidePair a b s = some t) : Invariant t := by
  rw [hidePair_cases a b s t h]
  exact ⟨ha, hmode, hmulti, hphase, (hb.hide a).hide b⟩

theorem scanAvailable_mem (g : Grid) (ps l : List Pos) (h : scanAvailable g ps = some l) :
    ∀ p ∈ l, available g p = true := by
  induction ps generalizing l with
  | nil =>
    simp only [scanAvailable, Option.some.injEq] at h
    subst h
    intro p hp
    exact absurd hp (List.not_mem_nil p)
  | cons q rest ih =>
    simp only [scanAvailable] at h
    cases hc : cardAt g q.row q.col with
    | none => simp [hc] at h
    | some card =>
      simp only [hc] at h
      cases hr : scanAvailable g rest with
      | none => simp [hr] at h
      | some l' =>
        simp only [hr, Option.some.injEq] at h
        subst h
        intro p hp
        by_cases hav : (!card.isMatched && !card.isRevealed) = true
        · simp only [hav, if_true] at hp
          rcases List.mem_cons.1 hp with e | e
          · subst e
            simp only [available, hc, hav]
          · exact ih l' hr p e
        · simp only [hav, Bool.false_eq_true, if_false] at hp
          exact ih l' hr p hp

theorem randomMove_some (g : Grid) (u : Draw) (p : Pos)
    (h : randomMove g u = some (some p)) : available g p = true := by
  unfold randomMove at h
  cases hs : scanAvailable g (scanCells g) with
  | none => simp [hs] at h
  | some l =>
    simp only [hs] at h
    split at h
    · simp at h
    · simp only [Option.some.injEq] at h
      exact scanAvailable_mem g _ l hs p (List.getElem?_mem h)

theorem findInMemory_some (g : Grid) (fc : Pos) (ps : List Pos) (p : Pos)
    (h : findInMemory g fc ps = some (some p)) : usable g fc p = true := by
  induction ps with
  | nil => simp [findInMemory] at h
  | cons q rest ih =>
    simp only [findInMemory] at h
    cases hrow : g[q.row]? with
    | none => simp [hrow] at h
    | some cards =>
      simp only [hrow] at h
      by_cases hd : q.row ≠ fc.row ∨ q.col ≠ fc.col
      · simp only [hd, if_true] at h
        cases hcol : cards[q.col]? with
        | none => simp [hcol] at h
        | some card =>
          simp only [hcol] at h
          by_cases hav : (!card.isMatched && !card.isRevealed) = true
          · simp only [hav, if_true, Option.some.injEq] at h
            subst h
            have hc : cardAt g q.row q.col = some card :=
              (cardAt_eq_some_iff g q.row q.col card).2 ⟨cards, hrow, hcol⟩
            have hne : q ≠ fc := (pos_ne_iff q fc).2 (not_and_or.2 hd)
            simp [usable, available, hc, hav, hne]
          · simp only [hav, Bool.false_eq_true, if_false] at h
            exact ih h
      · simp only [hd, if_false] at h
        exact ih h

theorem makeMove_some (mem : Memory) (g : Grid) (fc : Option Pos) (u : Draw) (p : Pos)
    (h : makeMove mem g fc u = some (some p)) : available g p = true := by
  unfold makeMove at h
  cases fc with
  | none => exact randomMove_some g u p h
  | some anchor =>
    simp only at h
    cases ha : cardAt g anchor.row anchor.col with
    | none => simp [ha] at h
    | some card =>
      simp only [ha] at h
      cases hm : memGet mem card.symbol with
      | none =>
        simp only [hm] at h
        exact randomMove_some g u p h
      | some positions =>
        simp only [hm] at h
        cases hf : findInMemory g anchor positions with
        | none => simp [hf] at h
        | some r =>
          cases r with
          | none =>
            simp only [hf] at h
            exact randomMove_some g u p h
          | some q =>
            simp only [hf, Option.some.injEq] at h
            subst h
            have := findInMemory_some g anchor positions q hf
            simp only [usable, Bool.and_eq_true] at this
            exact this.2

theorem aiTurn_eq_null (u : Draw) (s : GameState) (ha : s.isActive = true)
    (hP : s.isProcessing = false) (hm : makeMove s.memory s.grid none u = some none) :
    aiTurn u s = some (switchTurn { s with isProcessing := false }) := by
  unfold aiTurn
  simp only [ha, hP, hm]
  rfl

theorem aiTurn_eq_pick (u : Draw) (s : GameState) (c1 : Pos) (card : Card)
    (ha : s.isActive = true) (hP : s.isProcessing = false)
    (hm : makeMove s.memory s.grid none u = some (some c1))
    (hc : cardAt s.grid c1.row c1.col = some card) :
    aiTurn u s = some { s with
      isProcessing := true
      grid := updateCard s.grid c1.row c1.col Card.reveal
      timers := s.timers ++ [Callback.aiSecondPick c1] } := by
  unfold aiTurn
  simp only [ha, hP, hm, flipCard, hc]
  rfl

theorem aiTurn_eq_none (u : Draw) (s : GameState) (ha : s.isActive = true)
    (hP : s.isProcessing = false) (hm : makeMove s.memory s.grid none u = none) :
    aiTurn u s = none := by
  unfold aiTurn
  simp only [ha, hP, hm]
  rfl

theorem invariant_aiTurn (u : Draw) (s t : GameState) (ha : s.isActive = true)
    (hmode : s.isAIGame = decide (s.gameMode = GameMode.ai))
    (hmulti : s.isAIGame = false → s.memory = [])
    (hctrl : control s.timers = []) (hP : s.isProcessing = false)
    (hM : s.gameMode = GameMode.ai) (hF : s.flippedCards = [])
    (hb : Board s.grid (faceUp s) (recorded s) s.memory s.matchedPairs s.totalPairs2)
    (h : aiTurn u s = some t) : Invariant t := by
  cases hm : makeMove s.memory s.grid none u with
  | none =>
    rw [aiTurn_eq_none u s ha hP hm] at h
    exact Option.noConfusion h
  | some r =>
    cases r with
    | none =>
      rw [aiTurn_eq_null u s ha hP hm] at h
      rw [← Option.some.inj h]
      exact invariant_switchTurn _ ha hmode hmulti hctrl rfl hF hb
    | some c1 =>
      obtain ⟨card, hc, hcm, hcr⟩ := (available_spec s.grid c1).1 (makeMove_some _ _ _ _ _ hm)
      rw [aiTurn_eq_pick u s c1 card ha hP hm hc] at h
      rw [← Option.some.inj h]
      refine ⟨ha, hmode, hmulti, ?_, ?_⟩
      · refine Or.inr (Or.inr (Or.inr (Or.inl ⟨c1, ?_, rfl, hF, hM⟩)))
        show control (s.timers ++ [Callback.aiSecondPick c1]) = _
        rw [control_append, hctrl]; rfl
      · refine (hb.reveal c1 card hc hcr hcm).perm_up ?_
        rw [List.perm_iff_count]
        intro x
        simp only [faceUp, cards_append, List.count_append, List.count_cons, List.count_nil,
          Callback.cards, List.flatMap_cons, List.flatMap_nil, List.append_nil]
        omega

theorem aiSecondPick_eq_null (c1 : Pos) (u : Draw) (s : GameState) (card : Card)
    (hm : makeMove s.memory s.grid (some c1) u = some none)
    (hc : cardAt s.grid c1.row c1.col = some card) :
    aiSecondPick c1 u s = some (switchTurn { s with
      grid := updateCard s.grid c1.row c1.col Card.hide
      isProcessing := false }) := by
  unfold aiSecondPick
  simp only [hm, unflipCard, hc]

theorem aiSecondPick_eq_pick (c1 c2 : Pos) (u : Draw) (s : GameState) (card : Card)
    (hm : makeMove s.memory s.grid (some c1) u = some (some c2))
    (hc : cardAt s.grid c2.row c2.col = some card) :
    aiSecondPick c1 u s = some { s with
      grid := updateCard s.grid c2.row c2.col Card.reveal
      timers := s.timers ++ [Callback.aiResolve c1 c2] } := by
  unfold aiSecondPick
  simp only [hm, flipCard, hc]

theorem aiSecondPick_eq_none (c1 : Pos) (u : Draw) (s : GameState)
    (hm : makeMove s.memory s.grid (some c1) u = none) :
    aiSecondPick c1 u s = none := by
  unfold aiSecondPick
  simp only [hm]

theorem invariant_aiSecondPick (c1 : Pos) (u : Draw) (s t : GameState)
    (ha : s.isActive = true)
    (hmode : s.isAIGame = decide (s.gameMode = GameMode.ai))
    (hmulti : s.isAIGame = false → s.memory = [])
    (hctrl : control s.timers = []) (hP : s.isProcessing = true)
    (hM : s.gameMode = GameMode.ai) (hF : s.flippedCards = [])
    (hb : Board s.grid (c1 :: faceUp s) (recorded s) s.memory s.matchedPairs s.totalPairs2)
    (h : aiSecondPick c1 u s = some t) : Invariant t := by
  cases hm : makeMove s.memory s.grid (some c1) u with
  | none =>
    rw [aiSecondPick_eq_none c1 u s hm] at h
    exact Option.noConfusion h
  | some r =>
    cases r with
    | none =>
      obtain ⟨card, hc, _⟩ := hb.up_cards c1 (List.mem_cons_self _ _)
      rw [aiSecondPick_eq_null c1 u s card hm hc] at h
      rw [← Option.some.inj h]
      exact invariant_switchTurn _ ha hmode hmulti hctrl rfl hF (hb.hide c1)
    | some c2 =>
      obtain ⟨card, hc, hcm, hcr⟩ := (available_spec s.grid c2).1 (makeMove_some _ _ _ _ _ hm)
      rw [aiSecondPick_eq_pick c1 c2 u s card hm hc] at h
      rw [← Option.some.inj h]
      refine ⟨ha, hmode, hmulti, ?_, ?_⟩
      · refine Or.inr (Or.inr (Or.inr (Or.inr ⟨c1, c2, ?_, hP, hF, hM⟩)))
        show control (s.timers ++ [Callback.aiResolve c1 c2]) = _
        rw [control_append, hctrl]; rfl
      · refine (hb.reveal c2 card hc hcr hcm).perm_up ?_
        rw [List.perm_iff_count]
        intro x
        simp only [faceUp, cards_append, List.count_append, List.count_cons, List.count_nil,
          Callback.cards, List.flatMap_cons, List.flatMap_nil, List.append_nil]
        omega

theorem aiResolve_cases (c1 c2 : Pos) (s t : GameState) (h : aiResolve c1 c2 s = some t) :
    ∃ ca cb, cardAt s.grid c1.row c1.col = some ca ∧ cardAt s.grid c2.row c2.col = some cb ∧
      t = finishAiTurn
        (if ca.symbol = cb.symbol then aiMatchFound s c1 c2 ca.symbol cb.symbol
         else aiNoMatch s c1 c2 ca.symbol cb.symbol) := by
  cases h1 : cardAt s.grid c1.row c1.col with
  | none => simp [aiResolve, h1] at h
  | some ca =>
    cases h2 : cardAt s.grid c2.row c2.col with
    | none => simp [aiResolve, h1, h2] at h
    | some cb =>
      rw [aiResolve_eq s c1 c2 ca cb h1 h2] at h
      exact ⟨ca, cb, rfl, rfl, (Option.some.inj h).symm⟩

theorem invariant_aiResolve (c1 c2 : Pos) (s t : GameState) (ha : s.isActive = true)
    (hmode : s.isAIGame = decide (s.gameMode = GameMode.ai))
    (hctrl : control s.timers = [])
    (hM : s.gameMode = GameMode.ai) (hF : s.flippedCards = [])
    (hb : Board s.grid (c1 :: c2 :: faceUp s) (recorded s) s.memory s.matchedPairs
      s.totalPairs2)
    (h : aiResolve c1 c2 s = some t) : Invariant t := by
  obtain ⟨ca, cb, hca, hcb, rfl⟩ := aiResolve_cases c1 c2 s t h
  have hai : s.isAIGame = true := by rw [hmode, hM]; rfl
  have hb2 : Board s.grid (c1 :: c2 :: s.timers.flatMap Callback.cards) (recorded s) s.memory
      s.matchedPairs s.totalPairs2 := by
    have e : faceUp s = s.timers.flatMap Callback.cards := by simp [faceUp, hF]
    rw [e] at hb
    exact hb
  obtain ⟨xa, hxa, _, hma⟩ := hb2.up_cards c1 (List.mem_cons_self _ _)
  obtain ⟨xb, hxb, _, hmb⟩ :=
    hb2.up_cards c2 (List.mem_cons_of_mem _ (List.mem_cons_self _ _))
  have hma' : ca.isMatched = false := by
    rw [hca] at hxa; rw [Option.some.inj hxa]; exact hma
  have hmb' : cb.isMatched = false := by
    rw [hcb] at hxb; rw [Option.some.inj hxb]; exact hmb
  by_cases hsym : ca.symbol = cb.symbol
  · rw [if_pos hsym, finishAiTurn_eq_finishCheckMatch _ (by rw [aiMatchFound_eq]; exact hF),
      aiMatchFound_eq]
    refine invariant_finish _ ha hmode ?_ ?_ ?_
    · intro hcon
      have hcon' : s.isAIGame = false := hcon
      rw [hai] at hcon'
      exact Bool.noConfusion hcon'
    · show control (if _ then _ else _) = []
      split
      · rw [control_append, hctrl]; rfl
      · exact hctrl
    · have e : (if (s.totalPairs2 : Int) ≤ 2 * (s.matchedPairs + 1) then
          s.timers ++ [Callback.showGameOver] else s.timers).flatMap Callback.cards =
          s.timers.flatMap Callback.cards := by
        split
        · rw [cards_append]; simp [Callback.cards]
        · rfl
      show Board _ (List.flatMap _ Callback.cards) (recorded s) _ _ _
      simp only [e]
      refine (Board.matchPair c1 c2 hb2 _ ?_ ?_).sublist_rec (List.sublist_append_left _ _)
      · exact forgetCard_nodup _ _ _ _ (forgetCard_nodup _ _ _ _ hb2.memory_keys)
      · exact forget_pair_sub s.grid s.memory c1 c2 ca cb hb2.memory_keys hb2.memory_cards
          hca hcb
  · rw [if_neg hsym, finishAiTurn_eq_finishCheckMatch (aiNoMatch s c1 c2 ca.symbol cb.symbol) hF]
    refine invariant_finish _ ha hmode ?_ ?_ ?_
    · intro hcon
      have hcon' : s.isAIGame = false := hcon
      rw [hai] at hcon'
      exact Bool.noConfusion hcon'
    · show control (s.timers ++ [Callback.hide c1 c2]) = []
      rw [control_append, hctrl]; rfl
    · show Board s.grid (List.flatMap (s.timers ++ [Callback.hide c1 c2]) Callback.cards)
        (recorded s) (rememberCard (rememberCard s.memory ca.symbol c1.row c1.col)
          cb.symbol c2.row c2.col) _ _
      have hb3 : Board s.grid (List.flatMap (s.timers ++ [Callback.hide c1 c2]) Callback.cards)
          (recorded s) s.memory s.matchedPairs s.totalPairs2 := by
        refine hb2.perm_up ?_
        rw [cards_append]
        simp only [List.flatMap_cons, List.flatMap_nil, Callback.cards, List.append_nil]
        rw [List.perm_iff_count]
        intro x
        simp only [List.count_append, List.count_cons, List.count_nil]
        omega
      exact (hb3.remember c1 ca hca hma').remember c2 cb hcb hmb'

theorem control_split (before after : List Callback) (cb : Callback) (l : List Callback)
    (h : control (before ++ cb :: after) = l) :
    (cb.isControl = true → l = control before ++ cb :: control after) ∧
    (cb.isControl = false → control (before ++ after) = l) := by
  subst h
  constructor
  · intro hc
    simp [control, List.filter_cons, hc]
  · intro hc
    simp [control, List.filter_cons, hc]

theorem control_fired (before after : List Callback) (cb x : Callback)
    (hc : cb.isControl = true) (h : control (before ++ cb :: after) = [x]) :
    cb = x ∧ control (before ++ after) = [] := by
  have h2 := (control_split before after cb [x] h).1 hc
  have hlen := congrArg List.length h2
  rw [List.length_append, List.length_cons, List.length_cons, List.length_nil] at hlen
  have hb : control before = [] := List.length_eq_zero.1 (by omega)
  have ha : control after = [] := List.length_eq_zero.1 (by omega)
  rw [hb, ha] at h2
  simp only [List.nil_append, List.cons.injEq, and_true] at h2
  exact ⟨h2.symm, by rw [control_append, hb, ha]; rfl⟩

theorem phase_control_fired (s : GameState) (hp : Phase s) (before after : List Callback)
    (cb : Callback) (ht : s.timers = before ++ cb :: after) (hc : cb.isControl = true) :
    control s.timers = [cb] ∧ control (before ++ after) = [] := by
  have none_case : control s.timers ≠ [] := by
    intro h0
    rw [ht] at h0
    have := (control_split before after cb [] h0).1 hc
    cases hcb : control before <;> rw [hcb] at this <;> simp at this
  have one_case : ∀ x, control s.timers = [x] →
      control s.timers = [cb] ∧ control (before ++ after) = [] := by
    intro x hx
    have hx2 := hx
    rw [ht] at hx2
    obtain ⟨e, h0⟩ := control_fired before after cb x hc hx2
    exact ⟨by rw [hx, e], h0⟩
  rcases hp with ⟨h1, _⟩ | ⟨h1, _⟩ | ⟨h1, _⟩ | ⟨_, h1, _⟩ | ⟨_, _, h1, _⟩
  · exact absurd h1 none_case
  · exact one_case _ h1
  · exact one_case _ h1
  · exact one_case _ h1
  · exact one_case _ h1

theorem phase_noncontrol_fired (s : GameState) (hp : Phase s) (before after : List Callback)
    (cb : Callback) (ht : s.timers = before ++ cb :: after) (hc : cb.isControl = false) :
    Phase { s with timers := before ++ after } := by
  have e : control (before ++ after) = control s.timers := by
    rw [ht]
    exact (control_split before after cb _ rfl).2 hc
  unfold Phase
  simp only [e]
  exact hp

theorem board_fired (s : GameState) (hs : Invariant s) (before after : List Callback)
    (cb : Callback) (ht : s.timers = before ++ cb :: after) :
    Board s.grid (cb.cards ++ faceUp { s with timers := before ++ after }) (recorded s)
      s.memory s.matchedPairs s.totalPairs2 := by
  refine hs.board.perm_up ?_
  simp only [faceUp, ht, cards_append, List.flatMap_cons]
  exact perm_fire _ _ _ _

theorem invariant_fire (s t : GameState) (before after : List Callback) (cb : Callback)
    (u : Draw) (hs : Invariant s) (ht : s.timers = before ++ cb :: after)
    (h : runCallback cb u { s with timers := before ++ after } = some t) : Invariant t := by
  have hb := board_fired s hs before after cb ht
  cases cb with
  | checkMatch =>
    obtain ⟨hc1, hc0⟩ := phase_control_fired s hs.phase before after _ ht rfl
    have hF : s.flippedCards.length = 2 := by
      rcases hs.phase with ⟨h1, _⟩ | ⟨_, _, h3⟩ | ⟨h1, _⟩ | ⟨_, h1, _⟩ | ⟨_, _, h1, _⟩
      · rw [hc1] at h1; exact List.noConfusion h1
      · exact h3
      · rw [hc1] at h1; simp at h1
      · rw [hc1] at h1; simp at h1
      · rw [hc1] at h1; simp at h1
    exact invariant_checkMatch { s with timers := before ++ after } t hs.active hs.mode hs.memory_multi hc0 hF hb h
  | hide a b =>
    exact invariant_hide a b { s with timers := before ++ after } t hs.active hs.mode hs.memory_multi
      (phase_noncontrol_fired s hs.phase before after _ ht rfl) hb h
  | aiThink =>
    obtain ⟨hc1, hc0⟩ := phase_control_fired s hs.phase before after _ ht rfl
    have hfacts : s.isProcessing = false ∧ s.gameMode = GameMode.ai ∧ s.flippedCards = [] := by
      rcases hs.phase with ⟨h1, _⟩ | ⟨h1, _⟩ | ⟨_, h2, _, h4, h5⟩ | ⟨_, h1, _⟩ | ⟨_, _, h1, _⟩
      · rw [hc1] at h1; exact List.noConfusion h1
      · rw [hc1] at h1; simp at h1
      · exact ⟨h2, h4, h5⟩
      · rw [hc1] at h1; simp at h1
      · rw [hc1] at h1; simp at h1
    have hact : ¬ ((!s.isActive) = true) := by rw [hs.active]; decide
    change (if (!s.isActive) = true then _ else aiTurn u _) = some t at h
    rw [if_neg hact] at h
    exact invariant_aiTurn u { s with timers := before ++ after } t hs.active hs.mode hs.memory_multi hc0 hfacts.1 hfacts.2.1
      hfacts.2.2 hb h
  | aiSecondPick c1 =>
    obtain ⟨hc1, hc0⟩ := phase_control_fired s hs.phase before after _ ht rfl
    have hfacts : s.isProcessing = true ∧ s.gameMode = GameMode.ai ∧ s.flippedCards = [] := by
      rcases hs.phase with ⟨h1, _⟩ | ⟨h1, _⟩ | ⟨h1, _⟩ | ⟨_, _, h2, h3, h4⟩ | ⟨_, _, h1, _⟩
      · rw [hc1] at h1; exact List.noConfusion h1
      · rw [hc1] at h1; simp at h1
      · rw [hc1] at h1; simp at h1
      · exact ⟨h2, h4, h3⟩
      · rw [hc1] at h1; simp at h1
    exact invariant_aiSecondPick c1 u { s with timers := before ++ after } t hs.active hs.mode hs.memory_multi hc0 hfacts.1
      hfacts.2.1 hfacts.2.2 hb h
  | aiResolve c1 c2 =>
    obtain ⟨hc1, hc0⟩ := phase_control_fired s hs.phase before after _ ht rfl
    have hfacts : s.gameMode = GameMode.ai ∧ s.flippedCards = [] := by
      rcases hs.phase with ⟨h1, _⟩ | ⟨h1, _⟩ | ⟨h1, _⟩ | ⟨_, h1, _⟩ | ⟨_, _, _, _, h3, h4⟩
      · rw [hc1] at h1; exact List.noConfusion h1
      · rw [hc1] at h1; simp at h1
      · rw [hc1] at h1; simp at h1
      · rw [hc1] at h1; simp at h1
      · exact ⟨h4, h3⟩
    exact invariant_aiResolve c1 c2 { s with timers := before ++ after } t hs.active hs.mode hc0 hfacts.1 hfacts.2 hb h
  | showGameOver =>
    simp only [runCallback, Option.some.injEq] at h
    rw [← h]
    exact ⟨hs.active, hs.mode, hs.memory_multi,
      phase_noncontrol_fired s hs.phase before after _ ht rfl, hb⟩

theorem invariant_step (s t : GameState) (hs : Invariant s) (h : Step s t) : Invariant t := by
  cases h with
  | click row col hc => exact invariant_click row col s t hs hc
  | undo hu => exact invariant_undo s t hs hu
  | fire before after cb u ht hr => exact invariant_fire s t before after cb u hs ht hr

theorem invariant_reachable (s : GameState) (h : Reachable s) : Invariant s := by
  induction h with
  | start mode difficulty draws prior hF hP hT =>
    exact invariant_start mode difficulty draws prior hF hP hT
  | step s t _ hstep ih => exact invariant_step s t ih hstep

/-! ## Claims on sessions -/

/-- In every state of a session started on a state with no pending pick, resolution or
callback (reached from `startGame` by clicks, undo and the engine's callbacks, in either
mode), no position stored in the opponent memory belongs to
a matched card: for every key and every position stored under it, the grid has a card
there and its `isMatched` flag is false. -/
theorem memory_holds_no_matched_card (s : GameState) (h : Reachable s) :
    ∀ sym ps, (sym, ps) ∈ s.memory → ∀ p ∈ ps,
      ∃ c, cardAt s.grid p.row p.col = some c ∧ c.isMatched = false := by
  intro sym ps hmem p hp
  have hinv := invariant_reachable s h
  obtain ⟨c, hc, _, hm⟩ := hinv.board.memory_cards sym ps
    (memGet_of_mem s.memory sym ps hinv.board.memory_keys hmem) p hp
  exact ⟨c, hc, hm⟩

/-- Instance of `memory_holds_no_matched_card`: in `undoReady` the two `🍌` cards are matched and the computer remembers
`🍎` at (0, 0), a card that is not matched. -/
theorem memory_holds_no_matched_card_witness :
    ∃ c, cardAt undoReady.grid 0 0 = some c ∧ c.isMatched = false :=
  memory_holds_no_matched_card undoReady
    (play_reachable undoReadyEvents easyStart undoReady
      (Reachable.start GameMode.ai "easy" (fun _ => zeroDraw) initialGameState rfl rfl rfl) (by decide))
    (some "🍎") [⟨0, 0⟩] (by decide) ⟨0, 0⟩ (by decide)

theorem hidePair_spec (a b : Pos) (w : GameState) (ca cb : Card)
    (ha : cardAt w.grid a.row a.col = some ca) (hb : cardAt w.grid b.row b.col = some cb) :
    ∃ w2, hidePair a b w = some w2 ∧
      (cardAt w2.grid a.row a.col).map Card.isRevealed = some false ∧
      (cardAt w2.grid b.row b.col).map Card.isRevealed = some false := by
  obtain ⟨x, hx⟩ := Option.isSome_iff_exists.1
    (show (cardAt (updateCard w.grid a.row a.col Card.hide) b.row b.col).isSome = true by
      rw [cardAt_updateCard_isSome, hb]; rfl)
  refine ⟨{ w with
    grid := (updateCard (updateCard w.grid a.row a.col Card.hide) b.row b.col Card.hide) },
    ?_, ?_, ?_⟩
  · simp only [hidePair, unflipCard, ha, hx]
  · show (cardAt (updateCard (updateCard w.grid a.row a.col Card.hide)
      b.row b.col Card.hide) a.row a.col).map Card.isRevealed = some false
    rw [cardAt_updateCard]
    split
    · rw [hx]; rfl
    · rw [cardAt_updateCard_same, ha]; rfl
  · show (cardAt (updateCard (updateCard w.grid a.row a.col Card.hide)
      b.row b.col Card.hide) b.row b.col).map Card.isRevealed = some false
    rw [cardAt_updateCard_same, hx]; rfl

/-- C3: in every state of a session in which the two picked cards carry different
symbols, `checkMatch` (run with any queue `pending` of other callbacks) negates
`isPlayer1Turn` and leaves both scores, `matchedPairs`, the move stack and the grid, hence
every `isMatched` flag, as they were; it schedules the hide of the two picked cards, and
whenever that callback runs on a grid that still has the two cards, both are face down
afterwards. -/
theorem checkMatch_mismatch_effect (s : GameState) (hr : Reachable s)
    (pending : List Callback) (card1 card2 : Pos) (rest : List Pos) (c1 c2 : Card)
    (hf : s.flippedCards = card1 :: card2 :: rest)
    (h1 : cardAt s.grid card1.row card1.col = some c1)
    (h2 : cardAt s.grid card2.row card2.col = some c2)
    (hsym : c1.symbol ≠ c2.symbol) :
    ∃ t, checkMatch { s with timers := pending } = some t ∧
      t.isPlayer1Turn = (!s.isPlayer1Turn) ∧
      t.player1Score = s.player1Score ∧
      t.player2Score = s.player2Score ∧
      t.matchedPairs = s.matchedPairs ∧
      t.moveStack = s.moveStack ∧
      t.grid = s.grid ∧
      Callback.hide card1 card2 ∈ t.timers ∧
      ∀ w : GameState, (cardAt w.grid card1.row card1.col).isSome = true →
        (cardAt w.grid card2.row card2.col).isSome = true →
        ∃ w2, hidePair card1 card2 w = some w2 ∧
          (cardAt w2.grid card1.row card1.col).map Card.isRevealed = some false ∧
          (cardAt w2.grid card2.row card2.col).map Card.isRevealed = some false := by
  have hinv := invariant_reachable s hr
  have hb := hinv.board
  have hup : faceUp s = card1 :: card2 :: (rest ++ s.timers.flatMap Callback.cards) := by
    simp [faceUp, hf]
  rw [hup] at hb
  obtain ⟨x1, hx1, _, hm1⟩ := hb.up_cards card1 (List.mem_cons_self _ _)
  obtain ⟨x2, hx2, _, hm2⟩ :=
    hb.up_cards card2 (List.mem_cons_of_mem _ (List.mem_cons_self _ _))
  have hne : card1 ≠ card2 := fun e =>
    (List.nodup_cons.1 hb.up_nodup).1 (e ▸ List.mem_cons_self _ _)
  have hopen : checkGameOver s = false := by
    have hle := matchedCount_add_two_le s.grid card1 card2 x1 x2 hx1 hx2 hne hm1 hm2
    have htot := hb.total
    have hcnt := hb.count
    rw [checkGameOver_eq]
    simp only [decide_eq_false_iff_not, not_le]
    omega
  refine ⟨_, checkMatch_eq { s with timers := pending } card1 card2 rest c1 c2 hf h1 h2,
    ?_, ?_, ?_, ?_, ?_, ?_, ?_, ?_⟩
  · rw [if_neg hsym, finishCheckMatch_eq]
    have : checkGameOver (noMatch { s with timers := pending } card1 card2 c1.symbol
        c2.symbol) = false := hopen
    simp only [this]
    rfl
  · rw [if_neg hsym, finishCheckMatch_eq]; rfl
  · rw [if_neg hsym, finishCheckMatch_eq]; rfl
  · rw [if_neg hsym, finishCheckMatch_eq]; rfl
  · rw [if_neg hsym, finishCheckMatch_eq]; rfl
  · rw [if_neg hsym, finishCheckMatch_eq]; rfl
  · rw [if_neg hsym, finishCheckMatch_eq]
    show Callback.hide card1 card2 ∈ (if _ then _ else _)
    split
    · exact List.mem_append_right _ (List.mem_singleton_self _)
    · exact List.mem_append_left _ (List.mem_append_right _ (List.mem_singleton_self _))
  · intro w hw1 hw2
    obtain ⟨ca, hca⟩ := Option.isSome_iff_exists.1 hw1
    obtain ⟨cb, hcb⟩ := Option.isSome_iff_exists.1 hw2
    exact hidePair_spec card1 card2 w ca cb hca hcb

/-- C3 witness: in `mismatchReady` Player 1 holds `🍎` at (0, 0) and `🍌` at (0, 1). -/
theorem checkMatch_mismatch_effect_witness :
    ∃ t, checkMatch { mismatchReady with timers := [] } = some t ∧
      t.isPlayer1Turn = (!mismatchReady.isPlayer1Turn) ∧
      t.player1Score = mismatchReady.player1Score ∧
      t.player2Score = mismatchReady.player2Score ∧
      t.matchedPairs = mismatchReady.matchedPairs ∧
      t.moveStack = mismatchReady.moveStack ∧
      t.grid = mismatchReady.grid ∧
      Callback.hide ⟨0, 0⟩ ⟨0, 1⟩ ∈ t.timers ∧
      ∀ w : GameState, (cardAt w.grid 0 0).isSome = true →
        (cardAt w.grid 0 1).isSome = true →
        ∃ w2, hidePair ⟨0, 0⟩ ⟨0, 1⟩ w = some w2 ∧
          (cardAt w2.grid 0 0).map Card.isRevealed = some false ∧
          (cardAt w2.grid 0 1).map Card.isRevealed = some false :=
  checkMatch_mismatch_effect mismatchReady
    (play_reachable mismatchReadyEvents easyStart mismatchReady
      (Reachable.start GameMode.ai "easy" (fun _ => zeroDraw) initialGameState rfl rfl rfl) (by decide))
    [] ⟨0, 0⟩ ⟨0, 1⟩ []
    ⟨some "🍎", 0, 0, true, false⟩ ⟨some "🍌", 0, 1, true, false⟩
    (by decide) (by decide) (by decide) (by decide)

/-! ## No callback of a session throws -/

theorem makeMove_total (mem : Memory) (g : Grid) (hrect : rectangular g) (fc : Option Pos)
    (u : Draw)
    (hfc : ∀ p, fc = some p → (cardAt g p.row p.col).isSome = true)
    (hmem : ∀ sym ps, memGet mem sym = some ps → ∀ p ∈ ps,
      (cardAt g p.row p.col).isSome = true) :
    ∃ r, makeMove mem g fc u = some r := by
  obtain ⟨r, hr, _⟩ := randomMove_spec g hrect u
  cases fc with
  | none => exact ⟨r, by simp only [makeMove, hr]⟩
  | some anchor =>
    obtain ⟨a, ha⟩ := Option.isSome_iff_exists.1 (hfc anchor rfl)
    cases hm : memGet mem a.symbol with
    | none => exact ⟨r, by simp only [makeMove, ha, hm, hr]⟩
    | some positions =>
      have hfind := findInMemory_eq_find g anchor positions (hmem a.symbol positions hm)
      cases hf : positions.find? (usable g anchor) with
      | none => exact ⟨r, by simp only [makeMove, ha, hm, hfind, hf, hr]⟩
      | some pos => exact ⟨some pos, by simp only [makeMove, ha, hm, hfind, hf]⟩

/-- In a session no pending callback throws when it fires: the step relation `Step`
leaves out no behaviour of the script. -/
theorem callback_does_not_throw (s : GameState) (hr : Reachable s)
    (before after : List Callback) (cb : Callback) (u : Draw)
    (ht : s.timers = before ++ cb :: after) :
    ∃ t, runCallback cb u { s with timers := before ++ after } = some t := by
  have hs := invariant_reachable s hr
  have hb := board_fired s hs before after cb ht
  have hmem : ∀ sym ps, memGet s.memory sym = some ps → ∀ p ∈ ps,
      (cardAt s.grid p.row p.col).isSome = true := by
    intro sym ps hps p hp
    obtain ⟨c, hc, _⟩ := hb.memory_cards sym ps hps p hp
    rw [hc]; rfl
  cases cb with
  | checkMatch =>
    obtain ⟨hc1, _⟩ := phase_control_fired s hs.phase before after _ ht rfl
    have hF : s.flippedCards.length = 2 := by
      rcases hs.phase with ⟨h1, _⟩ | ⟨_, _, h3⟩ | ⟨h1, _⟩ | ⟨_, h1, _⟩ | ⟨_, _, h1, _⟩
      · rw [hc1] at h1; exact List.noConfusion h1
      · exact h3
      · rw [hc1] at h1; simp at h1
      · rw [hc1] at h1; simp at h1
      · rw [hc1] at h1; simp at h1
    obtain ⟨a, b, hf⟩ := List.length_eq_two.1 hF
    have hmemA : a ∈ faceUp s := by simp [faceUp, hf]
    have hmemB : b ∈ faceUp s := by simp [faceUp, hf]
    obtain ⟨ca, hca, _⟩ := hs.board.up_cards a hmemA
    obtain ⟨cb, hcb, _⟩ := hs.board.up_cards b hmemB
    exact ⟨_, checkMatch_eq { s with timers := before ++ after } a b [] ca cb hf hca hcb⟩
  | hide a b =>
    obtain ⟨ca, hca, _⟩ := hb.up_cards a (List.mem_cons_self _ _)
    obtain ⟨cb, hcb, _⟩ := hb.up_cards b (List.mem_cons_of_mem _ (List.mem_cons_self _ _))
    obtain ⟨w2, hw2, _⟩ := hidePair_spec a b { s with timers := before ++ after } ca cb hca hcb
    exact ⟨w2, hw2⟩
  | aiThink =>
    obtain ⟨hc1, _⟩ := phase_control_fired s hs.phase before after _ ht rfl
    have hP : s.isProcessing = false := by
      rcases hs.phase with ⟨h1, _⟩ | ⟨h1, _⟩ | ⟨_, h2, _⟩ | ⟨_, h1, _⟩ | ⟨_, _, h1, _⟩
      · rw [hc1] at h1; exact List.noConfusion h1
      · rw [hc1] at h1; simp at h1
      · exact h2
      · rw [hc1] at h1; simp at h1
      · rw [hc1] at h1; simp at h1
    have hact : ¬ ((!s.isActive) = true) := by rw [hs.active]; decide
    show ∃ t, (if (!s.isActive) = true then _ else aiTurn u _) = some t
    rw [if_neg hact]
    obtain ⟨r, hr2⟩ := makeMove_total s.memory s.grid hb.rect none u
      (fun p hp => Option.noConfusion hp) hmem
    cases r with
    | none =>
      exact ⟨_, aiTurn_eq_null u { s with timers := before ++ after } hs.active hP hr2⟩
    | some c1 =>
      obtain ⟨card, hc, _⟩ := (available_spec s.grid c1).1 (makeMove_some _ _ _ _ _ hr2)
      exact ⟨_, aiTurn_eq_pick u { s with timers := before ++ after } c1 card hs.active hP
        hr2 hc⟩
  | aiSecondPick c1 =>
    obtain ⟨card1, hcard1, _⟩ := hb.up_cards c1 (List.mem_cons_self _ _)
    obtain ⟨r, hr2⟩ := makeMove_total s.memory s.grid hb.rect (some c1) u
      (fun p hp => by rw [← Option.some.inj hp, hcard1]; rfl) hmem
    cases r with
    | none =>
      exact ⟨_, aiSecondPick_eq_null c1 u { s with timers := before ++ after } card1 hr2
        hcard1⟩
    | some c2 =>
      obtain ⟨card, hc, _⟩ := (available_spec s.grid c2).1 (makeMove_some _ _ _ _ _ hr2)
      exact ⟨_, aiSecondPick_eq_pick c1 c2 u { s with timers := before ++ after } card hr2 hc⟩
  | aiResolve c1 c2 =>
    obtain ⟨ca, hca, _⟩ := hb.up_cards c1 (List.mem_cons_self _ _)
    obtain ⟨cb, hcb, _⟩ := hb.up_cards c2 (List.mem_cons_of_mem _ (List.mem_cons_self _ _))
    exact ⟨_, aiResolve_eq { s with timers := before ++ after } c1 c2 ca cb hca hcb⟩
  | showGameOver => exact ⟨_, rfl⟩

/-- In a session the undo button never throws. -/
theorem undoMove_does_not_throw (s : GameState) (hr : Reachable s) :
    ∃ t, undoMove s = some t := by
  have hs := invariant_reachable s hr
  by_cases hrej : s.moveStack = [] ∨ s.isProcessing = true ∨ s.isPlayer1Turn = false
  · exact ⟨s, undoMove_of_guard s hrej⟩
  · simp only [not_or, Bool.not_eq_true, Bool.not_eq_false] at hrej
    obtain ⟨hne, hp, hturn⟩ := hrej
    rcases List.eq_nil_or_concat s.moveStack with h0 | ⟨items, m, hstack⟩
    · exact absurd h0 hne
    rw [List.concat_eq_append] at hstack
    cases hm : m.isPlayer1 with
    | false => exact ⟨_, undoMove_eq_pop s items m hstack hp hturn hm⟩
    | true =>
      have hb := hs.board
      rw [recorded_concat s items m hstack] at hb
      obtain ⟨c1, hc1, _⟩ := hb.rec_cards m.card1
        (List.mem_append_right _ (List.mem_cons_self _ _))
      obtain ⟨c2, hc2, _⟩ := hb.rec_cards m.card2
        (List.mem_append_right _ (List.mem_cons_of_mem _ (List.mem_cons_self _ _)))
      exact ⟨_, undoMove_eq s items m c1 c2 hstack hp hturn hm hc1 hc2⟩

/-- A click throws only when there is no card at the clicked position, and then before
any assignment. -/
theorem handleCardClick_does_not_throw (s : GameState) (row col : Nat)
    (h : (cardAt s.grid row col).isSome = true) :
    ∃ t, handleCardClick row col s = some t := by
  obtain ⟨card, hc⟩ := Option.isSome_iff_exists.1 h
  unfold handleCardClick
  simp only [hc]
  split
  · exact ⟨_, rfl⟩
  · split
    · exact ⟨_, rfl⟩
    · split
      · exact ⟨_, rfl⟩
      · split
        · exact ⟨_, rfl⟩
        · split <;> exact ⟨_, rfl⟩

/-! ## Stack -/

/-- C15: the stack is last-in first-out: after `push(x)`, `top()` returns `x`, `size()` is one
more than before, and `pop()` returns `x` and leaves exactly the items there were before
the push; on an empty stack `pop()` and `top()` return `null` and the stack stays empty. -/
theorem stack_lifo {α : Type} (items : List α) (x : α) :
    Stack.top (Stack.push items x) = some x ∧
    Stack.size (Stack.push items x) = Stack.size items + 1 ∧
    Stack.pop (Stack.push items x) = (some x, items) ∧
    Stack.pop ([] : List α) = (none, []) ∧
    Stack.top ([] : List α) = none := by
  refine ⟨?_, ?_, ?_, rfl, rfl⟩
  · simp [Stack.top, Stack.push]
  · simp [Stack.size, Stack.push]
  · exact stack_pop_concat items x

/-! ## Difficulty catalog -/

/-- C16: the three presets are easy = 3x4, 180 s, 1500 ms; medium = 4x4, 120 s, 1000 ms;
hard = 4x6, 90 s, 800 ms; `startGame` with `'easy'`, `'medium'` or `'hard'` sets `rows`,
`cols` and `aiDelay` to them, whatever the prior state and the draws; for each preset
`rows * cols` is even and `totalPairs` (half of `totalPairs2`) is at least 1. -/
theorem difficulty_catalog (draws : Nat → Draw) (s : GameState) :
    (difficultyTreeEasier = ⟨"Easy", 3, 4, 180, 1500⟩ ∧
      difficultyTree = ⟨"Medium", 4, 4, 120, 1000⟩ ∧
      difficultyTreeHarder = ⟨"Hard", 4, 6, 90, 800⟩) ∧
    ((startGame "easy" draws s).rows = 3 ∧ (startGame "easy" draws s).cols = 4 ∧
      (startGame "easy" draws s).aiDelay = 1500 ∧
      (startGame "easy" draws s).totalPairs2 = 2 * 6) ∧
    ((startGame "medium" draws s).rows = 4 ∧ (startGame "medium" draws s).cols = 4 ∧
      (startGame "medium" draws s).aiDelay = 1000 ∧
      (startGame "medium" draws s).totalPairs2 = 2 * 8) ∧
    ((startGame "hard" draws s).rows = 4 ∧ (startGame "hard" draws s).cols = 6 ∧
      (startGame "hard" draws s).aiDelay = 800 ∧
      (startGame "hard" draws s).totalPairs2 = 2 * 12) ∧
    (∀ level ∈ [difficultyTreeEasier, difficultyTree, difficultyTreeHarder],
      level.rows * level.cols % 2 = 0 ∧ 1 ≤ level.rows * level.cols / 2) := by
  refine ⟨⟨rfl, rfl, rfl⟩, ⟨rfl, rfl, rfl, rfl⟩, ⟨rfl, rfl, rfl, rfl⟩, ⟨rfl, rfl, rfl, rfl⟩, ?_⟩
  decide

/-! ## AIPlayer.rememberCard and AIPlayer.forgetCard -/

theorem any_pos_iff (ps : List Pos) (r c : Nat) :
    ps.any (fun p => p.row == r && p.col == c) = true ↔ (⟨r, c⟩ : Pos) ∈ ps := by
  simp only [List.any_eq_true, Bool.and_eq_true, beq_iff_eq]
  constructor
  · rintro ⟨p, hp, h1, h2⟩
    have : p = ⟨r, c⟩ := by cases p; simp_all
    exact this ▸ hp
  · intro h
    exact ⟨⟨r, c⟩, h, rfl, rfl⟩

theorem rememberCard_of_mem (m : Memory) (s : Symbol) (r c : Nat) (ps : List Pos)
    (hget : memGet m s = some ps) (hp : (⟨r, c⟩ : Pos) ∈ ps) :
    rememberCard m s r c = m := by
  have hany := (any_pos_iff ps r c).2 hp
  simp only [rememberCard, hget, Option.isSome_some, if_true, Option.getD_some, hany,
    Bool.not_true, Bool.false_eq_true, if_false]

theorem rememberCard_get (m : Memory) (s : Symbol) (r c : Nat) :
    memGet (rememberCard m s r c) s =
      some (match memGet m s with
        | none => [⟨r, c⟩]
        | some ps => if (⟨r, c⟩ : Pos) ∈ ps then ps else ps ++ [⟨r, c⟩]) := by
  cases hget : memGet m s with
  | none =>
    simp only [rememberCard, hget, Option.isSome_none, Bool.false_eq_true, if_false,
      memGet_memSet, if_true, Option.getD_some, List.any_nil, Bool.not_false, List.nil_append]
  | some ps =>
    by_cases hp : (⟨r, c⟩ : Pos) ∈ ps
    · rw [rememberCard_of_mem m s r c ps hget hp, hget]
      simp only [hp, if_true]
    · have hany : ps.any (fun p => p.row == r && p.col == c) = false := by
        cases h : ps.any (fun p => p.row == r && p.col == c)
        · rfl
        · exact absurd ((any_pos_iff ps r c).1 h) hp
      simp only [rememberCard, hget, Option.isSome_some, if_true, Option.getD_some, hany,
        Bool.not_false, memGet_memSet, hp, if_false]

/-- C11: `rememberCard` is idempotent: calling it twice with the same symbol and position
gives the same memory as calling it once; calling it when the position is already stored
under the symbol leaves the memory as it is; after a call the position is stored under
the symbol, and exactly once when the list the memory held for that symbol had no repeated
position (as in every memory the class builds, `built_positions_nodup`). -/
theorem rememberCard_idempotent (m : Memory) (s : Symbol) (r c : Nat)
    (hnd : ∀ ps, memGet m s = some ps → ps.Nodup) :
    rememberCard (rememberCard m s r c) s r c = rememberCard m s r c ∧
    (∀ ps, memGet m s = some ps → (⟨r, c⟩ : Pos) ∈ ps → rememberCard m s r c = m) ∧
    ∃ ps, memGet (rememberCard m s r c) s = some ps ∧ ps.count (⟨r, c⟩ : Pos) = 1 := by
  have hget := rememberCard_get m s r c
  have hmem : ∀ ps, memGet (rememberCard m s r c) s = some ps → (⟨r, c⟩ : Pos) ∈ ps := by
    intro ps hps
    rw [hget] at hps
    have := Option.some.inj hps
    subst this
    cases hm : memGet m s with
    | none => simp
    | some ps0 =>
      simp only
      split
      · assumption
      · exact List.mem_append_right _ (List.mem_singleton_self _)
  refine ⟨?_, fun ps hps hp => rememberCard_of_mem m s r c ps hps hp, ?_⟩
  · exact rememberCard_of_mem _ s r c _ hget (hmem _ hget)
  · refine ⟨_, hget, ?_⟩
    have hnd2 : (match memGet m s with
        | none => [(⟨r, c⟩ : Pos)]
        | some ps => if (⟨r, c⟩ : Pos) ∈ ps then ps else ps ++ [(⟨r, c⟩ : Pos)]).Nodup := by
      cases hm : memGet m s with
      | none => simp
      | some ps0 =>
        simp only
        split
        · exact hnd ps0 hm
        · next hp =>
          rw [List.nodup_append]
          refine ⟨hnd ps0 hm, List.nodup_singleton _, ?_⟩
          intro a ha hb
          rw [List.mem_singleton] at hb
          exact hp (hb ▸ ha)
    exact List.count_eq_one_of_mem hnd2 (hmem _ hget)

/-- C11 witness: `🍎` at (0, 0) is already in `sampleMemory`. -/
theorem rememberCard_idempotent_witness :
    rememberCard (rememberCard sampleMemory (some "🍎") 0 0) (some "🍎") 0 0 =
      rememberCard sampleMemory (some "🍎") 0 0 ∧
    (∀ ps, memGet sampleMemory (some "🍎") = some ps → (⟨0, 0⟩ : Pos) ∈ ps →
      rememberCard sampleMemory (some "🍎") 0 0 = sampleMemory) ∧
    ∃ ps, memGet (rememberCard sampleMemory (some "🍎") 0 0) (some "🍎") = some ps ∧
      ps.count (⟨0, 0⟩ : Pos) = 1 :=
  rememberCard_idempotent sampleMemory (some "🍎") 0 0 (by decide)

theorem rememberCard_get_other (m : Memory) (s : Symbol) (r c : Nat) (s' : Symbol)
    (hne : s ≠ s') : memGet (rememberCard m s r c) s' = memGet m s' := by
  unfold rememberCard
  simp only
  split <;> split <;> simp only [memGet_memSet, hne, if_false]

theorem forgetCard_get_self (m : Memory) (s : Symbol) (r c : Nat) (hk : (memKeys m).Nodup) :
    memGet (forgetCard m s r c) s =
      match memGet m s with
      | none => none
      | some ps =>
        if (ps.filter (fun p => p.row != r || p.col != c)).length = 0 then none
        else some (ps.filter (fun p => p.row != r || p.col != c)) := by
  cases hget : memGet m s with
  | none => simp only [forgetCard, hget]
  | some ps =>
    simp only [forgetCard, hget]
    split
    · rw [memGet_memDelete _ _ _ hk]; simp
    · rw [memGet_memSet]; simp

theorem forgetCard_get_other (m : Memory) (s : Symbol) (r c : Nat) (hk : (memKeys m).Nodup)
    (s' : Symbol) (hne : s ≠ s') : memGet (forgetCard m s r c) s' = memGet m s' := by
  unfold forgetCard
  split
  · rfl
  · simp only
    split
    · rw [memGet_memDelete _ _ _ hk]; simp [hne]
    · rw [memGet_memSet]; simp [hne]

theorem filter_pos_eq (ps : List Pos) (r c : Nat) :
    ps.filter (fun p => p.row != r || p.col != c) = ps.filter (fun p => decide (p ≠ ⟨r, c⟩)) := by
  apply List.filter_congr
  intro p _
  cases p with
  | mk pr pc =>
    by_cases h1 : pr = r <;> by_cases h2 : pc = c <;> simp [h1, h2]

/-- Every memory the class builds has distinct keys and, under each key, a list without
repeated positions. -/
theorem built_positions_nodup (m : Memory) (h : Built m) :
    (memKeys m).Nodup ∧ ∀ s ps, memGet m s = some ps → ps.Nodup := by
  induction h with
  | empty => exact ⟨List.nodup_nil, fun s ps hps => Option.noConfusion hps⟩
  | remember m symbol row col _ ih =>
    refine ⟨rememberCard_nodup m symbol row col ih.1, ?_⟩
    intro s ps hps
    by_cases hs : symbol = s
    · subst hs
      rw [rememberCard_get] at hps
      have := Option.some.inj hps
      subst this
      cases hm : memGet m symbol with
      | none => simp
      | some ps0 =>
        simp only
        split
        · exact ih.2 symbol ps0 hm
        · next hp =>
          rw [List.nodup_append]
          refine ⟨ih.2 symbol ps0 hm, List.nodup_singleton _, ?_⟩
          intro a ha hb
          rw [List.mem_singleton] at hb
          exact hp (hb ▸ ha)
    · rw [rememberCard_get_other m symbol row col s hs] at hps
      exact ih.2 s ps hps
  | forget m symbol row col _ ih =>
    refine ⟨forgetCard_nodup m symbol row col ih.1, ?_⟩
    intro s ps hps
    by_cases hs : symbol = s
    · subst hs
      rw [forgetCard_get_self m symbol row col ih.1] at hps
      cases hm : memGet m symbol with
      | none => rw [hm] at hps; exact Option.noConfusion hps
      | some ps0 =>
        rw [hm] at hps
        simp only at hps
        split at hps
        · exact Option.noConfusion hps
        · rw [← Option.some.inj hps]
          exact (ih.2 symbol ps0 hm).filter _
    · rw [forgetCard_get_other m symbol row col ih.1 s hs] at hps
      exact ih.2 s ps hps

/-- C12: for a memory with distinct keys (a `Map`), after `forgetCard(s, r, c)` the
position is no longer stored under `s`; the list under `s` is the old one without that
position, in the old order; the key `s` is absent exactly when no other position was left
under it; the entry of every other symbol is as it was; and forgetting a symbol that has
no entry gives back the memory unchanged. -/
theorem forgetCard_spec (m : Memory) (s : Symbol) (r c : Nat) (hk : (memKeys m).Nodup) :
    (∀ ps, memGet (forgetCard m s r c) s = some ps → (⟨r, c⟩ : Pos) ∉ ps) ∧
    (∀ ps, memGet m s = some ps → ∀ ps', memGet (forgetCard m s r c) s = some ps' →
      ps' = ps.filter (fun p => decide (p ≠ ⟨r, c⟩))) ∧
    (memGet (forgetCard m s r c) s = none ↔
      ∀ ps, memGet m s = some ps → ∀ p ∈ ps, p = ⟨r, c⟩) ∧
    (∀ s', s' ≠ s → memGet (forgetCard m s r c) s' = memGet m s') ∧
    (memGet m s = none → forgetCard m s r c = m) := by
  have hself := forgetCard_get_self m s r c hk
  refine ⟨?_, ?_, ?_, ?_, ?_⟩
  · intro ps hps hp
    cases hm : memGet m s with
    | none => rw [hself, hm] at hps; exact Option.noConfusion hps
    | some ps0 =>
      rw [hself, hm] at hps
      simp only at hps
      split at hps
      · exact Option.noConfusion hps
      · rw [← Option.some.inj hps, filter_pos_eq] at hp
        have := (List.mem_filter.1 hp).2
        simp at this
  · intro ps hm ps' hps
    rw [hself, hm] at hps
    simp only at hps
    split at hps
    · exact Option.noConfusion hps
    · rw [← Option.some.inj hps, filter_pos_eq]
  · rw [hself]
    cases hm : memGet m s with
    | none => simp
    | some ps0 =>
      simp only [filter_pos_eq, List.length_eq_zero, List.filter_eq_nil_iff, Option.some.injEq,
        forall_eq']
      constructor
      · intro h p hp
        split at h
        · next hnil =>
          have := hnil p hp
          simpa using this
        · exact Option.noConfusion h
      · intro h
        rw [if_pos]
        intro p hp
        simp [h p hp]
  · intro s' hne
    exact forgetCard_get_other m s r c hk s' (fun e => hne e.symm)
  · intro hm
    simp only [forgetCard, hm]

/-- C12 witness: forgetting `🍎` at (0, 0) in `sampleMemory` leaves `🍎` at (2, 3) and the
entry of `🍌`. -/
theorem forgetCard_spec_witness :
    (∀ ps, memGet (forgetCard sampleMemory (some "🍎") 0 0) (some "🍎") = some ps →
      (⟨0, 0⟩ : Pos) ∉ ps) ∧
    (∀ ps, memGet sampleMemory (some "🍎") = some ps →
      ∀ ps', memGet (forgetCard sampleMemory (some "🍎") 0 0) (some "🍎") = some ps' →
      ps' = ps.filter (fun p => decide (p ≠ ⟨0, 0⟩))) ∧
    (memGet (forgetCard sampleMemory (some "🍎") 0 0) (some "🍎") = none ↔
      ∀ ps, memGet sampleMemory (some "🍎") = some ps → ∀ p ∈ ps, p = ⟨0, 0⟩) ∧
    (∀ s', s' ≠ some "🍎" →
      memGet (forgetCard sampleMemory (some "🍎") 0 0) s' = memGet sampleMemory s') ∧
    (memGet sampleMemory (some "🍎") = none →
      forgetCard sampleMemory (some "🍎") 0 0 = sampleMemory) :=
  forgetCard_spec sampleMemory (some "🍎") 0 0 (by decide)

/-! ## shuffleArray -/

theorem count_set_add {α : Type} [DecidableEq α] (l : List α) (i : Nat) (a b x : α)
    (h : l[i]? = some x) :
    (l.set i a).count b + (if x = b then 1 else 0) =
      l.count b + (if a = b then 1 else 0) := by
  induction l generalizing i with
  | nil => simp at h
  | cons y ys ih =>
    cases i with
    | zero =>
      simp only [List.getElem?_cons_zero, Option.some.injEq] at h
      subst h
      simp only [List.set_cons_zero, List.count_cons, beq_iff_eq]
      omega
    | succ i =>
      simp only [List.getElem?_cons_succ] at h
      have := ih i h
      simp only [List.set_cons_succ, List.count_cons]
      omega

theorem swap_perm {α : Type} (array : List α) (i j : Nat) : (swap array i j).Perm array := by
  classical
  unfold swap
  cases hi : array[i]? with
  | none => exact List.Perm.refl _
  | some x =>
    cases hj : array[j]? with
    | none => exact List.Perm.refl _
    | some y =>
      simp only
      rw [List.perm_iff_count]
      intro b
      have h1 := count_set_add array i y b x hi
      have hj2 : (array.set i y)[j]? = some y := by
        rw [List.getElem?_set]
        split
        · next e =>
          subst e
          have hlt : i < array.length := by
            by_contra hge
            rw [List.getElem?_eq_none (Nat.le_of_not_lt hge)] at hi
            exact Option.noConfusion hi
          simp [hlt]
        · exact hj
      have h2 := count_set_add (array.set i y) j x b y hj2
      omega

theorem shuffleLoop_perm {α : Type} (draws : Nat → Draw) (i k : Nat) (array : List α) :
    (shuffleLoop draws i k array).Perm array := by
  induction i generalizing k array with
  | zero => exact List.Perm.refl _
  | succ i ih => exact (ih (k + 1) _).trans (swap_perm array _ _)

theorem shuffleLoop_eq_foldl {α : Type} (draws : Nat → Draw) (i k : Nat) (array : List α) :
    shuffleLoop draws i k array =
      (shuffleIndices draws i k).foldl (fun a p => swap a p.1 p.2) array := by
  induction i generalizing k array with
  | zero => rfl
  | succ i ih => simp only [shuffleLoop, shuffleIndices, List.foldl_cons, ih]

theorem shuffleIndices_bounds (draws : Nat → Draw) (i k : Nat) :
    ∀ p ∈ shuffleIndices draws i k, 1 ≤ p.1 ∧ p.1 ≤ i ∧ p.2 ≤ p.1 := by
  induction i generalizing k with
  | zero => intro p hp; simp [shuffleIndices] at hp
  | succ i ih =>
    intro p hp
    simp only [shuffleIndices, List.mem_cons] at hp
    rcases hp with rfl | hp
    · have := draw_index_lt (draws k) (i + 2) (Nat.succ_pos _)
      exact ⟨Nat.succ_pos _, Nat.le_refl _, by simp only; omega⟩
    · obtain ⟨h1, h2, h3⟩ := ih (k + 1) p hp
      exact ⟨h1, Nat.le_succ_of_le h2, h3⟩

/-- C14: for every array and every sequence of draws, `shuffleArray` (a total function)
returns a permutation of its input, of the same length; it is the succession of the swaps
of `shuffleIndices`, and every pair `(i, j)` it swaps has `1 ≤ i < length` and
`0 ≤ j ≤ i`. -/
theorem shuffleArray_perm {α : Type} (draws : Nat → Draw) (array : List α) :
    (shuffleArray draws array).Perm array ∧
    (shuffleArray draws array).length = array.length ∧
    shuffleArray draws array =
      (shuffleIndices draws (array.length - 1) 0).foldl (fun a p => swap a p.1 p.2) array ∧
    ∀ p ∈ shuffleIndices draws (array.length - 1) 0,
      1 ≤ p.1 ∧ p.1 < array.length ∧ p.2 ≤ p.1 := by
  refine ⟨shuffleLoop_perm draws _ 0 array, (shuffleLoop_perm draws _ 0 array).length_eq,
    shuffleLoop_eq_foldl draws _ 0 array, ?_⟩
  intro p hp
  obtain ⟨h1, h2, h3⟩ := shuffleIndices_bounds draws _ 0 p hp
  exact ⟨h1, by omega, h3⟩

/-! ## initializeGame -/

theorem initializeGame_grid_eq (draws : Nat → Draw) (s : GameState) :
    (initializeGame draws s).grid =
      (List.range s.rows).map (fun i =>
        (List.range s.cols).map (fun j =>
          (⟨((shuffleArray draws ((List.range ((s.rows * s.cols + 1) / 2)).flatMap
              (fun i => [symbols[i]?, symbols[i]?])))[i * s.cols + j]?).getD none,
            i, j, false, false⟩ : Card))) := rfl

theorem pool_nodup : ∀ n, n ≤ 16 → ((List.range n).map (fun i => symbols[i]?)).Nodup := by
  decide

theorem flatMap_range_mul {β : Type} (f : Nat → β) (rows cols : Nat) :
    (List.range rows).flatMap (fun i => (List.range cols).map (fun j => f (i * cols + j))) =
      (List.range (rows * cols)).map f := by
  induction rows with
  | zero => simp
  | succ r ih =>
    rw [List.range_succ, List.flatMap_append, ih, Nat.succ_mul, List.range_add,
      List.map_append, List.map_map]
    simp [Function.comp]

theorem map_getD_range {β : Type} (l : List β) (d : β) :
    (List.range l.length).map (fun k => (l[k]?).getD d) = l := by
  apply List.ext_getElem?
  intro i
  by_cases hi : i < l.length
  · simp [List.getElem?_map, List.getElem?_range hi, List.getElem?_eq_getElem hi]
  · have hle := Nat.le_of_not_lt hi
    rw [List.getElem?_eq_none (by simpa using hle), List.getElem?_eq_none hle]

theorem count_flatMap_pair {β γ : Type} [DecidableEq γ] (g : β → γ) (l : List β) (x : γ) :
    (l.flatMap (fun i => [g i, g i])).count x = 2 * (l.map g).count x := by
  induction l with
  | nil => rfl
  | cons a l ih =>
    simp only [List.flatMap_cons, List.count_append, ih, List.map_cons, List.count_cons,
      List.count_nil, beq_iff_eq]
    split <;> omega

theorem length_flatMap_pair {β γ : Type} (g : β → γ) (l : List β) :
    (l.flatMap (fun i => [g i, g i])).length = 2 * l.length := by
  induction l with
  | nil => rfl
  | cons a l ih =>
    simp only [List.flatMap_cons, List.length_append, ih, List.length_cons, List.length_nil]
    omega

theorem shuffleArray_perm_aux {α : Type} (draws : Nat → Draw) (array : List α) :
    (shuffleArray draws array).Perm array := shuffleLoop_perm draws _ 0 array

theorem initializeGame_symbols (draws : Nat → Draw) (s : GameState) (n : Nat)
    (heven : s.rows * s.cols = 2 * n) :
    ((initializeGame draws s).grid.flatten).map Card.symbol =
      shuffleArray draws ((List.range n).flatMap (fun i => [symbols[i]?, symbols[i]?])) := by
  have hn : (s.rows * s.cols + 1) / 2 = n := by omega
  rw [initializeGame_grid_eq, hn]
  have hlen : (shuffleArray draws ((List.range n).flatMap
      (fun i => [symbols[i]?, symbols[i]?]))).length = s.rows * s.cols := by
    rw [(shuffleArray_perm_aux draws _).length_eq, length_flatMap_pair, List.length_range, heven]
  rw [List.flatten_eq_flatMap, List.flatMap_map, List.map_flatMap]
  simp only [id, List.map_map]
  refine (flatMap_range_mul (fun k => ((shuffleArray draws ((List.range n).flatMap
      (fun i => [symbols[i]?, symbols[i]?])))[k]?).getD none) s.rows s.cols).trans ?_
  rw [← hlen]
  exact map_getD_range _ _

/-- C13: for every grid size whose product `rows * cols` is even and needs no more pairs
than the pool has symbols (each of the three presets does), and for every sequence of
draws, after `initializeGame` the grid has `rows` rows of `cols` cards, hence `rows * cols`
cards; the card at `(row, col)` records that position and is face down and unmatched;
each of the first `rows * cols / 2` symbols of the pool is on exactly two cards, and no
card carries another symbol. -/
theorem initializeGame_grid (draws : Nat → Draw) (s : GameState) (n : Nat)
    (heven : s.rows * s.cols = 2 * n) (hpool : n ≤ symbols.length) :
    (initializeGame draws s).grid.length = s.rows ∧
    (∀ cards ∈ (initializeGame draws s).grid, cards.length = s.cols) ∧
    cardCount (initializeGame draws s).grid = s.rows * s.cols ∧
    (∀ i j, i < s.rows → j < s.cols →
      ∃ c, cardAt (initializeGame draws s).grid i j = some c ∧ c.row = i ∧ c.col = j ∧
        c.isRevealed = false ∧ c.isMatched = false) ∧
    (∀ k, k < n →
      (initializeGame draws s).grid.flatten.countP
        (fun c => decide (c.symbol = symbols[k]?)) = 2) ∧
    (∀ c ∈ (initializeGame draws s).grid.flatten, ∃ k, k < n ∧ c.symbol = symbols[k]?) := by
  have hsym := initializeGame_symbols draws s n heven
  have hperm := shuffleArray_perm_aux draws
    ((List.range n).flatMap (fun i => [symbols[i]?, symbols[i]?]))
  refine ⟨?_, ?_, ?_, ?_, ?_, ?_⟩
  · rw [initializeGame_grid_eq, List.length_map, List.length_range]
  · intro cards hc
    rw [initializeGame_grid_eq] at hc
    obtain ⟨i, _, rfl⟩ := List.mem_map.1 hc
    rw [List.length_map, List.length_range]
  · rw [initializeGame_grid_eq, cardCount_build, List.length_range, List.length_range]
  · intro i j hi hj
    rw [initializeGame_grid_eq]
    refine ⟨(⟨((shuffleArray draws ((List.range ((s.rows * s.cols + 1) / 2)).flatMap
      (fun i => [symbols[i]?, symbols[i]?])))[i * s.cols + j]?).getD none, i, j, false, false⟩ :
      Card), ?_, rfl, rfl, rfl, rfl⟩
    simp only [cardAt, List.getElem?_map, List.getElem?_range hi, List.getElem?_range hj,
      Option.map_some', Option.bind_some, Option.some_bind]
  · intro k hk
    have h1 : (initializeGame draws s).grid.flatten.countP
        (fun c => decide (c.symbol = symbols[k]?)) =
        ((initializeGame draws s).grid.flatten.map Card.symbol).countP
          (fun y => decide (y = symbols[k]?)) := by
      rw [List.countP_map]; rfl
    rw [h1, hsym, hperm.countP_eq]
    change @List.count Symbol instBEqOfDecidableEq symbols[k]? _ = 2
    rw [count_flatMap_pair]
    have hnd := pool_nodup n hpool
    have hmem : symbols[k]? ∈ (List.range n).map (fun i => symbols[i]?) :=
      List.mem_map.2 ⟨k, List.mem_range.2 hk, rfl⟩
    rw [List.count_eq_one_of_mem hnd hmem]
  · intro c hc
    have hc2 : c.symbol ∈ ((initializeGame draws s).grid.flatten).map Card.symbol :=
      List.mem_map.2 ⟨c, hc, rfl⟩
    rw [hsym] at hc2
    have hc3 := hperm.subset hc2
    obtain ⟨i, hi, hx⟩ := List.mem_flatMap.1 hc3
    refine ⟨i, List.mem_range.1 hi, ?_⟩
    simp only [List.mem_cons, List.mem_singleton, or_self, List.not_mem_nil, or_false] at hx
    exact hx

/-- C13 witness: the easy preset, 3 x 4, with every `Math.random()` equal to 0. -/
theorem initializeGame_grid_witness :
    (initializeGame (fun _ => zeroDraw) easyStart).grid.length = 3 ∧
    (∀ cards ∈ (initializeGame (fun _ => zeroDraw) easyStart).grid, cards.length = 4) ∧
    cardCount (initializeGame (fun _ => zeroDraw) easyStart).grid = 3 * 4 ∧
    (∀ i j, i < 3 → j < 4 →
      ∃ c, cardAt (initializeGame (fun _ => zeroDraw) easyStart).grid i j = some c ∧
        c.row = i ∧ c.col = j ∧ c.isRevealed = false ∧ c.isMatched = false) ∧
    (∀ k, k < 6 →
      (initializeGame (fun _ => zeroDraw) easyStart).grid.flatten.countP
        (fun c => decide (c.symbol = symbols[k]?)) = 2) ∧
    (∀ c ∈ (initializeGame (fun _ => zeroDraw) easyStart).grid.flatten,
      ∃ k, k < 6 ∧ c.symbol = symbols[k]?) :=
  initializeGame_grid (fun _ => zeroDraw) easyStart 6 rfl (by decide)

/-! ## End of the game -/

theorem matchedCount_eq_cardCount_iff (g : Grid) :
    matchedCount g = cardCount g ↔ ∀ c ∈ g.flatten, c.isMatched = true := by
  induction g with
  | nil => simp [matchedCount, cardCount]
  | cons y ys ih =>
    have h1 := List.countP_le_length (fun c : Card => c.isMatched) (l := y)
    have h2 := matchedCount_le_cardCount ys
    have h3 : matchedCount (y :: ys) = y.countP (fun c => c.isMatched) + matchedCount ys := by
      simp [matchedCount]
    have h4 : cardCount (y :: ys) = y.length + cardCount ys := by
      simp [cardCount]
    rw [h3, h4, List.flatten_cons]
    constructor
    · intro h c hc
      have h5 : y.countP (fun c => c.isMatched) = y.length := by omega
      have h6 : matchedCount ys = cardCount ys := by omega
      rcases List.mem_append.1 hc with hc | hc
      · exact List.countP_eq_length.1 h5 c hc
      · exact ih.1 h6 c hc
    · intro h
      have h5 : y.countP (fun c => c.isMatched) = y.length :=
        List.countP_eq_length.2 (fun c hc => h c (List.mem_append.2 (Or.inl hc)))
      have h6 : matchedCount ys = cardCount ys :=
        ih.2 (fun c hc => h c (List.mem_append.2 (Or.inr hc)))
      omega

/-- In every state of a session started on a state with no pending pick, resolution or
callback, `matchedPairs` is half the number of cards whose
`isMatched` flag is set; `checkGameOver()` is true exactly when `matchedPairs` equals
`totalPairs`, and that holds exactly when every card of the grid is matched. -/
theorem checkGameOver_iff_all_matched (s : GameState) (h : Reachable s) :
    2 * s.matchedPairs = (matchedCount s.grid : Int) ∧
    (checkGameOver s = true ↔ 2 * s.matchedPairs = (s.totalPairs2 : Int)) ∧
    (2 * s.matchedPairs = (s.totalPairs2 : Int) ↔
      ∀ c ∈ s.grid.flatten, c.isMatched = true) := by
  have hb := (invariant_reachable s h).board
  have hle := matchedCount_le_cardCount s.grid
  have hcount := hb.count
  have htotal := hb.total
  refine ⟨hcount, ?_, ?_⟩
  · rw [checkGameOver_eq, decide_eq_true_iff]
    constructor
    · intro hge
      omega
    · intro heq
      omega
  · rw [← matchedCount_eq_cardCount_iff]
    constructor
    · intro heq
      omega
    · intro heq
      omega

/-- Instance of `checkGameOver_iff_all_matched`: `wholeGame`, where all six pairs were found, so that `checkGameOver()` is
true. -/
theorem checkGameOver_iff_all_matched_witness :
    (checkGameOver wholeGame = true ∧ wholeGame.matchedPairs = 6) ∧
    2 * wholeGame.matchedPairs = (matchedCount wholeGame.grid : Int) ∧
    (checkGameOver wholeGame = true ↔ 2 * wholeGame.matchedPairs = (wholeGame.totalPairs2 : Int)) ∧
    (2 * wholeGame.matchedPairs = (wholeGame.totalPairs2 : Int) ↔
      ∀ c ∈ wholeGame.grid.flatten, c.isMatched = true) :=
  ⟨by decide, checkGameOver_iff_all_matched wholeGame
    (play_reachable wholeGameEvents easyStartMulti wholeGame
      (Reachable.start GameMode.multiplayer "easy" (fun _ => zeroDraw) initialGameState
        rfl rfl rfl) (by decide))⟩

/-! ## A pool that is too small (C17) -/

theorem pool_map_range (m : Nat) :
    (List.range (16 + m)).map (fun i => symbols[i]?) =
      symbols.map some ++ List.replicate m none := by
  induction m with
  | zero => rfl
  | succ m ih =>
    rw [← Nat.add_assoc, List.range_succ, List.map_append, ih, List.replicate_succ',
      List.append_assoc, List.map_cons, List.map_nil,
      List.getElem?_eq_none (Nat.le_add_right 16 m : symbols.length ≤ 16 + m)]

theorem pool_countP_none :
    (symbols.map some).countP (fun y => decide (y = none)) = 0 := by decide

theorem pool_countP_symbol : ∀ k, k < 16 →
    (symbols.map some).countP (fun y => decide (y = symbols[k]?)) = 1 ∧
      symbols[k]? ≠ none := by decide

theorem initializeGame_countP (draws : Nat → Draw) (s : GameState) (n : Nat)
    (heven : s.rows * s.cols = 2 * n) (x : Symbol) :
    (initializeGame draws s).grid.flatten.countP (fun c => decide (c.symbol = x)) =
      2 * ((List.range n).map (fun i => symbols[i]?)).countP (fun y => decide (y = x)) := by
  have h1 : (initializeGame draws s).grid.flatten.countP (fun c => decide (c.symbol = x)) =
      ((initializeGame draws s).grid.flatten.map Card.symbol).countP
        (fun y => decide (y = x)) := by
    rw [List.countP_map]; rfl
  rw [h1, initializeGame_symbols draws s n heven,
    (shuffleArray_perm_aux draws _).countP_eq]
  exact count_flatMap_pair (fun i => symbols[i]?) (List.range n) x

theorem presets_fit_pool :
    ∀ level ∈ [difficultyTreeEasier, difficultyTree, difficultyTreeHarder],
      level.rows * level.cols ≤ 2 * 12 ∧ 12 < symbols.length := by decide

set_option maxRecDepth 100000 in
/-- C17 (counterexample): on a 6 x 6 grid, which asks for 18 pairs from a pool of 16
symbols, `initializeGame` builds the grid all the same: six rows of six cards, four of
them with the symbol `undefined`. -/
theorem initializeGame_oversized_counterexample :
    symbols.length < oversized.rows * oversized.cols / 2 ∧
    (initializeGame (fun _ => zeroDraw) oversized).grid.length = 6 ∧
    cardCount (initializeGame (fun _ => zeroDraw) oversized).grid = 36 ∧
    (initializeGame (fun _ => zeroDraw) oversized).grid.flatten.countP
      (fun c => decide (c.symbol = none)) = 4 := by
  decide

theorem map_getD_range_take {β : Type} (l : List β) (d : β) (k : Nat) (hk : k ≤ l.length) :
    (List.range k).map (fun i => (l[i]?).getD d) = l.take k := by
  apply List.ext_getElem?
  intro i
  by_cases hi : i < k
  · have hil : i < l.length := Nat.lt_of_lt_of_le hi hk
    simp [List.getElem?_map, List.getElem?_range hi, List.getElem?_take_of_lt hi,
      List.getElem?_eq_getElem hil]
  · have hle := Nat.le_of_not_lt hi
    rw [List.getElem?_eq_none (by simpa using hle),
      List.getElem?_eq_none (by rw [List.length_take]; omega)]

theorem countP_take_bounds {β : Type} (p : β → Bool) (l : List β) (k : Nat) :
    (l.take k).countP p ≤ l.countP p ∧
      l.countP p ≤ (l.take k).countP p + (l.length - k) := by
  have h1 : l.countP p = (l.take k).countP p + (l.drop k).countP p := by
    rw [← List.countP_append, List.take_append_drop]
  have h2 := List.countP_le_length p (l := l.drop k)
  rw [List.length_drop] at h2
  omega

theorem initializeGame_symbols_take (draws : Nat → Draw) (s : GameState) :
    ((initializeGame draws s).grid.flatten).map Card.symbol =
      (shuffleArray draws ((List.range ((s.rows * s.cols + 1) / 2)).flatMap
        (fun i => [symbols[i]?, symbols[i]?]))).take (s.rows * s.cols) := by
  rw [initializeGame_grid_eq]
  have hlen : s.rows * s.cols ≤ (shuffleArray draws
      ((List.range ((s.rows * s.cols + 1) / 2)).flatMap
        (fun i => [symbols[i]?, symbols[i]?]))).length := by
    rw [(shuffleArray_perm_aux draws _).length_eq, length_flatMap_pair, List.length_range]
    omega
  rw [List.flatten_eq_flatMap, List.flatMap_map, List.map_flatMap]
  simp only [id, List.map_map]
  refine (flatMap_range_mul (fun k => ((shuffleArray draws
    ((List.range ((s.rows * s.cols + 1) / 2)).flatMap
      (fun i => [symbols[i]?, symbols[i]?])))[k]?).getD none) s.rows s.cols).trans ?_
  exact map_getD_range_take _ _ _ hlen

theorem initializeGame_countP_bounds (draws : Nat → Draw) (s : GameState) (x : Symbol) :
    (initializeGame draws s).grid.flatten.countP (fun c => decide (c.symbol = x)) ≤
      2 * ((List.range ((s.rows * s.cols + 1) / 2)).map
        (fun i => symbols[i]?)).countP (fun y => decide (y = x)) ∧
    2 * ((List.range ((s.rows * s.cols + 1) / 2)).map
        (fun i => symbols[i]?)).countP (fun y => decide (y = x)) ≤
      (initializeGame draws s).grid.flatten.countP (fun c => decide (c.symbol = x)) +
        s.rows * s.cols % 2 := by
  have h1 : (initializeGame draws s).grid.flatten.countP (fun c => decide (c.symbol = x)) =
      ((initializeGame draws s).grid.flatten.map Card.symbol).countP
        (fun y => decide (y = x)) := by
    rw [List.countP_map]; rfl
  have hb := countP_take_bounds (fun y : Symbol => decide (y = x))
    (shuffleArray draws ((List.range ((s.rows * s.cols + 1) / 2)).flatMap
      (fun i => [symbols[i]?, symbols[i]?]))) (s.rows * s.cols)
  have hlen : (shuffleArray draws ((List.range ((s.rows * s.cols + 1) / 2)).flatMap
      (fun i => [symbols[i]?, symbols[i]?]))).length = 2 * ((s.rows * s.cols + 1) / 2) := by
    rw [(shuffleArray_perm_aux draws _).length_eq, length_flatMap_pair, List.length_range]
  have hc : (shuffleArray draws ((List.range ((s.rows * s.cols + 1) / 2)).flatMap
      (fun i => [symbols[i]?, symbols[i]?]))).countP (fun y => decide (y = x)) =
      2 * ((List.range ((s.rows * s.cols + 1) / 2)).map
        (fun i => symbols[i]?)).countP (fun y => decide (y = x)) := by
    rw [(shuffleArray_perm_aux draws _).countP_eq]
    exact count_flatMap_pair (fun i => symbols[i]?) (List.range _) x
  rw [h1, initializeGame_symbols_take, ← hc]
  rw [hlen] at hb
  refine ⟨hb.1, ?_⟩
  have := hb.2
  omega

/-- C17 (amended): `initializeGame` has no failure path. For every grid size that asks for
more pairs than the pool has symbols (`rows * cols / 2 > 16`) and for all draws, it builds
`rows` rows of `cols` cards, each card at its own position, face down and unmatched. The
symbols on the cards are the first `rows * cols` entries of the shuffled list of
`ceil(rows * cols / 2)` pairs, in which the pairs after the 16th carry the symbol
`undefined`. So every symbol of the pool is on at most two cards and `undefined` is on at
least `rows * cols - 32` cards; when `rows * cols` is even these are exactly two cards and
exactly `rows * cols - 32` cards, and when it is odd one entry of the shuffled list is left
out, so that either one symbol of the pool is on one card only and `undefined` is on
`rows * cols - 31` cards, or the counts are two and `rows * cols - 32`. -/
theorem initializeGame_pool_too_small (draws : Nat → Draw) (s : GameState)
    (hbig : 2 * symbols.length < s.rows * s.cols) :
    (initializeGame draws s).grid.length = s.rows ∧
    (∀ cards ∈ (initializeGame draws s).grid, cards.length = s.cols) ∧
    cardCount (initializeGame draws s).grid = s.rows * s.cols ∧
    (∀ i j, i < s.rows → j < s.cols →
      ∃ c, cardAt (initializeGame draws s).grid i j = some c ∧ c.row = i ∧ c.col = j ∧
        c.isRevealed = false ∧ c.isMatched = false) ∧
    ((initializeGame draws s).grid.flatten).map Card.symbol =
      (shuffleArray draws ((List.range ((s.rows * s.cols + 1) / 2)).flatMap
        (fun i => [symbols[i]?, symbols[i]?]))).take (s.rows * s.cols) ∧
    (∀ k, k < symbols.length →
      2 - s.rows * s.cols % 2 ≤ (initializeGame draws s).grid.flatten.countP
        (fun c => decide (c.symbol = symbols[k]?)) ∧
      (initializeGame draws s).grid.flatten.countP
        (fun c => decide (c.symbol = symbols[k]?)) ≤ 2) ∧
    s.rows * s.cols - 2 * symbols.length ≤
      (initializeGame draws s).grid.flatten.countP (fun c => decide (c.symbol = none)) ∧
    (initializeGame draws s).grid.flatten.countP (fun c => decide (c.symbol = none)) ≤
      s.rows * s.cols - 2 * symbols.length + s.rows * s.cols % 2 := by
  have hlen : symbols.length = 16 := rfl
  rw [hlen] at hbig
  obtain ⟨m, hm⟩ : ∃ m, (s.rows * s.cols + 1) / 2 = 16 + m :=
    ⟨(s.rows * s.cols + 1) / 2 - 16, by omega⟩
  refine ⟨?_, ?_, ?_, ?_, initializeGame_symbols_take draws s, ?_, ?_, ?_⟩
  · rw [initializeGame_grid_eq, List.length_map, List.length_range]
  · intro cards hc
    rw [initializeGame_grid_eq] at hc
    obtain ⟨i, _, rfl⟩ := List.mem_map.1 hc
    rw [List.length_map, List.length_range]
  · rw [initializeGame_grid_eq, cardCount_build, List.length_range, List.length_range]
  · intro i j hi hj
    rw [initializeGame_grid_eq]
    refine ⟨(⟨((shuffleArray draws ((List.range ((s.rows * s.cols + 1) / 2)).flatMap
      (fun i => [symbols[i]?, symbols[i]?])))[i * s.cols + j]?).getD none, i, j, false, false⟩ :
      Card), ?_, rfl, rfl, rfl, rfl⟩
    simp only [cardAt, List.getElem?_map, List.getElem?_range hi, List.getElem?_range hj,
      Option.map_some', Option.bind_some, Option.some_bind]
  · intro k hk
    rw [hlen] at hk
    obtain ⟨h1, h2⟩ := pool_countP_symbol k hk
    have hb := initializeGame_countP_bounds draws s (symbols[k]?)
    rw [hm, pool_map_range, List.countP_append, h1, List.countP_replicate,
      if_neg (by rw [decide_eq_true_iff]; exact fun h => h2 h.symm)] at hb
    omega
  · have hb := initializeGame_countP_bounds draws s none
    rw [hm, pool_map_range, List.countP_append, pool_countP_none, List.countP_replicate,
      if_pos (by simp)] at hb
    rw [hlen]
    omega
  · have hb := initializeGame_countP_bounds draws s none
    rw [hm, pool_map_range, List.countP_append, pool_countP_none, List.countP_replicate,
      if_pos (by simp)] at hb
    rw [hlen]
    omega

/-- C17 witness: the 3 x 11 grid of `oddOversized`, which asks for 16.5 pairs. -/
theorem initializeGame_pool_too_small_witness :
    (initializeGame (fun _ => zeroDraw) oddOversized).grid.length = oddOversized.rows ∧
    (∀ cards ∈ (initializeGame (fun _ => zeroDraw) oddOversized).grid,
      cards.length = oddOversized.cols) ∧
    cardCount (initializeGame (fun _ => zeroDraw) oddOversized).grid =
      oddOversized.rows * oddOversized.cols ∧
    (∀ i j, i < oddOversized.rows → j < oddOversized.cols →
      ∃ c, cardAt (initializeGame (fun _ => zeroDraw) oddOversized).grid i j = some c ∧
        c.row = i ∧ c.col = j ∧ c.isRevealed = false ∧ c.isMatched = false) ∧
    ((initializeGame (fun _ => zeroDraw) oddOversized).grid.flatten).map Card.symbol =
      (shuffleArray (fun _ => zeroDraw)
        ((List.range ((oddOversized.rows * oddOversized.cols + 1) / 2)).flatMap
          (fun i => [symbols[i]?, symbols[i]?]))).take
        (oddOversized.rows * oddOversized.cols) ∧
    (∀ k, k < symbols.length →
      2 - oddOversized.rows * oddOversized.cols % 2 ≤
        (initializeGame (fun _ => zeroDraw) oddOversized).grid.flatten.countP
          (fun c => decide (c.symbol = symbols[k]?)) ∧
      (initializeGame (fun _ => zeroDraw) oddOversized).grid.flatten.countP
        (fun c => decide (c.symbol = symbols[k]?)) ≤ 2) ∧
    oddOversized.rows * oddOversized.cols - 2 * symbols.length ≤
      (initializeGame (fun _ => zeroDraw) oddOversized).grid.flatten.countP
        (fun c => decide (c.symbol = none)) ∧
    (initializeGame (fun _ => zeroDraw) oddOversized).grid.flatten.countP
      (fun c => decide (c.symbol = none)) ≤
        oddOversized.rows * oddOversized.cols - 2 * symbols.length +
          oddOversized.rows * oddOversized.cols % 2 :=
  initializeGame_pool_too_small (fun _ => zeroDraw) oddOversized (by decide)

/-! ## Restart and exit (C18, C19) -/

/-- C18 (the code at the failing inputs): `startGame` assigns neither `flippedCards` nor
`isProcessing`, for every difficulty, draws and prior state. So after Player 1 picked one
card, left the game with `exitGame` and started an easy game again, the pick `(0, 0)` is
still pending although the card there is face down; and a restart while `checkMatch` is
pending, as `resetGame` does, gives a session with two pending picks and
`isProcessing = true`. The scores, `matchedPairs`, the history, the memory and the turn are
reinitialized. -/
theorem startGame_keeps_pending_picks :
    (∀ (difficulty : String) (draws : Nat → Draw) (s : GameState),
      (startGame difficulty draws s).flippedCards = s.flippedCards ∧
      (startGame difficulty draws s).isProcessing = s.isProcessing ∧
      (startGame difficulty draws s).isActive = true ∧
      (startGame difficulty draws s).isPlayer1Turn = true ∧
      (startGame difficulty draws s).player1Score = 0 ∧
      (startGame difficulty draws s).player2Score = 0 ∧
      (startGame difficulty draws s).matchedPairs = 0 ∧
      (startGame difficulty draws s).moveStack = [] ∧
      (startGame difficulty draws s).memory = []) ∧
    Reachable onePicked ∧
    onePicked.flippedCards = [⟨0, 0⟩] ∧
    (startGame "easy" (fun _ => zeroDraw)
      (selectMode GameMode.ai (exitGame onePicked))).flippedCards = [⟨0, 0⟩] ∧
    (cardAt (startGame "easy" (fun _ => zeroDraw)
      (selectMode GameMode.ai (exitGame onePicked))).grid 0 0).map Card.isRevealed =
        some false ∧
    Reachable matchReady ∧
    (startGame matchReady.difficulty (fun _ => zeroDraw) matchReady).flippedCards =
      [⟨0, 1⟩, ⟨0, 2⟩] ∧
    (startGame matchReady.difficulty (fun _ => zeroDraw) matchReady).isProcessing = true :=
  ⟨fun _ _ _ => ⟨rfl, rfl, rfl, rfl, rfl, rfl, rfl, rfl, rfl⟩,
    play_reachable [Event.click 0 0] easyStart onePicked
      (Reachable.start GameMode.ai "easy" (fun _ => zeroDraw) initialGameState rfl rfl rfl)
      (by decide),
    by decide, by decide, by decide,
    play_reachable matchReadyEvents easyStart matchReady
      (Reachable.start GameMode.ai "easy" (fun _ => zeroDraw) initialGameState rfl rfl rfl)
      (by decide),
    by decide, by decide⟩

/-- C19 (the code at the failing inputs): four sessions of `easyStart` are left with
`exitGame` while a callback is pending, and the callback then fires with
`isActive = false`. The delayed `checkMatch` marks the two `🍌` cards, gives Player 1 a
point, counts a pair, pushes a record and passes the turn; the hide callback turns the two
cards face down; the second-pick callback of `aiTurn` turns a second card face up; the
resolution callback of `aiTurn` marks the two `🍌` cards, gives the computer a point, counts
a pair and passes the turn. Only the think-delay callback of `switchTurn` leaves the state
as it is. -/
theorem stale_callbacks_change_state :
    (Reachable matchReady ∧ Reachable hidePending ∧ Reachable secondPickPending ∧
      Reachable aiMatchReady) ∧
    -- the delayed checkMatch
    (exitGame matchReady).timers = [Callback.checkMatch] ∧
    observed (exitGame matchReady) =
      ⟨false, 0, 0, 0, true, [], [],
        [some (false, false), some (true, false), some (true, false), some (false, false)]⟩ ∧
    (applyEvent (Event.fire 0 zeroDraw) (exitGame matchReady)).map observed =
      some ⟨false, 1, 0, 1, false, [⟨⟨0, 1⟩, ⟨0, 2⟩, true⟩], [],
        [some (false, false), some (true, true), some (true, true), some (false, false)]⟩ ∧
    -- the delayed hide and the think-delay callback
    (exitGame hidePending).timers = [Callback.hide ⟨0, 0⟩ ⟨0, 3⟩, Callback.aiThink] ∧
    observed (exitGame hidePending) =
      ⟨false, 0, 0, 0, true, [], [],
        [some (true, false), some (false, false), some (false, false), some (true, false)]⟩ ∧
    (applyEvent (Event.fire 0 zeroDraw) (exitGame hidePending)).map observed =
      some ⟨false, 0, 0, 0, true, [], [],
        [some (false, false), some (false, false), some (false, false), some (false, false)]⟩ ∧
    applyEvent (Event.fire 1 zeroDraw) (exitGame hidePending) =
      some { exitGame hidePending with timers := [Callback.hide ⟨0, 0⟩ ⟨0, 3⟩] } ∧
    -- the second-pick callback of aiTurn
    (exitGame secondPickPending).timers = [Callback.aiSecondPick ⟨0, 1⟩] ∧
    observed (exitGame secondPickPending) =
      ⟨false, 0, 0, 0, true, [], [],
        [some (false, false), some (true, false), some (false, false), some (false, false)]⟩ ∧
    (applyEvent (Event.fire 0 zeroDraw) (exitGame secondPickPending)).map observed =
      some ⟨false, 0, 0, 0, true, [], [],
        [some (true, false), some (true, false), some (false, false), some (false, false)]⟩ ∧
    -- the resolution callback of aiTurn
    (exitGame aiMatchReady).timers = [Callback.aiResolve ⟨0, 1⟩ ⟨0, 2⟩] ∧
    observed (exitGame aiMatchReady) =
      ⟨false, 0, 0, 0, true, [], [],
        [some (false, false), some (true, false), some (true, false), some (false, false)]⟩ ∧
    (applyEvent (Event.fire 0 zeroDraw) (exitGame aiMatchReady)).map observed =
      some ⟨false, 0, 1, 1, false, [], [],
        [some (false, false), some (true, true), some (true, true), some (false, false)]⟩ := by
  have hstart : Reachable easyStart :=
    Reachable.start GameMode.ai "easy" (fun _ => zeroDraw) initialGameState rfl rfl rfl
  refine ⟨⟨play_reachable matchReadyEvents easyStart matchReady hstart (by decide),
    play_reachable (aiMatchReadyEvents.take 3) easyStart hidePending hstart (by decide),
    play_reachable (aiMatchReadyEvents.take 5) easyStart secondPickPending hstart (by decide),
    play_reachable aiMatchReadyEvents easyStart aiMatchReady hstart (by decide)⟩,
    ?_, ?_, ?_, ?_, ?_, ?_, ?_, ?_, ?_, ?_, ?_, ?_, ?_⟩ <;> decide

/-! ## Scores -/

theorem scores_start (difficulty : String) (draws : Nat → Draw) (s : GameState) :
    Scores (startGame difficulty draws s) :=
  ⟨rfl, rfl, Int.le_refl 0⟩

theorem scores_of_eq (s t : GameState) (hs : Scores s)
    (h1 : t.player1Score = s.player1Score) (h2 : t.player2Score = s.player2Score)
    (h3 : t.matchedPairs = s.matchedPairs) (h4 : t.moveStack = s.moveStack) : Scores t := by
  refine ⟨?_, ?_, ?_⟩
  · rw [h1, h2, h3]; exact hs.sum
  · rw [h1, h4]; exact hs.player1
  · rw [h2]; exact hs.player2

theorem scores_click (row col : Nat) (s t : GameState) (hs : Scores s)
    (h : handleCardClick row col s = some t) : Scores t := by
  rcases handleCardClick_cases row col s t h with rfl | ⟨card, _, _, _, _, _, _, rfl⟩
  · exact hs
  · exact scores_of_eq s _ hs rfl rfl rfl rfl

theorem scores_undo (s t : GameState) (hs : Scores s) (h : undoMove s = some t) :
    Scores t := by
  rcases undoMove_cases s t h with rfl | ⟨items, m, hstack, _, _, h2 | h1⟩
  · exact hs
  · obtain ⟨hm, rfl⟩ := h2
    have hp := hs.player1
    rw [hstack, List.countP_append] at hp
    simp only [List.countP_cons, List.countP_nil, hm, Bool.false_eq_true, if_false,
      Nat.add_zero] at hp
    exact ⟨hs.sum, hp, hs.player2⟩
  · obtain ⟨hm, rfl⟩ := h1
    have hp := hs.player1
    have hsum := hs.sum
    rw [hstack, List.countP_append] at hp
    simp only [List.countP_cons, List.countP_nil, hm, if_true, Nat.zero_add] at hp
    refine ⟨?_, ?_, hs.player2⟩
    · show s.matchedPairs - 1 = s.player1Score - 1 + s.player2Score
      omega
    · show s.player1Score - 1 = ((items.countP (fun m => m.isPlayer1) : Nat) : Int)
      omega

theorem scores_switchTurn (s : GameState) (hs : Scores s) : Scores (switchTurn s) := by
  rw [switchTurn_eq]
  exact scores_of_eq s _ hs rfl rfl rfl rfl

theorem scores_finishCheckMatch (s : GameState) (hs : Scores s) :
    Scores (finishCheckMatch s) := by
  rw [finishCheckMatch_eq]
  exact scores_of_eq s _ hs rfl rfl rfl rfl

theorem scores_finishAiTurn (s : GameState) (hs : Scores s) : Scores (finishAiTurn s) := by
  rw [finishAiTurn_eq]
  exact scores_of_eq s _ hs rfl rfl rfl rfl

theorem matchFound_fields (s : GameState) (c1 c2 : Pos) (x y : Symbol) :
    (matchFound s c1 c2 x y).player1Score =
      (if s.isPlayer1Turn then s.player1Score + 1 else s.player1Score) ∧
    (matchFound s c1 c2 x y).player2Score =
      (if s.isPlayer1Turn then s.player2Score else s.player2Score + 1) ∧
    (matchFound s c1 c2 x y).matchedPairs = s.matchedPairs + 1 ∧
    (matchFound s c1 c2 x y).moveStack = s.moveStack ++ [⟨c1, c2, s.isPlayer1Turn⟩] := by
  rw [matchFound_eq]
  exact ⟨rfl, rfl, rfl, rfl⟩

theorem scores_matchFound (s : GameState) (c1 c2 : Pos) (x y : Symbol) (hs : Scores s) :
    Scores (matchFound s c1 c2 x y) := by
  obtain ⟨e1, e2, e3, e4⟩ := matchFound_fields s c1 c2 x y
  have hsum := hs.sum
  have hp := hs.player1
  have h2 := hs.player2
  refine ⟨?_, ?_, ?_⟩
  · rw [e1, e2, e3]
    split <;> omega
  · rw [e1, e4, List.countP_append]
    cases hturn : s.isPlayer1Turn
    · simp only [Bool.false_eq_true, if_false, List.countP_cons, List.countP_nil,
        Nat.add_zero]
      exact hp
    · simp only [if_true, List.countP_cons, List.countP_nil, Nat.zero_add]
      omega
  · rw [e2]
    split <;> omega

theorem aiMatchFound_fields (s : GameState) (c1 c2 : Pos) (x y : Symbol) :
    (aiMatchFound s c1 c2 x y).player1Score = s.player1Score ∧
    (aiMatchFound s c1 c2 x y).player2Score = s.player2Score + 1 ∧
    (aiMatchFound s c1 c2 x y).matchedPairs = s.matchedPairs + 1 ∧
    (aiMatchFound s c1 c2 x y).moveStack = s.moveStack := by
  rw [aiMatchFound_eq]
  exact ⟨rfl, rfl, rfl, rfl⟩

theorem scores_aiMatchFound (s : GameState) (c1 c2 : Pos) (x y : Symbol) (hs : Scores s) :
    Scores (aiMatchFound s c1 c2 x y) := by
  obtain ⟨e1, e2, e3, e4⟩ := aiMatchFound_fields s c1 c2 x y
  have hsum := hs.sum
  have hp := hs.player1
  have h2 := hs.player2
  refine ⟨?_, ?_, ?_⟩
  · rw [e1, e2, e3]; omega
  · rw [e1, e4]; exact hp
  · rw [e2]; omega

theorem scores_checkMatch (s t : GameState) (hs : Scores s) (h : checkMatch s = some t) :
    Scores t := by
  obtain ⟨card1, card2, rest, c1, c2, _, _, _, rfl⟩ := checkMatch_cases s t h
  apply scores_finishCheckMatch
  split
  · exact scores_matchFound s card1 card2 _ _ hs
  · exact scores_of_eq s _ hs rfl rfl rfl rfl

theorem scores_aiResolve (c1 c2 : Pos) (s t : GameState) (hs : Scores s)
    (h : aiResolve c1 c2 s = some t) : Scores t := by
  obtain ⟨ca, cb, _, _, rfl⟩ := aiResolve_cases c1 c2 s t h
  apply scores_finishAiTurn
  split
  · exact scores_aiMatchFound s c1 c2 _ _ hs
  · exact scores_of_eq s _ hs rfl rfl rfl rfl

theorem scores_hide (a b : Pos) (s t : GameState) (hs : Scores s)
    (h : hidePair a b s = some t) : Scores t := by
  rw [hidePair_cases a b s t h]
  exact scores_of_eq s _ hs rfl rfl rfl rfl

theorem scores_aiTurn (u : Draw) (s t : GameState) (hs : Scores s)
    (h : aiTurn u s = some t) : Scores t := by
  unfold aiTurn at h
  split at h
  · rw [← Option.some.inj h]
    exact scores_of_eq s _ hs rfl rfl rfl rfl
  · split at h
    · rw [← Option.some.inj h]
      exact hs
    · simp only at h
      split at h
      · exact Option.noConfusion h
      · rw [← Option.some.inj h]
        exact scores_switchTurn _ (scores_of_eq s _ hs rfl rfl rfl rfl)
      · split at h
        · exact Option.noConfusion h
        · rw [← Option.some.inj h]
          exact scores_of_eq s _ hs rfl rfl rfl rfl

theorem scores_aiSecondPick (c1 : Pos) (u : Draw) (s t : GameState) (hs : Scores s)
    (h : aiSecondPick c1 u s = some t) : Scores t := by
  unfold aiSecondPick at h
  split at h
  · exact Option.noConfusion h
  · split at h
    · exact Option.noConfusion h
    · rw [← Option.some.inj h]
      exact scores_switchTurn _ (scores_of_eq s _ hs rfl rfl rfl rfl)
  · split at h
    · exact Option.noConfusion h
    · rw [← Option.some.inj h]
      exact scores_of_eq s _ hs rfl rfl rfl rfl

theorem scores_step (s t : GameState) (hs : Scores s) (h : Step s t) : Scores t := by
  cases h with
  | click row col hc => exact scores_click row col s t hs hc
  | undo hu => exact scores_undo s t hs hu
  | fire before after cb u ht hr =>
    have hs2 : Scores { s with timers := before ++ after } :=
      scores_of_eq s _ hs rfl rfl rfl rfl
    cases cb with
    | checkMatch => exact scores_checkMatch _ t hs2 hr
    | hide a b => exact scores_hide a b _ t hs2 hr
    | aiThink =>
      change (if (!s.isActive) = true then _ else aiTurn u _) = some t at hr
      split at hr
      · rw [← Option.some.inj hr]; exact hs2
      · exact scores_aiTurn u _ t hs2 hr
    | aiSecondPick c1 => exact scores_aiSecondPick c1 u _ t hs2 hr
    | aiResolve c1 c2 => exact scores_aiResolve c1 c2 _ t hs2 hr
    | showGameOver =>
      simp only [runCallback, Option.some.injEq] at hr
      rw [← hr]; exact hs2

theorem scores_reachable (s : GameState) (h : Reachable s) : Scores s := by
  induction h with
  | start mode difficulty draws prior _ _ _ => exact scores_start difficulty draws _
  | step s t _ hstep ih => exact scores_step s t ih hstep

/-- In every state of a session started on a state with no pending pick, resolution or
callback, `matchedPairs` is the sum of the two scores, both
scores are at least 0, and `matchedPairs` is at least 0 and at most `totalPairs`; Player 1
has one point for each of its records on the move stack. -/
theorem scores_add_up (s : GameState) (h : Reachable s) :
    s.matchedPairs = s.player1Score + s.player2Score ∧
    0 ≤ s.player1Score ∧ 0 ≤ s.player2Score ∧
    0 ≤ s.matchedPairs ∧ 2 * s.matchedPairs ≤ (s.totalPairs2 : Int) ∧
    s.player1Score = ((s.moveStack.countP (fun m => m.isPlayer1) : Nat) : Int) := by
  have hsc := scores_reachable s h
  have hb := (invariant_reachable s h).board
  have hle := matchedCount_le_cardCount s.grid
  have hcount := hb.count
  have htotal := hb.total
  have hsum := hsc.sum
  have hp := hsc.player1
  have h2 := hsc.player2
  refine ⟨hsum, ?_, h2, ?_, ?_, hp⟩ <;> omega

/-- Instance of `scores_add_up`: `undoReady`, where Player 1 has found one pair and the computer none. -/
theorem scores_add_up_witness :
    undoReady.matchedPairs = undoReady.player1Score + undoReady.player2Score ∧
    0 ≤ undoReady.player1Score ∧ 0 ≤ undoReady.player2Score ∧
    0 ≤ undoReady.matchedPairs ∧ 2 * undoReady.matchedPairs ≤ (undoReady.totalPairs2 : Int) ∧
    undoReady.player1Score =
      ((undoReady.moveStack.countP (fun m => m.isPlayer1) : Nat) : Int) :=
  scores_add_up undoReady
    (play_reachable undoReadyEvents easyStart undoReady
      (Reachable.start GameMode.ai "easy" (fun _ => zeroDraw) initialGameState rfl rfl rfl)
      (by decide))

/-! ## Growth of the move history (C21) -/

theorem finishCheckMatch_fields (s : GameState) :
    (finishCheckMatch s).player1Score = s.player1Score ∧
    (finishCheckMatch s).player2Score = s.player2Score ∧
    (finishCheckMatch s).matchedPairs = s.matchedPairs ∧
    (finishCheckMatch s).moveStack = s.moveStack ∧
    (finishCheckMatch s).memory = s.memory ∧
    (finishCheckMatch s).grid = s.grid := by
  rw [finishCheckMatch_eq]
  exact ⟨rfl, rfl, rfl, rfl, rfl, rfl⟩

theorem finishAiTurn_fields (s : GameState) :
    (finishAiTurn s).player1Score = s.player1Score ∧
    (finishAiTurn s).player2Score = s.player2Score ∧
    (finishAiTurn s).matchedPairs = s.matchedPairs ∧
    (finishAiTurn s).moveStack = s.moveStack ∧
    (finishAiTurn s).memory = s.memory ∧
    (finishAiTurn s).grid = s.grid := by
  rw [finishAiTurn_eq]
  exact ⟨rfl, rfl, rfl, rfl, rfl, rfl⟩

/-- C21 (the code at the failing input): in `aiMatchReady`, a state of a session against the
computer, the computer holds the two `🍌` cards and the resolution callback of `aiTurn` is
pending. When it fires, `matchedPairs` and `player2Score` go from 0 to 1 and the move stack
stays empty: the match pushes no record. -/
theorem aiResolve_pushes_no_record :
    Reachable aiMatchReady ∧
    aiMatchReady.timers = [Callback.aiResolve ⟨0, 1⟩ ⟨0, 2⟩] ∧
    (cardAt aiMatchReady.grid 0 1).map Card.symbol = some (some "🍌") ∧
    (cardAt aiMatchReady.grid 0 2).map Card.symbol = some (some "🍌") ∧
    aiMatchReady.matchedPairs = 0 ∧ aiMatchReady.player2Score = 0 ∧
    Stack.size aiMatchReady.moveStack = 0 ∧
    (applyEvent (Event.fire 0 zeroDraw) aiMatchReady).map
      (fun t => (t.matchedPairs, t.player2Score, Stack.size t.moveStack)) = some (1, 1, 0) :=
  ⟨play_reachable aiMatchReadyEvents easyStart aiMatchReady
      (Reachable.start GameMode.ai "easy" (fun _ => zeroDraw) initialGameState rfl rfl rfl)
      (by decide),
    by decide, by decide, by decide, by decide, by decide, by decide, by decide⟩

/-- Growth of the history in the two resolutions, for every state: a match resolved by
`checkMatch`, the resolution of a pair picked by a human side, pushes exactly one record, which names the two picked cards and the side to
move, so the history grows by exactly 1; a mismatch resolved by `checkMatch` pushes nothing.
The resolution callback of `aiTurn` leaves the history as it is, match or not, although a
match adds 1 to `matchedPairs` and to `player2Score`. -/
theorem history_grows_on_checkMatch_only (s w : GameState) (card1 card2 : Pos)
    (rest : List Pos) (c1 c2 : Card) (a b : Pos) (ca cb : Card)
    (hf : s.flippedCards = card1 :: card2 :: rest)
    (h1 : cardAt s.grid card1.row card1.col = some c1)
    (h2 : cardAt s.grid card2.row card2.col = some c2)
    (ha : cardAt w.grid a.row a.col = some ca)
    (hb : cardAt w.grid b.row b.col = some cb) :
    (∃ t, checkMatch s = some t ∧
      (c1.symbol = c2.symbol →
        t.moveStack = Stack.push s.moveStack ⟨card1, card2, s.isPlayer1Turn⟩ ∧
        Stack.top t.moveStack = some ⟨card1, card2, s.isPlayer1Turn⟩ ∧
        Stack.size t.moveStack = Stack.size s.moveStack + 1) ∧
      (c1.symbol ≠ c2.symbol → t.moveStack = s.moveStack)) ∧
    (∃ t, aiResolve a b w = some t ∧
      t.moveStack = w.moveStack ∧
      (ca.symbol = cb.symbol →
        t.matchedPairs = w.matchedPairs + 1 ∧ t.player2Score = w.player2Score + 1)) := by
  constructor
  · refine ⟨_, checkMatch_eq s card1 card2 rest c1 c2 hf h1 h2, ?_, ?_⟩
    · intro hsym
      rw [if_pos hsym]
      have e := (matchFound_fields s card1 card2 c1.symbol c2.symbol).2.2.2
      have e2 := (finishCheckMatch_fields (matchFound s card1 card2 c1.symbol c2.symbol)).2.2.2.1
      rw [e2, e]
      refine ⟨rfl, ?_, ?_⟩
      · simp [Stack.top]
      · simp [Stack.size]
    · intro hsym
      rw [if_neg hsym, (finishCheckMatch_fields _).2.2.2.1]
      rfl
  · refine ⟨_, aiResolve_eq w a b ca cb ha hb, ?_, ?_⟩
    · rw [(finishAiTurn_fields _).2.2.2.1]
      split
      · exact (aiMatchFound_fields w a b _ _).2.2.2
      · rfl
    · intro hsym
      rw [if_pos hsym, (finishAiTurn_fields _).2.2.1, (finishAiTurn_fields _).2.1]
      exact ⟨(aiMatchFound_fields w a b _ _).2.2.1, (aiMatchFound_fields w a b _ _).2.1⟩

/-- Instance of `history_grows_on_checkMatch_only`: Player 1 holds the two `🍌` cards in
`matchPicked`, the computer holds them in `aiMatchPicked`. -/
theorem history_grows_on_checkMatch_only_witness :
    (∃ t, checkMatch matchPicked = some t ∧
      ((some "🍌" : Symbol) = some "🍌" →
        t.moveStack = Stack.push matchPicked.moveStack ⟨⟨0, 1⟩, ⟨0, 2⟩, matchPicked.isPlayer1Turn⟩ ∧
        Stack.top t.moveStack = some ⟨⟨0, 1⟩, ⟨0, 2⟩, matchPicked.isPlayer1Turn⟩ ∧
        Stack.size t.moveStack = Stack.size matchPicked.moveStack + 1) ∧
      ((some "🍌" : Symbol) ≠ some "🍌" → t.moveStack = matchPicked.moveStack)) ∧
    (∃ t, aiResolve ⟨0, 1⟩ ⟨0, 2⟩ aiMatchPicked = some t ∧
      t.moveStack = aiMatchPicked.moveStack ∧
      ((some "🍌" : Symbol) = some "🍌" →
        t.matchedPairs = aiMatchPicked.matchedPairs + 1 ∧
        t.player2Score = aiMatchPicked.player2Score + 1)) :=
  history_grows_on_checkMatch_only matchPicked aiMatchPicked ⟨0, 1⟩ ⟨0, 2⟩ []
    ⟨some "🍌", 0, 1, true, false⟩ ⟨some "🍌", 0, 2, true, false⟩ ⟨0, 1⟩ ⟨0, 2⟩
    ⟨some "🍌", 0, 1, true, false⟩ ⟨some "🍌", 0, 2, true, false⟩
    (by decide) (by decide) (by decide) (by decide) (by decide)

/-! ## The two picks of a computer turn (C23) -/

/-- C23: in a computer turn that makes two picks, the first pick `c1` is the result of
`makeMove(grid)` and refers to a card of the grid that is neither matched nor revealed;
`aiTurn` reveals it and schedules the second-pick callback anchored on `c1`. When that
callback runs, in any state `w` where the card at `c1` is still face up, its pick `c2` is
the result of `makeMove(grid, c1)`, refers to a card of the grid that is neither matched nor
revealed in `w`, and differs from `c1`; the callback reveals it and schedules the
resolution of the pair `(c1, c2)`. This holds for every memory and all draws. -/
theorem aiTurn_picks_two_available_cards (s w : GameState) (u1 u2 : Draw) (c1 c2 : Pos)
    (ha : s.isActive = true) (hP : s.isProcessing = false)
    (h1 : makeMove s.memory s.grid none u1 = some (some c1))
    (hw : ∃ x, cardAt w.grid c1.row c1.col = some x ∧ x.isRevealed = true)
    (h2 : makeMove w.memory w.grid (some c1) u2 = some (some c2)) :
    (∃ x, cardAt s.grid c1.row c1.col = some x ∧ x.isMatched = false ∧
      x.isRevealed = false) ∧
    aiTurn u1 s = some { s with
      isProcessing := true
      grid := updateCard s.grid c1.row c1.col Card.reveal
      timers := s.timers ++ [Callback.aiSecondPick c1] } ∧
    (∃ y, cardAt w.grid c2.row c2.col = some y ∧ y.isMatched = false ∧
      y.isRevealed = false) ∧
    c1 ≠ c2 ∧
    aiSecondPick c1 u2 w = some { w with
      grid := updateCard w.grid c2.row c2.col Card.reveal
      timers := w.timers ++ [Callback.aiResolve c1 c2] } := by
  obtain ⟨x, hx, hxm, hxr⟩ := (available_spec s.grid c1).1 (makeMove_some _ _ _ _ _ h1)
  obtain ⟨y, hy, hym, hyr⟩ := (available_spec w.grid c2).1 (makeMove_some _ _ _ _ _ h2)
  refine ⟨⟨x, hx, hxm, hxr⟩, aiTurn_eq_pick u1 s c1 x ha hP h1 hx, ⟨y, hy, hym, hyr⟩, ?_,
    aiSecondPick_eq_pick c1 c2 u2 w y h2 hy⟩
  intro heq
  obtain ⟨x2, hx2, hx2r⟩ := hw
  rw [heq, hy] at hx2
  rw [← Option.some.inj hx2, hyr] at hx2r
  exact Bool.noConfusion hx2r

/-- C23 witness: the computer's first turn in `easyStart`. With the draw 1/12 it picks the
`🍌` at (0, 1); with no memory of `🍌` and the draw 1/11 it then picks the `🍌` at
(0, 2). -/
theorem aiTurn_picks_two_available_cards_witness :
    (∃ x, cardAt thinkFired.grid 0 1 = some x ∧ x.isMatched = false ∧
      x.isRevealed = false) ∧
    aiTurn ⟨1, 12, by decide⟩ thinkFired = some { thinkFired with
      isProcessing := true
      grid := updateCard thinkFired.grid 0 1 Card.reveal
      timers := thinkFired.timers ++ [Callback.aiSecondPick ⟨0, 1⟩] } ∧
    (∃ y, cardAt secondPickFired.grid 0 2 = some y ∧ y.isMatched = false ∧
      y.isRevealed = false) ∧
    (⟨0, 1⟩ : Pos) ≠ ⟨0, 2⟩ ∧
    aiSecondPick ⟨0, 1⟩ ⟨1, 11, by decide⟩ secondPickFired = some { secondPickFired with
      grid := updateCard secondPickFired.grid 0 2 Card.reveal
      timers := secondPickFired.timers ++ [Callback.aiResolve ⟨0, 1⟩ ⟨0, 2⟩] } :=
  aiTurn_picks_two_available_cards thinkFired secondPickFired ⟨1, 12, by decide⟩
    ⟨1, 11, by decide⟩ ⟨0, 1⟩ ⟨0, 2⟩ (by decide) (by decide) (by decide)
    ⟨⟨some "🍌", 0, 1, true, false⟩, by decide, rfl⟩ (by decide)

/-! ## Remembered positions carry their symbol (C24) -/

theorem findInMemory_mem (g : Grid) (fc : Pos) (ps : List Pos) (p : Pos)
    (hin : ∀ q ∈ ps, (cardAt g q.row q.col).isSome = true)
    (h : findInMemory g fc ps = some (some p)) : p ∈ ps := by
  rw [findInMemory_eq_find g fc ps hin] at h
  exact List.mem_of_find?_eq_some (Option.some.inj h)

/-- C24: in every state of a session, every position stored in the memory under a symbol
refers to a card of the grid that carries that symbol. Hence, when the memory loop of
`makeMove(grid, anchor)` returns a position, `makeMove` returns it whatever the draw, it
differs from the anchor, and the card there carries the anchor's symbol; and once that card
is revealed, the resolution callback of `aiTurn` on the pair takes the match branch: it adds
1 to `matchedPairs` and to `player2Score`. -/
theorem memory_pick_matches_anchor (s : GameState) (h : Reachable s) :
    (∀ sym ps, (sym, ps) ∈ s.memory → ∀ p ∈ ps,
      ∃ c, cardAt s.grid p.row p.col = some c ∧ c.symbol = sym) ∧
    (∀ (anchor pos : Pos) (a : Card) (positions : List Pos),
      cardAt s.grid anchor.row anchor.col = some a →
      memGet s.memory a.symbol = some positions →
      findInMemory s.grid anchor positions = some (some pos) →
      (∀ u, makeMove s.memory s.grid (some anchor) u = some (some pos)) ∧
      pos ∈ positions ∧ pos ≠ anchor ∧
      (∃ c, cardAt s.grid pos.row pos.col = some c ∧ c.symbol = a.symbol) ∧
      ∀ w : GameState, w.grid = updateCard s.grid pos.row pos.col Card.reveal →
        ∃ t, aiResolve anchor pos w = some t ∧
          t.matchedPairs = w.matchedPairs + 1 ∧ t.player2Score = w.player2Score + 1) := by
  have hb := (invariant_reachable s h).board
  constructor
  · intro sym ps hmem p hp
    obtain ⟨c, hc, hsym, _⟩ := hb.memory_cards sym ps
      (memGet_of_mem s.memory sym ps hb.memory_keys hmem) p hp
    exact ⟨c, hc, hsym⟩
  · intro anchor pos a positions ha hget hfind
    have hin : ∀ q ∈ positions, (cardAt s.grid q.row q.col).isSome = true := by
      intro q hq
      obtain ⟨c, hc, _⟩ := hb.memory_cards a.symbol positions hget q hq
      rw [hc]; rfl
    have hmem := findInMemory_mem s.grid anchor positions pos hin hfind
    obtain ⟨c, hc, hsym, _⟩ := hb.memory_cards a.symbol positions hget pos hmem
    obtain ⟨hne, _⟩ := (usable_spec s.grid anchor pos).1
      (findInMemory_some s.grid anchor positions pos hfind)
    refine ⟨?_, hmem, hne, ⟨c, hc, hsym⟩, ?_⟩
    · intro u
      simp only [makeMove, ha, hget, hfind]
    · intro w hw
      have hne2 : ¬ (anchor.row = pos.row ∧ anchor.col = pos.col) :=
        (pos_ne_iff anchor pos).1 (fun e => hne e.symm)
      have h1 : cardAt w.grid anchor.row anchor.col = some a := by
        rw [hw, cardAt_updateCard_other _ _ _ _ _ _ hne2, ha]
      have h2 : cardAt w.grid pos.row pos.col = some c.reveal := by
        rw [hw, cardAt_updateCard_same, hc]; rfl
      have hsym2 : a.symbol = c.reveal.symbol := hsym.symm
      refine ⟨_, aiResolve_eq w anchor pos a c.reveal h1 h2, ?_, ?_⟩
      · rw [if_pos hsym2, (finishAiTurn_fields _).2.2.1]
        exact (aiMatchFound_fields w anchor pos _ _).2.2.1
      · rw [if_pos hsym2, (finishAiTurn_fields _).2.1]
        exact (aiMatchFound_fields w anchor pos _ _).2.1

/-- C24 witness: in `undoReady` the computer remembers `🍎` at (0, 0) and `🍇` at (0, 3);
anchored on the other `🍎`, at (2, 3), the memory loop returns (0, 0). -/
theorem memory_pick_matches_anchor_witness :
    (undoReady.memory = [(some "🍎", [⟨0, 0⟩]), (some "🍇", [⟨0, 3⟩])] ∧
      findInMemory undoReady.grid ⟨2, 3⟩ [⟨0, 0⟩] = some (some ⟨0, 0⟩)) ∧
    (∀ sym ps, (sym, ps) ∈ undoReady.memory → ∀ p ∈ ps,
      ∃ c, cardAt undoReady.grid p.row p.col = some c ∧ c.symbol = sym) ∧
    (∀ (anchor pos : Pos) (a : Card) (positions : List Pos),
      cardAt undoReady.grid anchor.row anchor.col = some a →
      memGet undoReady.memory a.symbol = some positions →
      findInMemory undoReady.grid anchor positions = some (some pos) →
      (∀ u, makeMove undoReady.memory undoReady.grid (some anchor) u = some (some pos)) ∧
      pos ∈ positions ∧ pos ≠ anchor ∧
      (∃ c, cardAt undoReady.grid pos.row pos.col = some c ∧ c.symbol = a.symbol) ∧
      ∀ w : GameState, w.grid = updateCard undoReady.grid pos.row pos.col Card.reveal →
        ∃ t, aiResolve anchor pos w = some t ∧
          t.matchedPairs = w.matchedPairs + 1 ∧ t.player2Score = w.player2Score + 1) :=
  ⟨by decide, memory_pick_matches_anchor undoReady
    (play_reachable undoReadyEvents easyStart undoReady
      (Reachable.start GameMode.ai "easy" (fun _ => zeroDraw) initialGameState rfl rfl rfl)
      (by decide))⟩

/-! ## A mismatch seen by the computer (C22) -/

theorem handleCardClick_pick (row col : Nat) (s : GameState) (card : Card)
    (ha : s.isActive = true) (hP : s.isProcessing = false) (hturn : s.isPlayer1Turn = true)
    (hc : cardAt s.grid row col = some card) (hr : card.isRevealed = false)
    (hm : card.isMatched = false) :
    handleCardClick row col s = some { s with
      grid := updateCard s.grid row col Card.reveal
      flippedCards := s.flippedCards ++ [⟨row, col⟩]
      isProcessing := decide (s.flippedCards.length + 1 = 2)
      timers := if s.flippedCards.length + 1 = 2 then s.timers ++ [Callback.checkMatch]
        else s.timers } := by
  unfold handleCardClick
  simp only [ha, hP, hturn, hc, hr, hm, Bool.not_true, Bool.false_eq_true, if_false,
    Bool.and_false, Bool.or_false, List.length_append, List.length_singleton]
  split
  · next h => simp [h, hP]
  · next h => simp [h, hP]

theorem hidePair_eq (a b : Pos) (w : GameState) (ca cb : Card)
    (ha : cardAt w.grid a.row a.col = some ca) (hb : cardAt w.grid b.row b.col = some cb) :
    hidePair a b w = some { w with
      grid := updateCard (updateCard w.grid a.row a.col Card.hide) b.row b.col Card.hide } := by
  obtain ⟨x, hx⟩ := Option.isSome_iff_exists.1
    (show (cardAt (updateCard w.grid a.row a.col Card.hide) b.row b.col).isSome = true by
      rw [cardAt_updateCard_isSome, hb]; rfl)
  simp only [hidePair, unflipCard, ha, hx]

theorem click_effect (row col : Nat) (s : GameState) (card : Card)
    (ha : s.isActive = true) (hP : s.isProcessing = false) (hturn : s.isPlayer1Turn = true)
    (hc : cardAt s.grid row col = some card) (hr : card.isRevealed = false)
    (hm : card.isMatched = false) :
    ∃ t, handleCardClick row col s = some t ∧
      t.grid = updateCard s.grid row col Card.reveal ∧
      t.flippedCards = s.flippedCards ++ [⟨row, col⟩] ∧
      t.isProcessing = decide (s.flippedCards.length + 1 = 2) ∧
      t.timers = (if s.flippedCards.length + 1 = 2 then s.timers ++ [Callback.checkMatch]
        else s.timers) ∧
      t.isActive = s.isActive ∧ t.isPlayer1Turn = s.isPlayer1Turn ∧ t.memory = s.memory ∧
      t.isAIGame = s.isAIGame :=
  ⟨_, handleCardClick_pick row col s card ha hP hturn hc hr hm,
    rfl, rfl, rfl, rfl, rfl, rfl, rfl, rfl⟩

theorem finishCheckMatch_timers (s : GameState) :
    (finishCheckMatch s).timers = s.timers ∨
      (finishCheckMatch s).timers = s.timers ++ [Callback.aiThink] := by
  rw [finishCheckMatch_eq]
  by_cases h : checkGameOver s = true ∨ s.isPlayer1Turn = false ∨
      s.gameMode = GameMode.multiplayer
  · left
    show (if _ then s.timers else s.timers ++ [Callback.aiThink]) = s.timers
    rw [if_pos h]
  · right
    show (if _ then s.timers else s.timers ++ [Callback.aiThink]) = _
    rw [if_neg h]

theorem checkMatch_mismatch_fields (s : GameState) (card1 card2 : Pos) (rest : List Pos)
    (c1 c2 : Card)
    (hf : s.flippedCards = card1 :: card2 :: rest)
    (h1 : cardAt s.grid card1.row card1.col = some c1)
    (h2 : cardAt s.grid card2.row card2.col = some c2)
    (hsym : c1.symbol ≠ c2.symbol) :
    ∃ t, checkMatch s = some t ∧ t.grid = s.grid ∧
      t.memory = (if s.isAIGame then
        rememberCard (rememberCard s.memory c1.symbol card1.row card1.col)
          c2.symbol card2.row card2.col
        else s.memory) ∧
      ∃ more, t.timers = s.timers ++ Callback.hide card1 card2 :: more := by
  refine ⟨_, checkMatch_eq s card1 card2 rest c1 c2 hf h1 h2, ?_, ?_, ?_⟩
  · rw [if_neg hsym, (finishCheckMatch_fields _).2.2.2.2.2]; rfl
  · rw [if_neg hsym, (finishCheckMatch_fields _).2.2.2.2.1]; rfl
  · rw [if_neg hsym]
    rcases finishCheckMatch_timers (noMatch s card1 card2 c1.symbol c2.symbol) with h | h
    · exact ⟨[], h⟩
    · refine ⟨[Callback.aiThink], h.trans ?_⟩
      show (s.timers ++ [Callback.hide card1 card2]) ++ [Callback.aiThink] = _
      rw [List.append_assoc]; rfl

/-- C22: in a game against the computer, in a state where Player 1 is to move, nothing is
picked or pending and the memory is empty, let `p` and `q` be two positions of face-down,
unmatched cards with different symbols. After Player 1 clicks `p` and then `q`, the delayed
`checkMatch` runs and the hide callback runs, the memory holds exactly `p` under the symbol
of `p` and `q` under the symbol of `q`, both cards are as they were before the clicks, and
`makeMove` anchored on any other card `r` that carries the symbol of `p` returns `p`,
whatever the draw. -/
theorem mismatch_is_remembered (s : GameState) (p q r : Pos) (cp cq cr : Card)
    (u1 u2 : Draw)
    (ha : s.isActive = true) (hai : s.isAIGame = true) (hturn : s.isPlayer1Turn = true)
    (hP : s.isProcessing = false) (hF : s.flippedCards = []) (hT : s.timers = [])
    (hmem : s.memory = [])
    (hp : cardAt s.grid p.row p.col = some cp) (hq : cardAt s.grid q.row q.col = some cq)
    (hpf : cp.isRevealed = false ∧ cp.isMatched = false)
    (hqf : cq.isRevealed = false ∧ cq.isMatched = false)
    (hsym : cp.symbol ≠ cq.symbol)
    (hr : cardAt s.grid r.row r.col = some cr) (hrp : r ≠ p)
    (hrsym : cr.symbol = cp.symbol) :
    ∃ t, play [Event.click p.row p.col, Event.click q.row q.col, Event.fire 0 u1,
        Event.fire 0 u2] s = some t ∧
      t.memory = [(cp.symbol, [p]), (cq.symbol, [q])] ∧
      cardAt t.grid p.row p.col = some cp ∧ cardAt t.grid q.row q.col = some cq ∧
      ∀ u, makeMove t.memory t.grid (some r) u = some (some p) := by
  have hpq : p ≠ q := by
    intro e
    rw [e, hq] at hp
    exact hsym (by rw [Option.some.inj hp])
  have hrq : r ≠ q := by
    intro e
    rw [e, hq] at hr
    exact hsym (by rw [← hrsym, Option.some.inj hr])
  have hqp2 : ¬ (q.row = p.row ∧ q.col = p.col) := (pos_ne_iff q p).1 (Ne.symm hpq)
  have hpq2 : ¬ (p.row = q.row ∧ p.col = q.col) := (pos_ne_iff p q).1 hpq
  have hrp2 : ¬ (r.row = p.row ∧ r.col = p.col) := (pos_ne_iff r p).1 hrp
  have hrq2 : ¬ (r.row = q.row ∧ r.col = q.col) := (pos_ne_iff r q).1 hrq
  -- the first click
  obtain ⟨s1, e1, g1, f1, p1, t1, a1, turn1, m1, ai1⟩ :=
    click_effect p.row p.col s cp ha hP hturn hp hpf.1 hpf.2
  rw [hF] at f1 p1 t1
  have p1' : s1.isProcessing = false := p1
  have t1' : s1.timers = [] := t1.trans hT
  have hq1 : cardAt s1.grid q.row q.col = some cq := by
    rw [g1, cardAt_updateCard_other _ _ _ _ _ _ hqp2, hq]
  -- the second click
  obtain ⟨s2, e2, g2, f2, p2, t2, a2, turn2, m2, ai2⟩ :=
    click_effect q.row q.col s1 cq (a1.trans ha) p1' (turn1.trans hturn) hq1 hqf.1 hqf.2
  rw [f1] at f2 p2 t2
  have f2' : s2.flippedCards = [p, q] := f2
  have t2' : s2.timers = [Callback.checkMatch] := by rw [t2, t1']; rfl
  have hp2 : cardAt s2.grid p.row p.col = some cp.reveal := by
    rw [g2, cardAt_updateCard_other _ _ _ _ _ _ hpq2, g1, cardAt_updateCard_same, hp]; rfl
  have hq2 : cardAt s2.grid q.row q.col = some cq.reveal := by
    rw [g2, cardAt_updateCard_same, hq1]; rfl
  -- the delayed checkMatch
  obtain ⟨s3, e3, g3, m3, more, t3⟩ :=
    checkMatch_mismatch_fields { s2 with timers := [] } p q [] cp.reveal cq.reveal
      f2' hp2 hq2 hsym
  have ev3 : applyEvent (Event.fire 0 u1) s2 = some s3 := by
    simp only [applyEvent, t2', List.getElem?_cons_zero, List.eraseIdx_cons_zero]
    exact e3
  have m3' : s3.memory = [(cp.symbol, [p]), (cq.symbol, [q])] := by
    rw [m3]
    show (if s2.isAIGame = true then
      rememberCard (rememberCard s2.memory cp.symbol p.row p.col) cq.symbol q.row q.col
      else s2.memory) = _
    rw [ai2, ai1, hai, m2, m1, hmem, if_pos rfl]
    simp [rememberCard, memGet, memSet, hsym]
  have t3' : s3.timers = Callback.hide p q :: more := t3
  have hp3 : cardAt s3.grid p.row p.col = some cp.reveal := by rw [g3]; exact hp2
  have hq3 : cardAt s3.grid q.row q.col = some cq.reveal := by rw [g3]; exact hq2
  -- the hide callback
  have e4 := hidePair_eq p q { s3 with timers := more } cp.reveal cq.reveal hp3 hq3
  have ev4 : applyEvent (Event.fire 0 u2) s3 = some { s3 with
      timers := more
      grid := updateCard (updateCard s3.grid p.row p.col Card.hide)
        q.row q.col Card.hide } := by
    simp only [applyEvent, t3', List.getElem?_cons_zero, List.eraseIdx_cons_zero]
    exact e4
  have hcp : cp.reveal.hide = cp := by
    cases cp
    simp only [Card.reveal, Card.hide]
    simp only at hpf
    rw [hpf.1]
  have hcq : cq.reveal.hide = cq := by
    cases cq
    simp only [Card.reveal, Card.hide]
    simp only at hqf
    rw [hqf.1]
  have hp4 : cardAt (updateCard (updateCard s3.grid p.row p.col Card.hide)
      q.row q.col Card.hide) p.row p.col = some cp := by
    rw [cardAt_updateCard_other _ _ _ _ _ _ hpq2, cardAt_updateCard_same, hp3]
    exact congrArg some hcp
  have hq4 : cardAt (updateCard (updateCard s3.grid p.row p.col Card.hide)
      q.row q.col Card.hide) q.row q.col = some cq := by
    rw [cardAt_updateCard_same, cardAt_updateCard_other _ _ _ _ _ _ hqp2, hq3]
    exact congrArg some hcq
  have hr4 : cardAt (updateCard (updateCard s3.grid p.row p.col Card.hide)
      q.row q.col Card.hide) r.row r.col = some cr := by
    rw [cardAt_updateCard_other _ _ _ _ _ _ hrq2, cardAt_updateCard_other _ _ _ _ _ _ hrp2,
      g3]
    show cardAt s2.grid r.row r.col = some cr
    rw [g2, cardAt_updateCard_other _ _ _ _ _ _ hrq2, g1,
      cardAt_updateCard_other _ _ _ _ _ _ hrp2, hr]
  obtain ⟨t, ev5, gt, mt⟩ : ∃ t, applyEvent (Event.fire 0 u2) s3 = some t ∧
      t.grid = updateCard (updateCard s3.grid p.row p.col Card.hide) q.row q.col Card.hide ∧
      t.memory = s3.memory := ⟨_, ev4, rfl, rfl⟩
  have hplay : play [Event.click p.row p.col, Event.click q.row q.col, Event.fire 0 u1,
      Event.fire 0 u2] s = some t := by
    have ev1 : applyEvent (Event.click p.row p.col) s = some s1 := e1
    have ev2 : applyEvent (Event.click q.row q.col) s1 = some s2 := e2
    simp only [play, ev1, ev2, ev3, ev5]
  refine ⟨t, hplay, mt.trans m3', gt ▸ hp4, gt ▸ hq4, ?_⟩
  intro u
  have husable : usable t.grid r p = true :=
    (usable_spec _ r p).2 ⟨Ne.symm hrp, cp, gt ▸ hp4, hpf.2, hpf.1⟩
  have hin : ∀ x ∈ [p], (cardAt t.grid x.row x.col).isSome = true := by
    intro x hx
    rw [List.mem_singleton.1 hx, gt, hp4]; rfl
  have hget : memGet t.memory cr.symbol = some [p] := by
    rw [mt, m3', hrsym]
    simp [memGet]
  have hr5 : cardAt t.grid r.row r.col = some cr := gt ▸ hr4
  simp only [makeMove, hr5, hget, findInMemory_eq_find _ r [p] hin, List.find?_cons,
    husable]

/-- C22 witness: on the 2 x 2 board `🍎 🍌 / 🍌 🍎`, Player 1 picks `🍎` at (0, 0) and
`🍌` at (0, 1); anchored on the other `🍎`, at (1, 1), `makeMove` returns (0, 0). -/
theorem mismatch_is_remembered_witness :
    ∃ t, play [Event.click 0 0, Event.click 0 1, Event.fire 0 zeroDraw,
        Event.fire 0 zeroDraw] smallBoard = some t ∧
      t.memory = [(some "🍎", [⟨0, 0⟩]), (some "🍌", [⟨0, 1⟩])] ∧
      cardAt t.grid 0 0 = some ⟨some "🍎", 0, 0, false, false⟩ ∧
      cardAt t.grid 0 1 = some ⟨some "🍌", 0, 1, false, false⟩ ∧
      ∀ u, makeMove t.memory t.grid (some ⟨1, 1⟩) u = some (some ⟨0, 0⟩) :=
  mismatch_is_remembered smallBoard ⟨0, 0⟩ ⟨0, 1⟩ ⟨1, 1⟩
    ⟨some "🍎", 0, 0, false, false⟩ ⟨some "🍌", 0, 1, false, false⟩
    ⟨some "🍎", 1, 1, false, false⟩ zeroDraw zeroDraw
    (by decide) (by decide) (by decide) (by decide) (by decide) (by decide) (by decide)
    (by decide) (by decide) (by decide) (by decide) (by decide) (by decide) (by decide)
    (by decide)

/-! ## The anchor of the second pick in a session -/

theorem second_pick_anchor_face_up (s : GameState) (hr : Reachable s)
    (before after : List Callback) (c1 : Pos)
    (ht : s.timers = before ++ Callback.aiSecondPick c1 :: after) :
    ∃ x, cardAt s.grid c1.row c1.col = some x ∧ x.isRevealed = true := by
  have hb := board_fired s (invariant_reachable s hr) before after _ ht
  obtain ⟨x, hx, hxr, _⟩ := hb.up_cards c1
    (List.mem_append_left _ (List.mem_singleton_self c1))
  exact ⟨x, hx, hxr⟩

/-! ## Sessions started over a pending pick or callback (C8, C20, C25) -/

/-- C20 (the code at the failing input): in a two-player easy game Player 1 picks the card
at (0, 0) and presses Reset. `resetGame` rebuilds the grid and keeps the pending pick, so a
second click on (0, 0) completes the pair `(0, 0), (0, 0)`; `checkMatch` finds equal symbols
and counts a pair although one card only is matched: `matchedPairs = 1`, one matched card.
After the five pairs `🍌`, `🍇`, `🍊`, `🍓` and `🍒`, `matchedPairs = 6 = totalPairs` and
`checkGameOver()` is true, while 11 of the 12 cards are matched and the `🍎` at (2, 3) is
not. -/
theorem self_pair_breaks_pair_count :
    (resetAfterPick.isActive = true ∧ resetAfterPick.flippedCards = [⟨0, 0⟩] ∧
      resetAfterPick.isProcessing = false ∧ resetAfterPick.matchedPairs = 0 ∧
      (cardAt resetAfterPick.grid 0 0).map Card.isRevealed = some false) ∧
    (play selfPairEvents resetAfterPick).map
      (fun t => (t.matchedPairs, matchedCount t.grid)) = some (1, 1) ∧
    (play selfPairGameEvents resetAfterPick).map
      (fun t => (checkGameOver t, t.matchedPairs, t.totalPairs2)) = some (true, 6, 12) ∧
    (play selfPairGameEvents resetAfterPick).map
      (fun t => (matchedCount t.grid, cardCount t.grid)) = some (11, 12) ∧
    (play selfPairGameEvents resetAfterPick).map
      (fun t => (cardAt t.grid 2 3).map Card.isMatched) = some (some false) := by
  refine ⟨?_, ?_, ?_, ?_, ?_⟩ <;> decide

/-- C8 (the code at the failing input): an easy game against the computer is left with
`exitGame` while the resolution callback of `aiTurn` on the two `🍌` cards is pending, and
a new easy game against the computer is started. Player 1 clicks `🍌` at (0, 1) and `🍎` at
(0, 0); the callback of the previous game fires and marks the `🍌` cards at (0, 1) and
(0, 2) matched; the delayed `checkMatch` then finds `🍌` and `🍎` different and stores both
positions. The memory holds (0, 1) under `🍌`, and the card at (0, 1) is matched. -/
theorem stale_match_is_remembered :
    Reachable aiMatchReady ∧
    (restartedAi.isActive = true ∧ restartedAi.memory = [] ∧
      restartedAi.flippedCards = [] ∧ restartedAi.isProcessing = false ∧
      restartedAi.timers = [Callback.aiResolve ⟨0, 1⟩ ⟨0, 2⟩]) ∧
    (play (staleMatchEvents.take 3) restartedAi).map
      (fun t => (t.flippedCards, (cardAt t.grid 0 1).map Card.isMatched, t.memory)) =
        some ([⟨0, 1⟩, ⟨0, 0⟩], some true, []) ∧
    (play staleMatchEvents restartedAi).map (fun t => t.memory) =
      some [(some "🍌", [⟨0, 1⟩]), (some "🍎", [⟨0, 0⟩])] ∧
    (play staleMatchEvents restartedAi).map
      (fun t => (cardAt t.grid 0 1).map Card.isMatched) = some (some true) := by
  refine ⟨play_reachable aiMatchReadyEvents easyStart aiMatchReady
      (Reachable.start GameMode.ai "easy" (fun _ => zeroDraw) initialGameState rfl rfl rfl)
      (by decide), ?_, ?_, ?_, ?_⟩ <;> decide

/-- C25 (the code at the failing input): an easy game against the computer is left with
`exitGame` while the resolution callback of `aiTurn` on the two `🍌` cards is pending, and
a two-player easy game is started. Player 1 clicks the two `🍌` cards; the callback of the
previous game and the delayed `checkMatch` both resolve that pair, so that `matchedPairs`
is 2 with two matched cards. After the pairs `🍇`, `🍊`, `🍓` and `🍒`, `matchedPairs` is
6 and `checkGameOver()` is true with the two `🍎` cards unmatched; picking them gives
`matchedPairs = 7` with `totalPairs = 6`. -/
theorem stale_match_is_counted_twice :
    Reachable aiMatchReady ∧
    (restartedMulti.isActive = true ∧ restartedMulti.matchedPairs = 0 ∧
      restartedMulti.flippedCards = [] ∧ restartedMulti.isProcessing = false ∧
      restartedMulti.timers = [Callback.aiResolve ⟨0, 1⟩ ⟨0, 2⟩]) ∧
    (play doubleCountEvents restartedMulti).map
      (fun t => (t.matchedPairs, t.player1Score, t.player2Score, matchedCount t.grid)) =
        some (2, 0, 2, 2) ∧
    (play (overCountEvents.take 17) restartedMulti).map
      (fun t => (checkGameOver t, t.matchedPairs, t.totalPairs2, matchedCount t.grid)) =
        some (true, 6, 12, 10) ∧
    (play overCountEvents restartedMulti).map
      (fun t => (t.matchedPairs, t.totalPairs2, t.player1Score, t.player2Score)) =
        some (7, 12, 2, 5) := by
  refine ⟨play_reachable aiMatchReadyEvents easyStart aiMatchReady
      (Reachable.start GameMode.ai "easy" (fun _ => zeroDraw) initialGameState rfl rfl rfl)
      (by decide), ?_, ?_, ?_, ?_⟩ <;> decide

end MemoryGame
